import Mathlib

/-! BockVote: the voting-state engine and the transaction envelope

A shallow embedding of the engine in `core/voting_state.go` and, further down, of the envelope
in `core/transaction.go`.

* Go maps `map[string]V` are association lists `GoMap V`; `GoMap.get` is the map read,
  `GoMap.set` the map write (overwrite the entry of the key, or add one).
* Every engine method is a function from the state before the call to the state after it,
  paired with what the call returned (`Ret`): the `nil` error, an error value, or a run-time
  panic.  The mutex is not modelled: each method holds it for the whole body.
* `time.Now().Unix()` is the argument `now`.
* `crypto.PublicKey` lives outside the repository.  The key type is the parameter `PK` and its
  `String()` method the parameter `keyStr`.
* `uint64` tallies are naturals, incremented modulo `2 ^ 64`; `int64` times are integers (they
  are only compared and copied).
* The order in which `range vs.voters` visits the voters is not fixed by Go: `CastVote` takes
  the visited sequence `scan` as an argument, a permutation of the voters map.
-/

namespace BockVote

/-! ## Go maps -/

/-- A Go `map[string]V`, as the list of its entries. -/
abbrev GoMap (V : Type) := List (String × V)

namespace GoMap

/-- Map read `m[k]` with the comma-ok result: the value stored under `k`, if any. -/
def get {V : Type} : GoMap V → String → Option V
  | [], _ => none
  | (k', v) :: rest, k => if k' = k then some v else get rest k

/-- Map write `m[k] = v`: overwrite the entry of `k`, or add one. -/
def set {V : Type} : GoMap V → String → V → GoMap V
  | [], k, v => [(k, v)]
  | (k', v') :: rest, k, v => if k' = k then (k, v) :: rest else (k', v') :: set rest k v

/-- The keys of the map, in entry order. -/
def keys {V : Type} (m : GoMap V) : List String := m.map Prod.fst

/-- Apply `f` to every stored value (a `range` loop that updates each value in place). -/
def mapValues {V : Type} (f : V → V) (m : GoMap V) : GoMap V := m.map (fun p => (p.1, f p.2))

end GoMap

/-! ## Data model -/

/-- Status of a voter registration (`VoterStatus`). -/
inductive VoterStatus where
  | Pending
  | Approved
  | Rejected
deriving DecidableEq, Repr

/-- Status of a candidate registration (`CandidateStatus`). -/
inductive CandidateStatus where
  | Pending
  | Approved
  | Rejected
deriving DecidableEq, Repr

/-- Status of an election (`ElectionStatus`). -/
inductive ElectionStatus where
  | Pending
  | Active
  | Ended
deriving DecidableEq, Repr

/-- A registered voter. -/
structure Voter (PK : Type) where
  ID : String
  PublicKey : PK
  IPFSDocHash : String
  Status : VoterStatus
  Timestamp : Int
deriving DecidableEq, Repr

/-- A registered candidate. -/
structure Candidate (PK : Type) where
  ID : String
  ElectionID : String
  PublicKey : PK
  IPFSProfileHash : String
  Status : CandidateStatus
  Timestamp : Int
  VoteCount : Nat
deriving DecidableEq, Repr

/-- An election, with its candidates and its per-candidate tallies. -/
structure Election (PK : Type) where
  ID : String
  Title : String
  Description : String
  StartTime : Int
  EndTime : Int
  AdminKey : PK
  Status : ElectionStatus
  Timestamp : Int
  Candidates : GoMap (Candidate PK)
  VoteCounts : GoMap Nat
deriving DecidableEq, Repr

/-- The engine state: voters by ID, elections by ID, and per election the voters that voted. -/
structure VotingState (PK : Type) where
  voters : GoMap (Voter PK)
  elections : GoMap (Election PK)
  hasVoted : GoMap (GoMap Bool)
deriving DecidableEq, Repr

/-- Payload of a voter registration (`core/transaction.go`); its `Signature` field is not read
by the engine and is left out. -/
structure VoterRegistrationTx (PK : Type) where
  VoterID : String
  IPFSDocHash : String
  VoterPublicKey : PK
  Timestamp : Int
deriving DecidableEq, Repr

/-- Payload of a candidate registration; `Signature` left out as above. -/
structure CandidateRegistrationTx (PK : Type) where
  CandidateID : String
  ElectionID : String
  IPFSProfileHash : String
  CandidatePublicKey : PK
  Timestamp : Int
deriving DecidableEq, Repr

/-- Payload of a vote; `Signature` left out as above. -/
structure VoteTx (PK : Type) where
  ElectionID : String
  CandidateID : String
  VoterPublicKey : PK
  Timestamp : Int
deriving DecidableEq, Repr

/-- Payload of an election creation; `Signature` left out as above. -/
structure ElectionCreationTx (PK : Type) where
  ElectionID : String
  Title : String
  Description : String
  StartTime : Int
  EndTime : Int
  AdminPublicKey : PK
  Timestamp : Int
deriving DecidableEq, Repr

/-! ## Errors and results -/

/-- The error values built by the engine with `fmt.Errorf`, one constructor per format string,
carrying the formatted arguments. -/
inductive Error where
  | voterExists (voterID : String)
  | voterMissing (voterID : String)
  | electionExists (electionID : String)
  | electionMissing (electionID : String)
  | candidateExists (candidateID electionID : String)
  | candidateMissing (candidateID electionID : String)
  | unauthorizedApprove
  | unauthorizedReject
  | notStarted (electionID : String)
  | ended (electionID : String)
  | voterNotFound
  | voterNotApproved
  | candidateNotApproved
  | duplicateVote
  | notEnded (electionID : String)
deriving DecidableEq, Repr

/-- The text of each error, as formatted in the source. -/
def Error.message : Error → String
  | .voterExists v => "voter with ID " ++ v ++ " already exists"
  | .voterMissing v => "voter with ID " ++ v ++ " does not exist"
  | .electionExists e => "election with ID " ++ e ++ " already exists"
  | .electionMissing e => "election with ID " ++ e ++ " does not exist"
  | .candidateExists c e => "candidate with ID " ++ c ++ " already registered for election " ++ e
  | .candidateMissing c e => "candidate with ID " ++ c ++ " does not exist in election " ++ e
  | .unauthorizedApprove => "unauthorized: only the election admin can approve candidates"
  | .unauthorizedReject => "unauthorized: only the election admin can reject candidates"
  | .notStarted e => "election " ++ e ++ " has not started yet"
  | .ended e => "election " ++ e ++ " has ended"
  | .voterNotFound => "voter not found or not registered"
  | .voterNotApproved => "voter is not approved to vote"
  | .candidateNotApproved => "candidate is not approved to receive votes"
  | .duplicateVote => "voter has already cast a vote in this election"
  | .notEnded e => "election " ++ e ++ " has not ended yet"

/-- What a call returned: the `nil` error, an error value, or a run-time panic (a write to an
entry of a nil map, a nil pointer dereference). -/
inductive Ret where
  | nil
  | err (e : Error)
  | panic
deriving DecidableEq, Repr

/-- The largest number of entries of a Go map: `len` of a map is an `int`. -/
def maxMapLen : Nat := 2 ^ 63 - 1

/-- Increment of a `uint64`. -/
def incr64 (n : Nat) : Nat := (n + 1) % 2 ^ 64

/-! ## The engine -/

/-- State of a fresh engine: three empty maps. -/
def NewVotingState {PK : Type} : VotingState PK :=
  { voters := [], elections := [], hasVoted := [] }

/-- Add a new voter to the state. -/
def RegisterVoter {PK : Type} (tx : VoterRegistrationTx PK) (vs : VotingState PK) :
    VotingState PK × Ret :=
  match GoMap.get vs.voters tx.VoterID with
  | some _ => (vs, .err (.voterExists tx.VoterID))
  | none =>
    let voter : Voter PK :=
      { ID := tx.VoterID
        PublicKey := tx.VoterPublicKey
        IPFSDocHash := tx.IPFSDocHash
        Status := .Pending
        Timestamp := tx.Timestamp }
    ({ vs with voters := GoMap.set vs.voters tx.VoterID voter }, .nil)

/-- Approve a voter registration.  The `adminKey` argument is not read. -/
def ApproveVoter {PK : Type} (voterID : String) (_adminKey : PK) (vs : VotingState PK) :
    VotingState PK × Ret :=
  match GoMap.get vs.voters voterID with
  | none => (vs, .err (.voterMissing voterID))
  | some voter =>
    ({ vs with voters := GoMap.set vs.voters voterID { voter with Status := .Approved } }, .nil)

/-- Reject a voter registration.  The `adminKey` argument is not read. -/
def RejectVoter {PK : Type} (voterID : String) (_adminKey : PK) (vs : VotingState PK) :
    VotingState PK × Ret :=
  match GoMap.get vs.voters voterID with
  | none => (vs, .err (.voterMissing voterID))
  | some voter =>
    ({ vs with voters := GoMap.set vs.voters voterID { voter with Status := .Rejected } }, .nil)

/-- The status `CreateElection` leaves on the election it has just stored as `Pending`. -/
def createStatus {PK : Type} (now : Int) (election : Election PK) : ElectionStatus :=
  if now ≥ election.StartTime ∧ now < election.EndTime then .Active
  else if now ≥ election.EndTime then .Ended
  else election.Status

/-- Create a new election. -/
def CreateElection {PK : Type} (now : Int) (tx : ElectionCreationTx PK) (vs : VotingState PK) :
    VotingState PK × Ret :=
  match GoMap.get vs.elections tx.ElectionID with
  | some _ => (vs, .err (.electionExists tx.ElectionID))
  | none =>
    let election : Election PK :=
      { ID := tx.ElectionID
        Title := tx.Title
        Description := tx.Description
        StartTime := tx.StartTime
        EndTime := tx.EndTime
        AdminKey := tx.AdminPublicKey
        Status := .Pending
        Timestamp := tx.Timestamp
        Candidates := []
        VoteCounts := [] }
    ({ vs with
        elections :=
          GoMap.set vs.elections tx.ElectionID { election with Status := createStatus now election }
        hasVoted := GoMap.set vs.hasVoted tx.ElectionID [] }, .nil)

/-- Add a new candidate to an election. -/
def RegisterCandidate {PK : Type} (tx : CandidateRegistrationTx PK) (vs : VotingState PK) :
    VotingState PK × Ret :=
  match GoMap.get vs.elections tx.ElectionID with
  | none => (vs, .err (.electionMissing tx.ElectionID))
  | some election =>
    match GoMap.get election.Candidates tx.CandidateID with
    | some _ => (vs, .err (.candidateExists tx.CandidateID tx.ElectionID))
    | none =>
      let candidate : Candidate PK :=
        { ID := tx.CandidateID
          ElectionID := tx.ElectionID
          PublicKey := tx.CandidatePublicKey
          IPFSProfileHash := tx.IPFSProfileHash
          Status := .Pending
          Timestamp := tx.Timestamp
          VoteCount := 0 }
      let election1 : Election PK :=
        { election with
            Candidates := GoMap.set election.Candidates tx.CandidateID candidate
            VoteCounts := GoMap.set election.VoteCounts tx.CandidateID 0 }
      ({ vs with elections := GoMap.set vs.elections tx.ElectionID election1 }, .nil)

/-- Approve a candidate registration. -/
def ApproveCandidate {PK : Type} (keyStr : PK → String) (electionID candidateID : String)
    (adminKey : PK) (vs : VotingState PK) : VotingState PK × Ret :=
  match GoMap.get vs.elections electionID with
  | none => (vs, .err (.electionMissing electionID))
  | some election =>
    if keyStr election.AdminKey ≠ keyStr adminKey then (vs, .err .unauthorizedApprove)
    else
      match GoMap.get election.Candidates candidateID with
      | none => (vs, .err (.candidateMissing candidateID electionID))
      | some candidate =>
        let election1 : Election PK :=
          { election with
              Candidates :=
                GoMap.set election.Candidates candidateID { candidate with Status := .Approved } }
        ({ vs with elections := GoMap.set vs.elections electionID election1 }, .nil)

/-- Reject a candidate registration. -/
def RejectCandidate {PK : Type} (keyStr : PK → String) (electionID candidateID : String)
    (adminKey : PK) (vs : VotingState PK) : VotingState PK × Ret :=
  match GoMap.get vs.elections electionID with
  | none => (vs, .err (.electionMissing electionID))
  | some election =>
    if keyStr election.AdminKey ≠ keyStr adminKey then (vs, .err .unauthorizedReject)
    else
      match GoMap.get election.Candidates candidateID with
      | none => (vs, .err (.candidateMissing candidateID electionID))
      | some candidate =>
        let election1 : Election PK :=
          { election with
              Candidates :=
                GoMap.set election.Candidates candidateID { candidate with Status := .Rejected } }
        ({ vs with elections := GoMap.set vs.elections electionID election1 }, .nil)

/-- The voter lookup loop of `CastVote`: `scan` is the sequence of entries that
`range vs.voters` yields; the ID of the first one whose key has the string form `key` is
kept, and the variable stays `""` when there is none. -/
def findVoterID {PK : Type} (keyStr : PK → String) (key : String) :
    List (String × Voter PK) → String
  | [] => ""
  | (id, voter) :: rest =>
    if keyStr voter.PublicKey = key then id else findVoterID keyStr key rest

/-- Record a vote for a candidate. -/
def CastVote {PK : Type} (keyStr : PK → String) (now : Int) (scan : List (String × Voter PK))
    (tx : VoteTx PK) (vs : VotingState PK) : VotingState PK × Ret :=
  match GoMap.get vs.elections tx.ElectionID with
  | none => (vs, .err (.electionMissing tx.ElectionID))
  | some election =>
    if now < election.StartTime then (vs, .err (.notStarted tx.ElectionID))
    else if now ≥ election.EndTime then (vs, .err (.ended tx.ElectionID))
    else
      let voterID := findVoterID keyStr (keyStr tx.VoterPublicKey) scan
      if voterID = "" then (vs, .err .voterNotFound)
      else
        match GoMap.get vs.voters voterID with
        | none => (vs, .panic)
        | some voter =>
          if voter.Status ≠ .Approved then (vs, .err .voterNotApproved)
          else
            match GoMap.get election.Candidates tx.CandidateID with
            | none => (vs, .err (.candidateMissing tx.CandidateID tx.ElectionID))
            | some candidate =>
              if candidate.Status ≠ .Approved then (vs, .err .candidateNotApproved)
              else if GoMap.get ((GoMap.get vs.hasVoted tx.ElectionID).getD []) voterID = some true then
                (vs, .err .duplicateVote)
              else
                let election1 : Election PK :=
                  { election with
                      VoteCounts :=
                        GoMap.set election.VoteCounts tx.CandidateID
                          (incr64 ((GoMap.get election.VoteCounts tx.CandidateID).getD 0))
                      Candidates :=
                        GoMap.set election.Candidates tx.CandidateID
                          { candidate with VoteCount := incr64 candidate.VoteCount } }
                let vs1 : VotingState PK :=
                  { vs with elections := GoMap.set vs.elections tx.ElectionID election1 }
                match GoMap.get vs.hasVoted tx.ElectionID with
                | none => (vs1, .panic)
                | some voted =>
                  ({ vs1 with
                      hasVoted :=
                        GoMap.set vs.hasVoted tx.ElectionID (GoMap.set voted voterID true) }, .nil)

/-- The copy loop of `GetElectionResults`: every entry of the tally map is written into a fresh
map. -/
def copyCounts (counts : GoMap Nat) : GoMap Nat :=
  counts.foldl (fun results p => GoMap.set results p.1 p.2) []

/-- The results of an election: the state (it is only read), the returned map (`none` for the
nil map) and the returned error. -/
def GetElectionResults {PK : Type} (now : Int) (electionID : String) (vs : VotingState PK) :
    VotingState PK × Option (GoMap Nat) × Ret :=
  match GoMap.get vs.elections electionID with
  | none => (vs, none, .err (.electionMissing electionID))
  | some election =>
    if now < election.EndTime then (vs, none, .err (.notEnded electionID))
    else (vs, some (copyCounts election.VoteCounts), .nil)

/-- Information about an election. -/
def GetElection {PK : Type} (electionID : String) (vs : VotingState PK) :
    VotingState PK × Option (Election PK) × Ret :=
  match GoMap.get vs.elections electionID with
  | none => (vs, none, .err (.electionMissing electionID))
  | some election => (vs, some election, .nil)

/-- Information about a voter. -/
def GetVoter {PK : Type} (voterID : String) (vs : VotingState PK) :
    VotingState PK × Option (Voter PK) × Ret :=
  match GoMap.get vs.voters voterID with
  | none => (vs, none, .err (.voterMissing voterID))
  | some voter => (vs, some voter, .nil)

/-- Information about a candidate. -/
def GetCandidate {PK : Type} (electionID candidateID : String) (vs : VotingState PK) :
    VotingState PK × Option (Candidate PK) × Ret :=
  match GoMap.get vs.elections electionID with
  | none => (vs, none, .err (.electionMissing electionID))
  | some election =>
    match GoMap.get election.Candidates candidateID with
    | none => (vs, none, .err (.candidateMissing candidateID electionID))
    | some candidate => (vs, some candidate, .nil)

/-- The body of the loop of `UpdateElectionStatuses`, for one election. -/
def updateStatus {PK : Type} (now : Int) (election : Election PK) : Election PK :=
  if now ≥ election.StartTime ∧ now < election.EndTime ∧ election.Status ≠ .Active then
    { election with Status := .Active }
  else if now ≥ election.EndTime ∧ election.Status ≠ .Ended then
    { election with Status := .Ended }
  else election

/-- Update the status of all elections from the current time. -/
def UpdateElectionStatuses {PK : Type} (now : Int) (vs : VotingState PK) : VotingState PK :=
  { vs with elections := GoMap.mapValues (updateStatus now) vs.elections }


/-! ## Tallies, reachable states, invariants -/

/-- Sum of all values of a tally map, as a natural number. -/
def tallySum (counts : GoMap Nat) : Nat := (counts.map Prod.snd).sum

/-- Number of IDs marked `true` in a hasVoted map. -/
def countTrue (voted : GoMap Bool) : Nat := (voted.filter (fun p => p.2)).length

/-- The hasVoted map of an election, `vs.hasVoted[electionID]`: a missing one reads as the nil
(empty) map. -/
def votedIn {PK : Type} (vs : VotingState PK) (electionID : String) : GoMap Bool :=
  (GoMap.get vs.hasVoted electionID).getD []

/-- The states the engine can be in: the fresh state, and the state left by any method called
in such a state, at any clock reading and with any arguments.  `range vs.voters` visits the
entries of the voters map in some order (`scan` is a permutation of them), and a Go map holds
at most `maxMapLen` entries: `RegisterVoter` runs on a voters map that is not full. -/
inductive Reachable {PK : Type} (keyStr : PK → String) : VotingState PK → Prop where
  | init : Reachable keyStr NewVotingState
  | registerVoter {vs : VotingState PK} (tx : VoterRegistrationTx PK) :
      Reachable keyStr vs → vs.voters.length < maxMapLen →
      Reachable keyStr (RegisterVoter tx vs).1
  | approveVoter {vs : VotingState PK} (voterID : String) (adminKey : PK) :
      Reachable keyStr vs → Reachable keyStr (ApproveVoter voterID adminKey vs).1
  | rejectVoter {vs : VotingState PK} (voterID : String) (adminKey : PK) :
      Reachable keyStr vs → Reachable keyStr (RejectVoter voterID adminKey vs).1
  | createElection {vs : VotingState PK} (now : Int) (tx : ElectionCreationTx PK) :
      Reachable keyStr vs → Reachable keyStr (CreateElection now tx vs).1
  | registerCandidate {vs : VotingState PK} (tx : CandidateRegistrationTx PK) :
      Reachable keyStr vs → Reachable keyStr (RegisterCandidate tx vs).1
  | approveCandidate {vs : VotingState PK} (electionID candidateID : String) (adminKey : PK) :
      Reachable keyStr vs →
      Reachable keyStr (ApproveCandidate keyStr electionID candidateID adminKey vs).1
  | rejectCandidate {vs : VotingState PK} (electionID candidateID : String) (adminKey : PK) :
      Reachable keyStr vs →
      Reachable keyStr (RejectCandidate keyStr electionID candidateID adminKey vs).1
  | castVote {vs : VotingState PK} (now : Int) (scan : List (String × Voter PK))
      (tx : VoteTx PK) :
      Reachable keyStr vs → scan.Perm vs.voters →
      Reachable keyStr (CastVote keyStr now scan tx vs).1
  | updateElectionStatuses {vs : VotingState PK} (now : Int) :
      Reachable keyStr vs → Reachable keyStr (UpdateElectionStatuses now vs)

/-- Consistency of the three maps of the engine, kept by every method. -/
structure Inv {PK : Type} (vs : VotingState PK) : Prop where
  votersBound : vs.voters.length ≤ maxMapLen
  votersNodup : (GoMap.keys vs.voters).Nodup
  votedSome : ∀ eid e, GoMap.get vs.elections eid = some e →
    ∃ voted, GoMap.get vs.hasVoted eid = some voted
  votedNodup : ∀ eid voted, GoMap.get vs.hasVoted eid = some voted → (GoMap.keys voted).Nodup
  votedRegistered : ∀ eid voted, GoMap.get vs.hasVoted eid = some voted →
    ∀ vid ∈ GoMap.keys voted, vid ∈ GoMap.keys vs.voters
  tally : ∀ eid e, GoMap.get vs.elections eid = some e →
    tallySum e.VoteCounts = countTrue (votedIn vs eid)
  candCount : ∀ eid e cid c, GoMap.get vs.elections eid = some e →
    GoMap.get e.Candidates cid = some c → GoMap.get e.VoteCounts cid = some c.VoteCount
  countCand : ∀ eid e cid n, GoMap.get vs.elections eid = some e →
    GoMap.get e.VoteCounts cid = some n → ∃ c, GoMap.get e.Candidates cid = some c

/-- Registered voters have pairwise distinct public-key strings. -/
def DistinctKeys {PK : Type} (keyStr : PK → String) (vs : VotingState PK) : Prop :=
  ∀ id1 id2 v1 v2, GoMap.get vs.voters id1 = some v1 → GoMap.get vs.voters id2 = some v2 →
    keyStr v1.PublicKey = keyStr v2.PublicKey → id1 = id2

/-- The conditions under which the specification has `CastVote` succeed: the election exists,
the clock is inside its window, some registered voter with the key string of the vote is
Approved and not yet marked in the election's hasVoted map, and the candidate exists in the
election and is Approved. -/
def VoteAccepted {PK : Type} (keyStr : PK → String) (now : Int) (tx : VoteTx PK)
    (vs : VotingState PK) : Prop :=
  ∃ election, GoMap.get vs.elections tx.ElectionID = some election ∧
    election.StartTime ≤ now ∧ now < election.EndTime ∧
    (∃ voterID voter, GoMap.get vs.voters voterID = some voter ∧
      keyStr voter.PublicKey = keyStr tx.VoterPublicKey ∧ voter.Status = .Approved ∧
      GoMap.get (votedIn vs tx.ElectionID) voterID ≠ some true) ∧
    (∃ candidate, GoMap.get election.Candidates tx.CandidateID = some candidate ∧
      candidate.Status = .Approved)

/-! ## Example runs

Keys are strings that are their own string form. -/

/-- Registration of voter `v1` with key `k1`. -/
def exVoterTx : VoterRegistrationTx String :=
  { VoterID := "v1", IPFSDocHash := "doc1", VoterPublicKey := "k1", Timestamp := 1 }

/-- Creation of election `e1`, open over `[0, 100)`, administered by key `adm`. -/
def exElectionTx : ElectionCreationTx String :=
  { ElectionID := "e1", Title := "Board", Description := "", StartTime := 0, EndTime := 100,
    AdminPublicKey := "adm", Timestamp := 2 }

/-- Registration of candidate `c1` in election `e1`. -/
def exCandidateTx : CandidateRegistrationTx String :=
  { CandidateID := "c1", ElectionID := "e1", IPFSProfileHash := "p1",
    CandidatePublicKey := "ck1", Timestamp := 3 }

/-- Registration of candidate `c2` in election `e1`. -/
def exCandidateTx2 : CandidateRegistrationTx String :=
  { CandidateID := "c2", ElectionID := "e1", IPFSProfileHash := "p2",
    CandidatePublicKey := "ck2", Timestamp := 3 }

/-- A vote for `c1` in `e1` with key `k1`. -/
def exVoteTx : VoteTx String :=
  { ElectionID := "e1", CandidateID := "c1", VoterPublicKey := "k1", Timestamp := 4 }

/-- A vote for `c2` in `e1` with key `k1`. -/
def exVoteTx2 : VoteTx String :=
  { ElectionID := "e1", CandidateID := "c2", VoterPublicKey := "k1", Timestamp := 5 }

/-- Voter `v1` registered. -/
def exS1 : VotingState String := (RegisterVoter exVoterTx NewVotingState).1

/-- Voter `v1` approved. -/
def exS2 : VotingState String := (ApproveVoter "v1" "any" exS1).1

/-- Election `e1` created at time 5. -/
def exS3 : VotingState String := (CreateElection 5 exElectionTx exS2).1

/-- Candidate `c1` registered. -/
def exS4 : VotingState String := (RegisterCandidate exCandidateTx exS3).1

/-- Candidate `c1` approved by the election admin: the state is ready for a vote. -/
def exReady : VotingState String := (ApproveCandidate id "e1" "c1" "adm" exS4).1

/-- Voter `v1` has voted for `c1` at time 10. -/
def exVoted : VotingState String := (CastVote id 10 exReady.voters exVoteTx exReady).1

/-- As `exReady`, with a second candidate `c2` that is still Pending. -/
def exTwoCands : VotingState String := (RegisterCandidate exCandidateTx2 exReady).1

/-- Voter `v1` has voted for `c1` at time 10, `c2` still Pending. -/
def exTwoCandsVoted : VotingState String :=
  (CastVote id 10 exTwoCands.voters exVoteTx exTwoCands).1

/-- Registration of voter `a` with key `k1`. -/
def exVoterTxA : VoterRegistrationTx String :=
  { VoterID := "a", IPFSDocHash := "docA", VoterPublicKey := "k1", Timestamp := 1 }

/-- Registration of voter `b` with the same key `k1`. -/
def exVoterTxB : VoterRegistrationTx String :=
  { VoterID := "b", IPFSDocHash := "docB", VoterPublicKey := "k1", Timestamp := 1 }

/-- Election `e1` with Approved candidate `c1`; voters `a` and `b` share key `k1`, only `b` is
Approved. -/
def exSharedKey : VotingState String :=
  (ApproveCandidate id "e1" "c1" "adm"
    (RegisterCandidate exCandidateTx
      (CreateElection 5 exElectionTx
        (ApproveVoter "b" "any"
          (RegisterVoter exVoterTxB (RegisterVoter exVoterTxA NewVotingState).1).1).1).1).1).1

/-- As `exSharedKey`, with voter `a` Approved as well. -/
def exSharedKeyBoth : VotingState String := (ApproveVoter "a" "any" exSharedKey).1

/-- The voters of `exSharedKeyBoth`, visited `b` first. -/
def exScanBA : List (String × Voter String) := exSharedKeyBoth.voters.reverse

/-- Registration of a voter under the empty ID, with key `k1`. -/
def exVoterTxEmpty : VoterRegistrationTx String :=
  { VoterID := "", IPFSDocHash := "doc0", VoterPublicKey := "k1", Timestamp := 1 }

/-- Election `e1` with Approved candidate `c1`; the only voter has the empty ID, key `k1`, and
is Approved. -/
def exEmptyID : VotingState String :=
  (ApproveCandidate id "e1" "c1" "adm"
    (RegisterCandidate exCandidateTx
      (CreateElection 5 exElectionTx
        (ApproveVoter "" "any" (RegisterVoter exVoterTxEmpty NewVotingState).1).1).1).1).1

/-- The record of election `e1` in `exVoted`. -/
def exVotedElection : Election String :=
  { ID := "e1", Title := "Board", Description := "", StartTime := 0, EndTime := 100,
    AdminKey := "adm", Status := .Active, Timestamp := 2,
    Candidates :=
      [("c1", { ID := "c1", ElectionID := "e1", PublicKey := "ck1", IPFSProfileHash := "p1",
                Status := .Approved, Timestamp := 3, VoteCount := 1 })],
    VoteCounts := [("c1", 1)] }

/-- State `vs'` is state `vs` with the status of candidate `candidateID` of election
`electionID` set to `st`, and nothing else changed: same voters, same hasVoted maps, same other
elections, and in the election the same fields, the same tallies and the same other
candidates. -/
def CandidateStatusSet {PK : Type} (vs vs' : VotingState PK) (electionID candidateID : String)
    (st : CandidateStatus) : Prop :=
  vs'.voters = vs.voters ∧ vs'.hasVoted = vs.hasVoted ∧
  (∀ k, k ≠ electionID → GoMap.get vs'.elections k = GoMap.get vs.elections k) ∧
  ∃ election election' candidate,
    GoMap.get vs.elections electionID = some election ∧
    GoMap.get vs'.elections electionID = some election' ∧
    GoMap.get election.Candidates candidateID = some candidate ∧
    GoMap.get election'.Candidates candidateID = some { candidate with Status := st } ∧
    (∀ k, k ≠ candidateID →
      GoMap.get election'.Candidates k = GoMap.get election.Candidates k) ∧
    election'.VoteCounts = election.VoteCounts ∧
    election'.ID = election.ID ∧ election'.Title = election.Title ∧
    election'.Description = election.Description ∧
    election'.StartTime = election.StartTime ∧ election'.EndTime = election.EndTime ∧
    election'.AdminKey = election.AdminKey ∧ election'.Status = election.Status ∧
    election'.Timestamp = election.Timestamp

/-- State `vs'` is state `vs` with the status of voter `voterID` set to `st`, and nothing else
changed: same elections, same hasVoted maps, same other voters, same other fields of the
voter. -/
def VoterStatusSet {PK : Type} (vs vs' : VotingState PK) (voterID : String)
    (st : VoterStatus) : Prop :=
  vs'.elections = vs.elections ∧ vs'.hasVoted = vs.hasVoted ∧
  (∀ k, k ≠ voterID → GoMap.get vs'.voters k = GoMap.get vs.voters k) ∧
  ∃ voter, GoMap.get vs.voters voterID = some voter ∧
    GoMap.get vs'.voters voterID = some { voter with Status := st }

/-- Voter `v1` rejected, in the state `exS2` where it was Approved. -/
def exRejected : VotingState String := (RejectVoter "v1" "any" exS2).1

/-! ## Runs of the engine at non-decreasing clock readings -/

/-- The status the specification derives from the clock for an election: Active inside
`[StartTime, EndTime)`, Ended from `EndTime` on, Pending before both. -/
def derivedStatus {PK : Type} (now : Int) (election : Election PK) : ElectionStatus :=
  if election.StartTime ≤ now ∧ now < election.EndTime then .Active
  else if election.EndTime ≤ now then .Ended
  else .Pending

/-- One call of an engine method at clock reading `now`, from the state before it to the state
after it (with the same side conditions as `Reachable`). -/
inductive Step {PK : Type} (keyStr : PK → String) (now : Int) :
    VotingState PK → VotingState PK → Prop where
  | registerVoter (vs : VotingState PK) (tx : VoterRegistrationTx PK) :
      vs.voters.length < maxMapLen → Step keyStr now vs (RegisterVoter tx vs).1
  | approveVoter (vs : VotingState PK) (voterID : String) (adminKey : PK) :
      Step keyStr now vs (ApproveVoter voterID adminKey vs).1
  | rejectVoter (vs : VotingState PK) (voterID : String) (adminKey : PK) :
      Step keyStr now vs (RejectVoter voterID adminKey vs).1
  | createElection (vs : VotingState PK) (tx : ElectionCreationTx PK) :
      Step keyStr now vs (CreateElection now tx vs).1
  | registerCandidate (vs : VotingState PK) (tx : CandidateRegistrationTx PK) :
      Step keyStr now vs (RegisterCandidate tx vs).1
  | approveCandidate (vs : VotingState PK) (electionID candidateID : String) (adminKey : PK) :
      Step keyStr now vs (ApproveCandidate keyStr electionID candidateID adminKey vs).1
  | rejectCandidate (vs : VotingState PK) (electionID candidateID : String) (adminKey : PK) :
      Step keyStr now vs (RejectCandidate keyStr electionID candidateID adminKey vs).1
  | castVote (vs : VotingState PK) (scan : List (String × Voter PK)) (tx : VoteTx PK) :
      scan.Perm vs.voters → Step keyStr now vs (CastVote keyStr now scan tx vs).1
  | updateElectionStatuses (vs : VotingState PK) :
      Step keyStr now vs (UpdateElectionStatuses now vs)

/-- A run of the engine: `RunFrom keyStr t vs t' vs'` when a sequence of method calls at
non-decreasing clock readings, none before `t`, leads from state `vs` to state `vs'`, the last
reading being `t'` (`t' = t` for the empty sequence). -/
inductive RunFrom {PK : Type} (keyStr : PK → String) (t : Int) (vs : VotingState PK) :
    Int → VotingState PK → Prop where
  | refl : RunFrom keyStr t vs t vs
  | step {t1 now : Int} {vs1 vs2 : VotingState PK} :
      RunFrom keyStr t vs t1 vs1 → t1 ≤ now → Step keyStr now vs1 vs2 →
      RunFrom keyStr t vs now vs2

/-- The stored statuses never run ahead of the clock `t`: an Active election has started and
an Ended election has ended. -/
def StatusBehind {PK : Type} (t : Int) (vs : VotingState PK) : Prop :=
  ∀ eid e, GoMap.get vs.elections eid = some e →
    (e.Status = .Active → e.StartTime ≤ t) ∧ (e.Status = .Ended → e.EndTime ≤ t)

/-- Record `e'` is record `e` after one call at clock reading `now`: the same identity fields,
and the status either kept or recomputed by `updateStatus`. -/
def ElectionKept {PK : Type} (now : Int) (e e' : Election PK) : Prop :=
  e'.ID = e.ID ∧ e'.Title = e.Title ∧ e'.Description = e.Description ∧
  e'.StartTime = e.StartTime ∧ e'.EndTime = e.EndTime ∧ e'.AdminKey = e.AdminKey ∧
  e'.Timestamp = e.Timestamp ∧
  (e'.Status = e.Status ∨ e'.Status = (updateStatus now e).Status)

/-- Creation of election `e2`, open over `[0, 100)`. -/
def exElectionTx2 : ElectionCreationTx String :=
  { ElectionID := "e2", Title := "Chair", Description := "", StartTime := 0, EndTime := 100,
    AdminPublicKey := "adm2", Timestamp := 6 }

/-- Creation of election `e3` with an inverted window, `StartTime = 100` and `EndTime = 0`. -/
def exElectionTxInverted : ElectionCreationTx String :=
  { ElectionID := "e3", Title := "Inverted", Description := "", StartTime := 100, EndTime := 0,
    AdminPublicKey := "adm", Timestamp := 6 }

/-- Creation of election `e4`, open over `[50, 100)`. -/
def exElectionTxLater : ElectionCreationTx String :=
  { ElectionID := "e4", Title := "Later", Description := "", StartTime := 50, EndTime := 100,
    AdminPublicKey := "adm", Timestamp := 6 }

/-- Registration of candidate `c1` in election `e2`. -/
def exCandidateTxE2 : CandidateRegistrationTx String :=
  { CandidateID := "c1", ElectionID := "e2", IPFSProfileHash := "p1",
    CandidatePublicKey := "ck1", Timestamp := 7 }

/-- As `exVoted`, with a second election `e2` created at time 10. -/
def exTwoElections : VotingState String := (CreateElection 10 exElectionTx2 exVoted).1

/-- Elections `e1` and `e2`, both without candidates. -/
def exTwoEmpty : VotingState String := (CreateElection 5 exElectionTx2 exS3).1

/-- How the elections map `m` before one call at clock reading `now` relates to the map `m'`
after it, ID by ID: no election is dropped, an election that stays keeps its identity fields
(`ElectionKept`), and an election that appears has the status derived from the clock. -/
def ElectionsStep {PK : Type} (now : Int) (m m' : GoMap (Election PK)) : Prop :=
  ∀ eid,
    (GoMap.get m eid = none ∧ GoMap.get m' eid = none) ∨
    (∃ e e', GoMap.get m eid = some e ∧ GoMap.get m' eid = some e' ∧ ElectionKept now e e') ∨
    (GoMap.get m eid = none ∧
      ∃ e', GoMap.get m' eid = some e' ∧ e'.Status = derivedStatus now e')

/-- Election `e1`, open over `[0, 100)`, created at time 100: Ended from the start. -/
def exCreatedEnded : VotingState String := (CreateElection 100 exElectionTx NewVotingState).1

/-- Election `e4`, open over `[50, 100)`, created at time 5: Pending. -/
def exCreatedPending : VotingState String :=
  (CreateElection 5 exElectionTxLater NewVotingState).1

/-! ## The transaction envelope (`core/transaction.go`)

The packages `crypto` and `types` live outside the repository: their types are the parameters
`PK` (public key), `SK` (private key), `Sig` (signature) and `H` (hash), and the methods the
envelope calls on them are the fields of `Extern`.  Byte slices are lists of naturals.  Each
envelope method is a function from the envelope before the call to the envelope after it,
paired with what the call returned. -/

/-- The methods of `crypto` and `types` that the envelope calls: `types.Hash.IsZero`,
`types.Hash.ToSlice`, `crypto.PrivateKey.Sign` (a signature, or the text of an error),
`crypto.PrivateKey.PublicKey` and `crypto.Signature.Verify`. -/
structure Extern (PK SK Sig H : Type) where
  IsZero : H → Bool
  ToSlice : H → List Nat
  Sign : SK → List Nat → Except String Sig
  PublicKey : SK → PK
  Verify : Sig → PK → List Nat → Bool

/-- The envelope.  `TxInner` has type `any`: the payload type is the parameter `Payload`.
`Signature` is a pointer: `none` is nil.  `hash` is the cached hash. -/
structure Transaction (PK Sig H Payload : Type) where
  TxInner : Payload
  Data : List Nat
  To : PK
  Value : Nat
  From : PK
  Signature : Option Sig
  Nonce : Int
  hash : H
deriving DecidableEq, Repr

/-- Modelled from the spec: the input of `TxHasher`.  `TxHasher` (`core/hasher.go`) is not
among the sources; the specification has the hash be a "deterministic digest over the
envelope's immutable fields (excludes the cache itself)".  These are the fields that no
envelope method writes: `TxHasher` is a function `SignedFields PK Payload → H`, a parameter of
`Sign` and `Verify`. -/
structure SignedFields (PK Payload : Type) where
  TxInner : Payload
  Data : List Nat
  To : PK
  Value : Nat
  Nonce : Int
deriving DecidableEq, Repr

/-- The fields of an envelope that `TxHasher` digests. -/
def Transaction.signedFields {PK Sig H Payload : Type} (tx : Transaction PK Sig H Payload) :
    SignedFields PK Payload :=
  { TxInner := tx.TxInner, Data := tx.Data, To := tx.To, Value := tx.Value, Nonce := tx.Nonce }

/-- The errors of the envelope methods: the error of the key's signing operation, passed on by
`Sign`, and the two errors built by `Verify`. -/
inductive TxError where
  | keyError (text : String)
  | noSignature
  | invalidSignature
deriving DecidableEq, Repr

/-- The text of each error built by `Verify`, as formatted in the source. -/
def TxError.message : TxError → String
  | .keyError text => text
  | .noSignature => "transaction has no signature"
  | .invalidSignature => "invalid transaction signature"

/-- The hash of the envelope: computed by `hasher` and stored when the cached hash is zero, and
the cached hash otherwise. -/
def Transaction.Hash {PK SK Sig H Payload : Type} (X : Extern PK SK Sig H)
    (hasher : Transaction PK Sig H Payload → H) (tx : Transaction PK Sig H Payload) :
    Transaction PK Sig H Payload × H :=
  if X.IsZero tx.hash then ({ tx with hash := hasher tx }, hasher tx) else (tx, tx.hash)

/-- The hasher `TxHasher{}` that `Sign` and `Verify` pass to `Hash`. -/
def hasherOf {PK Sig H Payload : Type} (txHasher : SignedFields PK Payload → H) :
    Transaction PK Sig H Payload → H :=
  fun tx => txHasher tx.signedFields

/-- Sign the envelope hash with a private key and record the signer and the signature. -/
def Transaction.Sign {PK SK Sig H Payload : Type} (X : Extern PK SK Sig H)
    (txHasher : SignedFields PK Payload → H) (privKey : SK)
    (tx : Transaction PK Sig H Payload) : Transaction PK Sig H Payload × Option TxError :=
  let hashed := Transaction.Hash X (hasherOf txHasher) tx
  match X.Sign privKey (X.ToSlice hashed.2) with
  | .error err => (hashed.1, some (.keyError err))
  | .ok sig =>
    ({ hashed.1 with From := X.PublicKey privKey, Signature := some sig }, none)

/-- Check the signature of the envelope against its signer and its hash. -/
def Transaction.Verify {PK SK Sig H Payload : Type} (X : Extern PK SK Sig H)
    (txHasher : SignedFields PK Payload → H) (tx : Transaction PK Sig H Payload) :
    Transaction PK Sig H Payload × Option TxError :=
  match tx.Signature with
  | none => (tx, some .noSignature)
  | some sig =>
    let hashed := Transaction.Hash X (hasherOf txHasher) tx
    if ¬ X.Verify sig hashed.1.From (X.ToSlice hashed.2) then
      (hashed.1, some .invalidSignature)
    else (hashed.1, none)

/-- The envelope hash: what `tx.Hash(TxHasher{})` returns. -/
def envelopeHash {PK SK Sig H Payload : Type} (X : Extern PK SK Sig H)
    (txHasher : SignedFields PK Payload → H) (tx : Transaction PK Sig H Payload) : H :=
  (Transaction.Hash X (hasherOf txHasher) tx).2

/-- A correct signature scheme: a signature made by a key verifies under the public key of
that key on the same message. -/
def SchemeCorrect {PK SK Sig H : Type} (X : Extern PK SK Sig H) : Prop :=
  ∀ sk msg sig, X.Sign sk msg = .ok sig → X.Verify sig (X.PublicKey sk) msg = true

/-- Envelopes `tx` and `tx'` agree on every field other than the cached hash. -/
def SameButCache {PK Sig H Payload : Type} (tx tx' : Transaction PK Sig H Payload) : Prop :=
  tx'.TxInner = tx.TxInner ∧ tx'.Data = tx.Data ∧ tx'.To = tx.To ∧ tx'.Value = tx.Value ∧
  tx'.From = tx.From ∧ tx'.Signature = tx.Signature ∧ tx'.Nonce = tx.Nonce

/-- A toy instance of the outside packages. -/
def exExtern : Extern String String (String × List Nat) (List Nat) where
  IsZero h := h.all (fun b => b == 0)
  ToSlice h := h
  Sign sk msg := if sk = "" then .error "empty key" else .ok (sk, msg)
  PublicKey sk := sk
  Verify sig pk msg := decide (sig.1 = pk ∧ sig.2 = msg)

/-- A toy `TxHasher`: never zero, and sensitive to `Nonce`, `Value` and the length of
`Data`. -/
def exTxHasher : SignedFields String String → List Nat :=
  fun f => [f.Nonce.toNat + 1, f.Value, f.Data.length]

/-- A toy hasher whose digest is the nonce: zero for the nonce 0. -/
def exNonceHasher : Transaction String (String × List Nat) (List Nat) String → List Nat :=
  fun tx => [0, 0, tx.Nonce.toNat]

/-- A fresh, unsigned envelope with nonce 5 and three bytes of data. -/
def exTx : Transaction String (String × List Nat) (List Nat) String :=
  { TxInner := "vote", Data := [1, 2, 3], To := "bob", Value := 0, From := "",
    Signature := none, Nonce := 5, hash := [0, 0, 0] }

/-- The envelope `exTx` signed by `alice`. -/
def exSigned : Transaction String (String × List Nat) (List Nat) String :=
  (Transaction.Sign exExtern exTxHasher "alice" exTx).1

/-- The signed envelope with its data altered afterwards. -/
def exTampered : Transaction String (String × List Nat) (List Nat) String :=
  { exSigned with Data := [9] }

/-- The altered envelope as a copy without the cached hash. -/
def exTamperedFresh : Transaction String (String × List Nat) (List Nat) String :=
  { exTampered with hash := [0, 0, 0] }

/-- A fresh envelope with nonce 0. -/
def exTxZero : Transaction String (String × List Nat) (List Nat) String :=
  { exTx with Nonce := 0 }

/-- The envelope `exTxZero` after a first `Hash` with the nonce hasher. -/
def exHashedZero : Transaction String (String × List Nat) (List Nat) String :=
  (Transaction.Hash exExtern exNonceHasher exTxZero).1

/-- The envelope `exHashedZero` with its nonce altered afterwards. -/
def exHashedZeroMutated : Transaction String (String × List Nat) (List Nat) String :=
  { exHashedZero with Nonce := 7 }

/-- The envelope `exTx` after a first `Hash` with the nonce hasher. -/
def exHashed : Transaction String (String × List Nat) (List Nat) String :=
  (Transaction.Hash exExtern exNonceHasher exTx).1

/-- What one call of an engine method at clock reading `now` can do to the state, in every
state: nothing; add a voter under a fresh ID; overwrite the status of a voter; add an election
without candidates under a fresh ID, with an empty hasVoted map; add a candidate with tally 0
under an ID fresh in its election; overwrite the status of a candidate; count a vote for a
candidate of an election inside its window (and mark the voter, unless the hasVoted map of the
election is missing); recompute the statuses of the elections. -/
inductive Effect {PK : Type} (now : Int) (vs : VotingState PK) : VotingState PK → Prop where
  | unchanged : Effect now vs vs
  | voterAdded (voterID : String) (voter : Voter PK) :
      GoMap.get vs.voters voterID = none →
      Effect now vs { vs with voters := GoMap.set vs.voters voterID voter }
  | voterStatus (voterID : String) (voter : Voter PK) (st : VoterStatus) :
      GoMap.get vs.voters voterID = some voter →
      Effect now vs
        { vs with voters := GoMap.set vs.voters voterID { voter with Status := st } }
  | electionAdded (eid : String) (e : Election PK) :
      GoMap.get vs.elections eid = none → e.Candidates = [] → e.VoteCounts = [] →
      Effect now vs
        { vs with
            elections := GoMap.set vs.elections eid e
            hasVoted := GoMap.set vs.hasVoted eid [] }
  | candidateAdded (eid cid : String) (e : Election PK) (c : Candidate PK) :
      GoMap.get vs.elections eid = some e → GoMap.get e.Candidates cid = none →
      c.ID = cid → c.ElectionID = eid → c.VoteCount = 0 →
      Effect now vs
        { vs with
            elections := GoMap.set vs.elections eid
              { e with
                  Candidates := GoMap.set e.Candidates cid c
                  VoteCounts := GoMap.set e.VoteCounts cid 0 } }
  | candidateStatus (eid cid : String) (e : Election PK) (c : Candidate PK)
      (st : CandidateStatus) :
      GoMap.get vs.elections eid = some e → GoMap.get e.Candidates cid = some c →
      Effect now vs
        { vs with
            elections := GoMap.set vs.elections eid
              { e with Candidates := GoMap.set e.Candidates cid { c with Status := st } } }
  | vote (eid cid : String) (e : Election PK) (c : Candidate PK)
      (hasVoted' : GoMap (GoMap Bool)) :
      GoMap.get vs.elections eid = some e → GoMap.get e.Candidates cid = some c →
      e.StartTime ≤ now → now < e.EndTime →
      (hasVoted' = vs.hasVoted ∨
        ∃ voted voterID voter, GoMap.get vs.hasVoted eid = some voted ∧
          GoMap.get vs.voters voterID = some voter ∧
          hasVoted' = GoMap.set vs.hasVoted eid (GoMap.set voted voterID true)) →
      Effect now vs
        { voters := vs.voters
          elections := GoMap.set vs.elections eid
            { e with
                VoteCounts := GoMap.set e.VoteCounts cid
                  (incr64 ((GoMap.get e.VoteCounts cid).getD 0))
                Candidates := GoMap.set e.Candidates cid
                  { c with VoteCount := incr64 c.VoteCount } }
          hasVoted := hasVoted' }
  | statuses : Effect now vs (UpdateElectionStatuses now vs)

/-- Voter record `v'` has the identity fields of `v`: every field but the status. -/
def VoterKept {PK : Type} (v v' : Voter PK) : Prop :=
  v'.ID = v.ID ∧ v'.PublicKey = v.PublicKey ∧ v'.IPFSDocHash = v.IPFSDocHash ∧
  v'.Timestamp = v.Timestamp

/-- Candidate record `c'` has the identity fields of `c`: every field but the status and the
tally. -/
def CandidateKept {PK : Type} (c c' : Candidate PK) : Prop :=
  c'.ID = c.ID ∧ c'.ElectionID = c.ElectionID ∧ c'.PublicKey = c.PublicKey ∧
  c'.IPFSProfileHash = c.IPFSProfileHash ∧ c'.Timestamp = c.Timestamp

/-- Election record `e'` has the identity fields of `e` (every field but the status, the
candidates and the tallies), and every candidate of `e` is a candidate of `e'` with the same
identity fields. -/
def ElectionIdentityKept {PK : Type} (e e' : Election PK) : Prop :=
  e'.ID = e.ID ∧ e'.Title = e.Title ∧ e'.Description = e.Description ∧
  e'.StartTime = e.StartTime ∧ e'.EndTime = e.EndTime ∧ e'.AdminKey = e.AdminKey ∧
  e'.Timestamp = e.Timestamp ∧
  ∀ cid c, GoMap.get e.Candidates cid = some c →
    ∃ c', GoMap.get e'.Candidates cid = some c' ∧ CandidateKept c c'

/-- Every voter and every election of `vs`, with its candidates, is in `vs'` under the same ID
and with the same identity fields. -/
def Preserved {PK : Type} (vs vs' : VotingState PK) : Prop :=
  (∀ vid v, GoMap.get vs.voters vid = some v →
    ∃ v', GoMap.get vs'.voters vid = some v' ∧ VoterKept v v') ∧
  (∀ eid e, GoMap.get vs.elections eid = some e →
    ∃ e', GoMap.get vs'.elections eid = some e' ∧ ElectionIdentityKept e e')

/-- Every candidate is stored under its own ID, in the election it names. -/
def CandidateIDs {PK : Type} (vs : VotingState PK) : Prop :=
  ∀ eid e cid c, GoMap.get vs.elections eid = some e → GoMap.get e.Candidates cid = some c →
    c.ElectionID = eid ∧ c.ID = cid

/-- Every hasVoted map belongs to an election. -/
def VotedOfElection {PK : Type} (vs : VotingState PK) : Prop :=
  ∀ eid voted, GoMap.get vs.hasVoted eid = some voted →
    ∃ e, GoMap.get vs.elections eid = some e

/-- The state with the `Status` field of every election blanked (set to Pending). -/
def eraseStatus {PK : Type} (vs : VotingState PK) : VotingState PK :=
  { vs with elections := GoMap.mapValues (fun e => { e with Status := .Pending }) vs.elections }

/-- States `vs1` and `vs2` differ only in the `Status` field of elections. -/
def SameButStatus {PK : Type} (vs1 vs2 : VotingState PK) : Prop :=
  eraseStatus vs1 = eraseStatus vs2

/-- Voter `v1` Approved; election `e4`, open over `[50, 100)`, created at time 5 and so stored
as Pending; its candidate `c1` Approved.  No status update has run. -/
def exPendingReady : VotingState String :=
  (ApproveCandidate id "e4" "c1" "adm"
    (RegisterCandidate { exCandidateTx with ElectionID := "e4" }
      (CreateElection 5 exElectionTxLater exS2).1).1).1

/-- A vote for `c1` in `e4` with key `k1`. -/
def exVoteTxE4 : VoteTx String :=
  { ElectionID := "e4", CandidateID := "c1", VoterPublicKey := "k1", Timestamp := 60 }

/-- No candidate ID has two entries in a tally map. -/
def CountsNodup {PK : Type} (vs : VotingState PK) : Prop :=
  ∀ eid e, GoMap.get vs.elections eid = some e → (GoMap.keys e.VoteCounts).Nodup

/-- Election record `e'` has the window of `e`, every tally of `e` with the same value, every
candidate of `e` with the same `VoteCount`, and no tally other than those of `e` and zeros. -/
def TalliesKept {PK : Type} (e e' : Election PK) : Prop :=
  e'.StartTime = e.StartTime ∧ e'.EndTime = e.EndTime ∧
  (∀ cid n, GoMap.get e.VoteCounts cid = some n → GoMap.get e'.VoteCounts cid = some n) ∧
  (∀ cid c, GoMap.get e.Candidates cid = some c →
    ∃ c', GoMap.get e'.Candidates cid = some c' ∧ c'.VoteCount = c.VoteCount) ∧
  (∀ cid n, GoMap.get e'.VoteCounts cid = some n →
    GoMap.get e.VoteCounts cid = some n ∨ n = 0)

/-- Election `e3`, with `StartTime = 100` and `EndTime = 0`, created at time 50. -/
def exInverted : VotingState String := (CreateElection 50 exElectionTxInverted NewVotingState).1

/-- A vote for `c1` in `e3` with key `k1`. -/
def exVoteTxE3 : VoteTx String :=
  { ElectionID := "e3", CandidateID := "c1", VoterPublicKey := "k1", Timestamp := 50 }

/-- The entries of the hasVoted map of an election that are marked `true` and belong to a
registered voter whose public key has the string form `key`: the votes recorded for that key
in that election. -/
def markedWithKey {PK : Type} (keyStr : PK → String) (vs : VotingState PK)
    (electionID key : String) : GoMap Bool :=
  (votedIn vs electionID).filter (fun p =>
    p.2 && (match GoMap.get vs.voters p.1 with
      | some voter => decide (keyStr voter.PublicKey = key)
      | none => false))

/-! ## The end-to-end scenario -/

/-- The scenario after its first step: the election is created, at clock reading `tc`, in the
fresh state. -/
def scenarioCreated {PK : Type} (tc : Int) (etx : ElectionCreationTx PK) : VotingState PK :=
  (CreateElection tc etx NewVotingState).1

/-- The scenario after the voter is registered. -/
def scenarioRegistered {PK : Type} (tc : Int) (etx : ElectionCreationTx PK)
    (vtx : VoterRegistrationTx PK) : VotingState PK :=
  (RegisterVoter vtx (scenarioCreated tc etx)).1

/-- The scenario after the voter is approved, by a caller that passes the key `anyKey`. -/
def scenarioApproved {PK : Type} (tc : Int) (etx : ElectionCreationTx PK)
    (vtx : VoterRegistrationTx PK) (anyKey : PK) : VotingState PK :=
  (ApproveVoter vtx.VoterID anyKey (scenarioRegistered tc etx vtx)).1

/-- The scenario after the candidate is registered. -/
def scenarioCandidate {PK : Type} (tc : Int) (etx : ElectionCreationTx PK)
    (vtx : VoterRegistrationTx PK) (anyKey : PK) (ctx : CandidateRegistrationTx PK) :
    VotingState PK :=
  (RegisterCandidate ctx (scenarioApproved tc etx vtx anyKey)).1

/-- The scenario after the candidate is approved with the admin key of the election. -/
def scenarioReady {PK : Type} (keyStr : PK → String) (tc : Int) (etx : ElectionCreationTx PK)
    (vtx : VoterRegistrationTx PK) (anyKey : PK) (ctx : CandidateRegistrationTx PK) :
    VotingState PK :=
  (ApproveCandidate keyStr ctx.ElectionID ctx.CandidateID etx.AdminPublicKey
    (scenarioCandidate tc etx vtx anyKey ctx)).1

/-- The scenario after the vote, cast at clock reading `now` with the voters visited in the
order `scan`. -/
def scenarioVoted {PK : Type} (keyStr : PK → String) (tc : Int) (etx : ElectionCreationTx PK)
    (vtx : VoterRegistrationTx PK) (anyKey : PK) (ctx : CandidateRegistrationTx PK)
    (now : Int) (scan : List (String × Voter PK)) (vote : VoteTx PK) : VotingState PK :=
  (CastVote keyStr now scan vote (scenarioReady keyStr tc etx vtx anyKey ctx)).1

/-- Scenario data with string keys: election `E1` open over `[0, 3600)`. -/
def exScenarioElectionTx : ElectionCreationTx String :=
  { ElectionID := "E1", Title := "Board", Description := "", StartTime := 0, EndTime := 3600,
    AdminPublicKey := "adm", Timestamp := 0 }

/-- Scenario data: voter `V1` with key `k1`. -/
def exScenarioVoterTx : VoterRegistrationTx String :=
  { VoterID := "V1", IPFSDocHash := "doc1", VoterPublicKey := "k1", Timestamp := 0 }

/-- Scenario data: candidate `C1` of election `E1`. -/
def exScenarioCandidateTx : CandidateRegistrationTx String :=
  { CandidateID := "C1", ElectionID := "E1", IPFSProfileHash := "p1",
    CandidatePublicKey := "ck1", Timestamp := 0 }

/-- Scenario data: the vote for `C1` in `E1` with key `k1`. -/
def exScenarioVoteTx : VoteTx String :=
  { ElectionID := "E1", CandidateID := "C1", VoterPublicKey := "k1", Timestamp := 10 }

/-! ## Lemmas on Go maps -/

namespace GoMap

theorem get_set_same {V : Type} (m : GoMap V) (k : String) (v : V) :
    get (set m k v) k = some v := by
  induction m with
  | nil => simp [set, get]
  | cons p rest ih =>
    obtain ⟨k', v'⟩ := p
    by_cases h : k' = k
    · simp [set, get, h]
    · simp [set, get, h, ih]

theorem get_set_other {V : Type} (m : GoMap V) (k k' : String) (v : V) (h : k' ≠ k) :
    get (set m k v) k' = get m k' := by
  induction m with
  | nil => simp [set, get, Ne.symm h]
  | cons p rest ih =>
    obtain ⟨k0, v0⟩ := p
    by_cases h0 : k0 = k
    · subst h0
      simp [set, get, Ne.symm h]
    · by_cases h1 : k0 = k'
      · subst h1
        simp [set, get, h0]
      · simp [set, get, h0, h1, ih]

theorem get_set {V : Type} (m : GoMap V) (k k' : String) (v : V) :
    get (set m k v) k' = if k' = k then some v else get m k' := by
  by_cases h : k' = k
  · subst h
    simp [get_set_same]
  · simp [h, get_set_other]

theorem get_eq_none_iff {V : Type} (m : GoMap V) (k : String) :
    get m k = none ↔ k ∉ keys m := by
  induction m with
  | nil => simp [get, keys]
  | cons p rest ih =>
    obtain ⟨k0, v0⟩ := p
    by_cases h0 : k0 = k
    · simp [get, keys, h0]
    · have h1 : ¬ k = k0 := fun h => h0 h.symm
      simp only [keys] at ih
      simp [get, keys, h0, h1, ih]

theorem mem_keys_of_get {V : Type} {m : GoMap V} {k : String} {v : V} (h : get m k = some v) :
    k ∈ keys m := by
  by_contra hk
  rw [← get_eq_none_iff] at hk
  rw [hk] at h
  cases h

theorem get_of_mem_keys {V : Type} {m : GoMap V} {k : String} (h : k ∈ keys m) :
    ∃ v, get m k = some v := by
  cases hg : get m k with
  | none => exact absurd h ((get_eq_none_iff m k).1 hg)
  | some v => exact ⟨v, rfl⟩

theorem mem_of_get {V : Type} {m : GoMap V} {k : String} {v : V} (h : get m k = some v) :
    (k, v) ∈ m := by
  induction m with
  | nil => simp [get] at h
  | cons p rest ih =>
    obtain ⟨k0, v0⟩ := p
    by_cases h0 : k0 = k
    · simp [get, h0] at h
      simp [h0, h]
    · simp [get, h0] at h
      exact List.mem_cons_of_mem _ (ih h)

theorem get_of_mem {V : Type} {m : GoMap V} {k : String} {v : V} (hn : (keys m).Nodup)
    (h : (k, v) ∈ m) : get m k = some v := by
  induction m with
  | nil => simp at h
  | cons p rest ih =>
    obtain ⟨k0, v0⟩ := p
    simp only [keys, List.map_cons, List.nodup_cons] at hn
    rcases List.mem_cons.1 h with h1 | h1
    · cases h1
      simp [get]
    · have hk : k ∈ rest.map Prod.fst := List.mem_map.2 ⟨(k, v), h1, rfl⟩
      have h0 : k0 ≠ k := fun e => hn.1 (e ▸ hk)
      simp [get, h0]
      exact ih hn.2 h1

theorem mem_keys_set {V : Type} (m : GoMap V) (k k' : String) (v : V) :
    k' ∈ keys (set m k v) ↔ k' ∈ keys m ∨ k' = k := by
  induction m with
  | nil => simp [set, keys]
  | cons p rest ih =>
    obtain ⟨k0, v0⟩ := p
    simp only [keys] at ih
    by_cases h0 : k0 = k
    · subst h0
      simp [set, keys]
      tauto
    · simp [set, keys, h0, ih]
      tauto

theorem nodup_keys_set {V : Type} (m : GoMap V) (k : String) (v : V) (hn : (keys m).Nodup) :
    (keys (set m k v)).Nodup := by
  induction m with
  | nil => simp [set, keys]
  | cons p rest ih =>
    obtain ⟨k0, v0⟩ := p
    simp only [keys, List.map_cons, List.nodup_cons] at hn
    by_cases h0 : k0 = k
    · subst h0
      simpa [set, keys] using hn
    · have hm := mem_keys_set rest k k0 v
      simp only [keys] at hm ih
      simp only [set, h0, if_false, keys, List.map_cons, List.nodup_cons]
      refine ⟨?_, ih hn.2⟩
      rw [hm]
      rintro (h | h)
      · exact hn.1 h
      · exact h0 h

theorem length_set_of_none {V : Type} (m : GoMap V) (k : String) (v : V)
    (h : get m k = none) : (set m k v).length = m.length + 1 := by
  induction m with
  | nil => simp [set]
  | cons p rest ih =>
    obtain ⟨k0, v0⟩ := p
    by_cases h0 : k0 = k
    · simp [get, h0] at h
    · simp [get, h0] at h
      simp [set, h0, ih h]

theorem length_set_of_some {V : Type} (m : GoMap V) (k : String) (v w : V)
    (h : get m k = some w) : (set m k v).length = m.length := by
  induction m with
  | nil => simp [get] at h
  | cons p rest ih =>
    obtain ⟨k0, v0⟩ := p
    by_cases h0 : k0 = k
    · simp [set, h0]
    · simp [get, h0] at h
      simp [set, h0, ih h]

theorem keys_set_of_some {V : Type} (m : GoMap V) (k : String) (v w : V)
    (h : get m k = some w) : keys (set m k v) = keys m := by
  induction m with
  | nil => simp [get] at h
  | cons p rest ih =>
    obtain ⟨k0, v0⟩ := p
    simp only [keys] at ih
    by_cases h0 : k0 = k
    · simp [set, keys, h0]
    · simp [get, h0] at h
      simp [set, keys, h0, ih h]

theorem get_mapValues {V : Type} (f : V → V) (m : GoMap V) (k : String) :
    get (mapValues f m) k = (get m k).map f := by
  induction m with
  | nil => simp [mapValues, get]
  | cons p rest ih =>
    obtain ⟨k0, v0⟩ := p
    simp only [mapValues] at ih
    by_cases h0 : k0 = k
    · simp [mapValues, get, h0]
    · simp [mapValues, get, h0, ih]

end GoMap

/-! ## Lemmas on tallies -/

theorem tallySum_set (m : GoMap Nat) (k : String) (v : Nat) :
    tallySum (GoMap.set m k v) + (GoMap.get m k).getD 0 = tallySum m + v := by
  induction m with
  | nil => simp [GoMap.set, GoMap.get, tallySum]
  | cons p rest ih =>
    obtain ⟨k0, v0⟩ := p
    simp only [tallySum] at ih
    by_cases h0 : k0 = k
    · simp [GoMap.set, GoMap.get, tallySum, h0]
      omega
    · simp [GoMap.set, GoMap.get, tallySum, h0]
      omega

theorem get_le_tallySum {m : GoMap Nat} {k : String} {v : Nat} (h : GoMap.get m k = some v) :
    v ≤ tallySum m := by
  induction m with
  | nil => simp [GoMap.get] at h
  | cons p rest ih =>
    obtain ⟨k0, v0⟩ := p
    simp only [tallySum] at ih
    by_cases h0 : k0 = k
    · simp [GoMap.get, h0] at h
      simp [tallySum, h]
    · simp [GoMap.get, h0] at h
      have := ih h
      simp [tallySum]
      omega

theorem getD_le_tallySum (m : GoMap Nat) (k : String) :
    (GoMap.get m k).getD 0 ≤ tallySum m := by
  cases h : GoMap.get m k with
  | none => simp
  | some v => simpa using get_le_tallySum h

theorem countTrue_set_true (m : GoMap Bool) (k : String) (h : GoMap.get m k ≠ some true) :
    countTrue (GoMap.set m k true) = countTrue m + 1 := by
  induction m with
  | nil => simp [GoMap.set, countTrue]
  | cons p rest ih =>
    obtain ⟨k0, b0⟩ := p
    simp only [countTrue] at ih
    by_cases h0 : k0 = k
    · simp [GoMap.get, h0] at h
      simp [GoMap.set, countTrue, h0, h]
    · simp [GoMap.get, h0] at h
      have ih1 := ih h
      cases b0 <;> simp [GoMap.set, countTrue, h0, ih1]

theorem countTrue_lt_length {V : Type} (voted : GoMap Bool) (voters : GoMap V) (k : String)
    (hn : (GoMap.keys voted).Nodup) (hsub : ∀ vid ∈ GoMap.keys voted, vid ∈ GoMap.keys voters)
    (hk : k ∈ GoMap.keys voters) (hnot : GoMap.get voted k ≠ some true) :
    countTrue voted < voters.length := by
  have hsl : ((voted.filter (fun p => p.2)).map Prod.fst).Sublist (GoMap.keys voted) :=
    List.Sublist.map _ (List.filter_sublist _)
  have hnd : ((voted.filter (fun p => p.2)).map Prod.fst).Nodup := hn.sublist hsl
  have hk' : k ∉ (voted.filter (fun p => p.2)).map Prod.fst := by
    intro hmem
    obtain ⟨⟨k1, b⟩, hp, hk1⟩ := List.mem_map.1 hmem
    simp only [List.mem_filter] at hp
    obtain ⟨hp1, hp2⟩ := hp
    simp only at hk1 hp2
    subst hk1 hp2
    exact hnot (GoMap.get_of_mem hn hp1)
  have hnd2 : (k :: (voted.filter (fun p => p.2)).map Prod.fst).Nodup :=
    List.nodup_cons.2 ⟨hk', hnd⟩
  have hss : (k :: (voted.filter (fun p => p.2)).map Prod.fst) ⊆ GoMap.keys voters := by
    intro x hx
    rcases List.mem_cons.1 hx with h | h
    · exact h ▸ hk
    · exact hsub x (hsl.subset h)
  have hlen := (List.subperm_of_subset hnd2 hss).length_le
  simp only [List.length_cons, List.length_map, GoMap.keys] at hlen
  simp only [countTrue]
  omega

/-! ## What a successful `CastVote` did -/

/-- The election record after a vote for `candidate` under `candidateID`. -/
theorem castVote_success {PK : Type} (keyStr : PK → String) (now : Int)
    (scan : List (String × Voter PK)) (tx : VoteTx PK) (vs : VotingState PK)
    (h : (CastVote keyStr now scan tx vs).2 = .nil) :
    ∃ election voter candidate voted,
      GoMap.get vs.elections tx.ElectionID = some election ∧
      election.StartTime ≤ now ∧ now < election.EndTime ∧
      findVoterID keyStr (keyStr tx.VoterPublicKey) scan ≠ "" ∧
      GoMap.get vs.voters (findVoterID keyStr (keyStr tx.VoterPublicKey) scan) = some voter ∧
      voter.Status = .Approved ∧
      GoMap.get election.Candidates tx.CandidateID = some candidate ∧
      candidate.Status = .Approved ∧
      GoMap.get vs.hasVoted tx.ElectionID = some voted ∧
      GoMap.get voted (findVoterID keyStr (keyStr tx.VoterPublicKey) scan) ≠ some true ∧
      (CastVote keyStr now scan tx vs).1 =
        { voters := vs.voters
          elections := GoMap.set vs.elections tx.ElectionID
            { election with
                VoteCounts := GoMap.set election.VoteCounts tx.CandidateID
                  (incr64 ((GoMap.get election.VoteCounts tx.CandidateID).getD 0))
                Candidates := GoMap.set election.Candidates tx.CandidateID
                  { candidate with VoteCount := incr64 candidate.VoteCount } }
          hasVoted := GoMap.set vs.hasVoted tx.ElectionID
            (GoMap.set voted (findVoterID keyStr (keyStr tx.VoterPublicKey) scan) true) } := by
  unfold CastVote at h ⊢
  cases he : GoMap.get vs.elections tx.ElectionID with
  | none => simp [he] at h
  | some election =>
    simp only [he] at h ⊢
    by_cases h1 : now < election.StartTime
    · simp [h1] at h
    by_cases h2 : now ≥ election.EndTime
    · simp [h1, h2] at h
    by_cases h3 : findVoterID keyStr (keyStr tx.VoterPublicKey) scan = ""
    · simp [h1, h2, h3] at h
    cases hv : GoMap.get vs.voters (findVoterID keyStr (keyStr tx.VoterPublicKey) scan) with
    | none => simp [h1, h2, h3, hv] at h
    | some voter =>
      by_cases h4 : voter.Status = .Approved
      swap
      · simp [h1, h2, h3, hv, h4] at h
      cases hc : GoMap.get election.Candidates tx.CandidateID with
      | none => simp [h1, h2, h3, hv, h4, hc] at h
      | some candidate =>
        by_cases h5 : candidate.Status = .Approved
        swap
        · simp [h1, h2, h3, hv, h4, hc, h5] at h
        cases hh : GoMap.get vs.hasVoted tx.ElectionID with
        | none =>
          simp [h1, h2, h3, hv, h4, hc, h5, hh, GoMap.get] at h
        | some voted =>
          by_cases h6 : GoMap.get voted (findVoterID keyStr (keyStr tx.VoterPublicKey) scan)
              = some true
          · simp [h1, h2, h3, hv, h4, hc, h5, hh, h6] at h
          · refine ⟨election, voter, candidate, voted, rfl, ?_, ?_, h3, rfl, h4, hc, h5, rfl,
              h6, ?_⟩
            · omega
            · omega
            · simp [h1, h2, h3, hv, hc, h4, h5, hh, h6]

/-- When the election has a hasVoted map, a `CastVote` that does not return `nil` leaves the
state as it was. -/
theorem castVote_failure_state {PK : Type} (keyStr : PK → String) (now : Int)
    (scan : List (String × Voter PK)) (tx : VoteTx PK) (vs : VotingState PK)
    (hv : ∀ e, GoMap.get vs.elections tx.ElectionID = some e →
      ∃ voted, GoMap.get vs.hasVoted tx.ElectionID = some voted)
    (h : (CastVote keyStr now scan tx vs).2 ≠ .nil) :
    (CastVote keyStr now scan tx vs).1 = vs := by
  unfold CastVote at h ⊢
  cases he : GoMap.get vs.elections tx.ElectionID with
  | none => simp
  | some election =>
    obtain ⟨voted, hh⟩ := hv election he
    simp only [he, hh] at h ⊢
    by_cases h1 : now < election.StartTime
    · simp [h1]
    by_cases h2 : now ≥ election.EndTime
    · simp [h1, h2]
    by_cases h3 : findVoterID keyStr (keyStr tx.VoterPublicKey) scan = ""
    · simp [h1, h2, h3]
    cases hvt : GoMap.get vs.voters (findVoterID keyStr (keyStr tx.VoterPublicKey) scan) with
    | none => simp [h1, h2, h3]
    | some voter =>
      by_cases h4 : voter.Status = .Approved
      swap
      · simp [h1, h2, h3, h4]
      cases hc : GoMap.get election.Candidates tx.CandidateID with
      | none => simp [h1, h2, h3, h4]
      | some candidate =>
        by_cases h5 : candidate.Status = .Approved
        swap
        · simp [h1, h2, h3, h4, h5]
        by_cases h6 : GoMap.get voted (findVoterID keyStr (keyStr tx.VoterPublicKey) scan)
            = some true
        · simp [h1, h2, h3, h4, h5, h6]
        · simp [h1, h2, h3, hvt, h4, hc, h5, h6] at h

/-- A `CastVote` that returns an error leaves the state as it was, in every state. -/
theorem castVote_error_state {PK : Type} (keyStr : PK → String) (now : Int)
    (scan : List (String × Voter PK)) (tx : VoteTx PK) (vs : VotingState PK) (e : Error)
    (h : (CastVote keyStr now scan tx vs).2 = .err e) :
    (CastVote keyStr now scan tx vs).1 = vs := by
  unfold CastVote at h ⊢
  cases he : GoMap.get vs.elections tx.ElectionID with
  | none => simp
  | some election =>
    simp only [he] at h ⊢
    by_cases h1 : now < election.StartTime
    · simp [h1]
    by_cases h2 : now ≥ election.EndTime
    · simp [h1, h2]
    by_cases h3 : findVoterID keyStr (keyStr tx.VoterPublicKey) scan = ""
    · simp [h1, h2, h3]
    cases hvt : GoMap.get vs.voters (findVoterID keyStr (keyStr tx.VoterPublicKey) scan) with
    | none => simp [h1, h2, h3]
    | some voter =>
      by_cases h4 : voter.Status = .Approved
      swap
      · simp [h1, h2, h3, h4]
      cases hc : GoMap.get election.Candidates tx.CandidateID with
      | none => simp [h1, h2, h3, h4]
      | some candidate =>
        by_cases h5 : candidate.Status = .Approved
        swap
        · simp [h1, h2, h3, h4, h5]
        by_cases h6 : GoMap.get ((GoMap.get vs.hasVoted tx.ElectionID).getD [])
            (findVoterID keyStr (keyStr tx.VoterPublicKey) scan) = some true
        · simp [h1, h2, h3, h4, h5, h6]
        · cases hh : GoMap.get vs.hasVoted tx.ElectionID with
          | none => simp [h1, h2, h3, hvt, h4, hc, h5, h6, hh, GoMap.get] at h
          | some voted =>
            simp only [hh, Option.getD_some] at h6
            simp [h1, h2, h3, hvt, h4, hc, h5, h6, hh] at h

/-! ## The invariant is kept by every method -/

theorem inv_init {PK : Type} : Inv (NewVotingState : VotingState PK) := by
  constructor <;> simp [NewVotingState, GoMap.get, GoMap.keys, maxMapLen]

/-- A change of the voters map that loses no voter ID keeps the invariant. -/
theorem inv_of_voters {PK : Type} {vs : VotingState PK} (h : Inv vs) (voters' : GoMap (Voter PK))
    (hlen : voters'.length ≤ maxMapLen) (hnd : (GoMap.keys voters').Nodup)
    (hsub : ∀ k ∈ GoMap.keys vs.voters, k ∈ GoMap.keys voters') :
    Inv { vs with voters := voters' } where
  votersBound := hlen
  votersNodup := hnd
  votedSome := h.votedSome
  votedNodup := h.votedNodup
  votedRegistered := fun eid voted hv vid hvid => hsub vid (h.votedRegistered eid voted hv vid hvid)
  tally := h.tally
  candCount := h.candCount
  countCand := h.countCand

/-- A change of one election record and of its hasVoted map keeps the invariant, when the new
record and the new map are consistent. -/
theorem inv_of_update {PK : Type} {vs vs' : VotingState PK} (h : Inv vs) (eid : String)
    (e' : Election PK) (voted' : GoMap Bool)
    (hvoters : vs'.voters = vs.voters)
    (hel : ∀ k, GoMap.get vs'.elections k = if k = eid then some e' else GoMap.get vs.elections k)
    (hhv : ∀ k, GoMap.get vs'.hasVoted k = if k = eid then some voted' else GoMap.get vs.hasVoted k)
    (hnd : (GoMap.keys voted').Nodup)
    (hreg : ∀ vid ∈ GoMap.keys voted', vid ∈ GoMap.keys vs.voters)
    (ht : tallySum e'.VoteCounts = countTrue voted')
    (hcc : ∀ cid c, GoMap.get e'.Candidates cid = some c →
      GoMap.get e'.VoteCounts cid = some c.VoteCount)
    (hcc2 : ∀ cid n, GoMap.get e'.VoteCounts cid = some n →
      ∃ c, GoMap.get e'.Candidates cid = some c) : Inv vs' where
  votersBound := by rw [hvoters]; exact h.votersBound
  votersNodup := by rw [hvoters]; exact h.votersNodup
  votedSome := by
    intro k e hk
    rw [hel] at hk
    rw [hhv]
    by_cases hke : k = eid
    · simp [hke]
    · simp only [hke, if_false] at hk ⊢
      exact h.votedSome k e hk
  votedNodup := by
    intro k voted hk
    rw [hhv] at hk
    by_cases hke : k = eid
    · simp only [hke, if_true, Option.some.injEq] at hk
      exact hk ▸ hnd
    · simp only [hke, if_false] at hk
      exact h.votedNodup k voted hk
  votedRegistered := by
    intro k voted hk vid hvid
    rw [hhv] at hk
    rw [hvoters]
    by_cases hke : k = eid
    · simp only [hke, if_true, Option.some.injEq] at hk
      subst hk
      exact hreg vid hvid
    · simp only [hke, if_false] at hk
      exact h.votedRegistered k voted hk vid hvid
  tally := by
    intro k e hk
    rw [hel] at hk
    simp only [votedIn]
    rw [hhv]
    by_cases hke : k = eid
    · simp only [hke, if_true, Option.some.injEq] at hk
      subst hk
      simpa [hke] using ht
    · simp only [hke, if_false] at hk ⊢
      exact h.tally k e hk
  candCount := by
    intro k e cid c hk hc
    rw [hel] at hk
    by_cases hke : k = eid
    · simp only [hke, if_true, Option.some.injEq] at hk
      subst hk
      exact hcc cid c hc
    · simp only [hke, if_false] at hk
      exact h.candCount k e cid c hk hc
  countCand := by
    intro k e cid n hk hc
    rw [hel] at hk
    by_cases hke : k = eid
    · simp only [hke, if_true, Option.some.injEq] at hk
      subst hk
      exact hcc2 cid n hc
    · simp only [hke, if_false] at hk
      exact h.countCand k e cid n hk hc

/-- Rewriting the hasVoted map of an election with itself changes no read. -/
theorem get_hasVoted_self {PK : Type} (vs : VotingState PK) (eid : String) (voted : GoMap Bool)
    (hv : GoMap.get vs.hasVoted eid = some voted) (k : String) :
    GoMap.get vs.hasVoted k = if k = eid then some voted else GoMap.get vs.hasVoted k := by
  by_cases hk : k = eid
  · simp [hk, hv]
  · simp [hk]

theorem inv_RegisterVoter {PK : Type} (tx : VoterRegistrationTx PK) {vs : VotingState PK}
    (h : Inv vs) (hlen : vs.voters.length < maxMapLen) : Inv (RegisterVoter tx vs).1 := by
  unfold RegisterVoter
  cases hg : GoMap.get vs.voters tx.VoterID with
  | some v => exact h
  | none =>
    refine inv_of_voters h _ ?_ (GoMap.nodup_keys_set _ _ _ h.votersNodup) ?_
    · rw [GoMap.length_set_of_none _ _ _ hg]
      omega
    · intro k hk
      exact (GoMap.mem_keys_set _ _ _ _).2 (Or.inl hk)

theorem inv_ApproveVoter {PK : Type} (voterID : String) (adminKey : PK) {vs : VotingState PK}
    (h : Inv vs) : Inv (ApproveVoter voterID adminKey vs).1 := by
  unfold ApproveVoter
  cases hg : GoMap.get vs.voters voterID with
  | none => exact h
  | some v =>
    refine inv_of_voters h _ ?_ (GoMap.nodup_keys_set _ _ _ h.votersNodup) ?_
    · rw [GoMap.length_set_of_some _ _ _ _ hg]
      exact h.votersBound
    · intro k hk
      exact (GoMap.mem_keys_set _ _ _ _).2 (Or.inl hk)

theorem inv_RejectVoter {PK : Type} (voterID : String) (adminKey : PK) {vs : VotingState PK}
    (h : Inv vs) : Inv (RejectVoter voterID adminKey vs).1 := by
  unfold RejectVoter
  cases hg : GoMap.get vs.voters voterID with
  | none => exact h
  | some v =>
    refine inv_of_voters h _ ?_ (GoMap.nodup_keys_set _ _ _ h.votersNodup) ?_
    · rw [GoMap.length_set_of_some _ _ _ _ hg]
      exact h.votersBound
    · intro k hk
      exact (GoMap.mem_keys_set _ _ _ _).2 (Or.inl hk)

theorem inv_CreateElection {PK : Type} (now : Int) (tx : ElectionCreationTx PK)
    {vs : VotingState PK} (h : Inv vs) : Inv (CreateElection now tx vs).1 := by
  unfold CreateElection
  cases hg : GoMap.get vs.elections tx.ElectionID with
  | some e => exact h
  | none =>
    refine inv_of_update h tx.ElectionID _ [] rfl (fun k => GoMap.get_set _ _ _ _)
      (fun k => GoMap.get_set _ _ _ _) ?_ ?_ ?_ ?_ ?_
    · simp [GoMap.keys]
    · simp [GoMap.keys]
    · simp [tallySum, countTrue]
    · simp [GoMap.get]
    · simp [GoMap.get]

theorem inv_RegisterCandidate {PK : Type} (tx : CandidateRegistrationTx PK)
    {vs : VotingState PK} (h : Inv vs) : Inv (RegisterCandidate tx vs).1 := by
  unfold RegisterCandidate
  cases hg : GoMap.get vs.elections tx.ElectionID with
  | none => exact h
  | some e =>
    dsimp only
    cases hc : GoMap.get e.Candidates tx.CandidateID with
    | some c => exact h
    | none =>
      dsimp only
      obtain ⟨voted, hv⟩ := h.votedSome _ _ hg
      have hno : GoMap.get e.VoteCounts tx.CandidateID = none := by
        cases hn : GoMap.get e.VoteCounts tx.CandidateID with
        | none => rfl
        | some n =>
          obtain ⟨c, hc'⟩ := h.countCand _ _ _ _ hg hn
          rw [hc] at hc'
          cases hc'
      refine inv_of_update h tx.ElectionID _ voted rfl (fun k => GoMap.get_set _ _ _ _)
        (get_hasVoted_self vs _ _ hv) (h.votedNodup _ _ hv) (h.votedRegistered _ _ hv) ?_ ?_ ?_
      · have h1 := tallySum_set e.VoteCounts tx.CandidateID 0
        have h2 := h.tally _ _ hg
        simp only [votedIn, hv, Option.getD_some] at h2
        simp only [hno, Option.getD_none] at h1
        simp only
        omega
      · intro cid c hcid
        simp only [GoMap.get_set] at hcid ⊢
        by_cases hk : cid = tx.CandidateID
        · simp only [hk, if_true, Option.some.injEq] at hcid ⊢
          rw [← hcid]
        · simp only [hk, if_false] at hcid ⊢
          exact h.candCount _ _ _ _ hg hcid
      · intro cid n hcid
        simp only [GoMap.get_set] at hcid ⊢
        by_cases hk : cid = tx.CandidateID
        · simp [hk]
        · simp only [hk, if_false] at hcid ⊢
          exact h.countCand _ _ _ _ hg hcid

/-- Overwriting the status of a stored candidate keeps the invariant. -/
theorem inv_setCandidateStatus {PK : Type} {vs : VotingState PK} (h : Inv vs)
    (eid cid : String) (e : Election PK) (c : Candidate PK) (st : CandidateStatus)
    (hg : GoMap.get vs.elections eid = some e) (hc : GoMap.get e.Candidates cid = some c) :
    Inv { vs with
      elections := GoMap.set vs.elections eid
        { e with Candidates := GoMap.set e.Candidates cid { c with Status := st } } } := by
  obtain ⟨voted, hv⟩ := h.votedSome _ _ hg
  refine inv_of_update h eid _ voted rfl (fun k => GoMap.get_set _ _ _ _)
    (get_hasVoted_self vs _ _ hv) (h.votedNodup _ _ hv) (h.votedRegistered _ _ hv) ?_ ?_ ?_
  · have h2 := h.tally _ _ hg
    simp only [votedIn, hv, Option.getD_some] at h2
    exact h2
  · intro k c' hk
    simp only [GoMap.get_set] at hk
    by_cases hkc : k = cid
    · simp only [hkc, if_true, Option.some.injEq] at hk
      rw [← hk, hkc]
      exact h.candCount eid e cid c hg hc
    · simp only [hkc, if_false] at hk
      exact h.candCount eid e _ _ hg hk
  · intro k n hk
    simp only [GoMap.get_set]
    by_cases hkc : k = cid
    · simp [hkc]
    · simp only [hkc, if_false]
      exact h.countCand eid e _ _ hg hk

theorem inv_ApproveCandidate {PK : Type} (keyStr : PK → String) (eid cid : String)
    (adminKey : PK) {vs : VotingState PK} (h : Inv vs) :
    Inv (ApproveCandidate keyStr eid cid adminKey vs).1 := by
  unfold ApproveCandidate
  cases hg : GoMap.get vs.elections eid with
  | none => exact h
  | some e =>
    dsimp only
    by_cases hk : keyStr e.AdminKey ≠ keyStr adminKey
    · rw [if_pos hk]
      exact h
    · rw [if_neg hk]
      cases hc : GoMap.get e.Candidates cid with
      | none => exact h
      | some c => exact inv_setCandidateStatus h eid cid e c .Approved hg hc

theorem inv_RejectCandidate {PK : Type} (keyStr : PK → String) (eid cid : String)
    (adminKey : PK) {vs : VotingState PK} (h : Inv vs) :
    Inv (RejectCandidate keyStr eid cid adminKey vs).1 := by
  unfold RejectCandidate
  cases hg : GoMap.get vs.elections eid with
  | none => exact h
  | some e =>
    dsimp only
    by_cases hk : keyStr e.AdminKey ≠ keyStr adminKey
    · rw [if_pos hk]
      exact h
    · rw [if_neg hk]
      cases hc : GoMap.get e.Candidates cid with
      | none => exact h
      | some c => exact inv_setCandidateStatus h eid cid e c .Rejected hg hc

theorem updateStatus_fields {PK : Type} (now : Int) (e : Election PK) :
    (updateStatus now e).ID = e.ID ∧ (updateStatus now e).Title = e.Title ∧
    (updateStatus now e).Description = e.Description ∧
    (updateStatus now e).StartTime = e.StartTime ∧ (updateStatus now e).EndTime = e.EndTime ∧
    (updateStatus now e).AdminKey = e.AdminKey ∧ (updateStatus now e).Timestamp = e.Timestamp ∧
    (updateStatus now e).Candidates = e.Candidates ∧
    (updateStatus now e).VoteCounts = e.VoteCounts := by
  unfold updateStatus
  split_ifs <;> simp

theorem inv_UpdateElectionStatuses {PK : Type} (now : Int) {vs : VotingState PK} (h : Inv vs) :
    Inv (UpdateElectionStatuses now vs) where
  votersBound := h.votersBound
  votersNodup := h.votersNodup
  votedSome := by
    intro eid e he
    simp only [UpdateElectionStatuses, GoMap.get_mapValues] at he ⊢
    cases hg : GoMap.get vs.elections eid with
    | none => simp [hg] at he
    | some e0 => exact h.votedSome eid e0 hg
  votedNodup := h.votedNodup
  votedRegistered := h.votedRegistered
  tally := by
    intro eid e he
    simp only [UpdateElectionStatuses, GoMap.get_mapValues] at he
    cases hg : GoMap.get vs.elections eid with
    | none => simp [hg] at he
    | some e0 =>
      simp only [hg, Option.map_some', Option.some.injEq] at he
      subst he
      rw [(updateStatus_fields now e0).2.2.2.2.2.2.2.2]
      exact h.tally eid e0 hg
  candCount := by
    intro eid e cid c he hc
    simp only [UpdateElectionStatuses, GoMap.get_mapValues] at he
    cases hg : GoMap.get vs.elections eid with
    | none => simp [hg] at he
    | some e0 =>
      simp only [hg, Option.map_some', Option.some.injEq] at he
      subst he
      rw [(updateStatus_fields now e0).2.2.2.2.2.2.2.2]
      rw [(updateStatus_fields now e0).2.2.2.2.2.2.2.1] at hc
      exact h.candCount eid e0 cid c hg hc
  countCand := by
    intro eid e cid n he hc
    simp only [UpdateElectionStatuses, GoMap.get_mapValues] at he
    cases hg : GoMap.get vs.elections eid with
    | none => simp [hg] at he
    | some e0 =>
      simp only [hg, Option.map_some', Option.some.injEq] at he
      subst he
      rw [(updateStatus_fields now e0).2.2.2.2.2.2.2.1]
      rw [(updateStatus_fields now e0).2.2.2.2.2.2.2.2] at hc
      exact h.countCand eid e0 cid n hg hc

/-- In a consistent state, the votes recorded in an election are fewer than the registered
voters as long as some registered voter has not voted in it: no tally is at the top of the
`uint64` range when a vote is recorded. -/
theorem tally_room {PK : Type} {vs : VotingState PK} (h : Inv vs) (eid vid : String)
    (e : Election PK) (voted : GoMap Bool) (voter : Voter PK)
    (hg : GoMap.get vs.elections eid = some e) (hh : GoMap.get vs.hasVoted eid = some voted)
    (hv : GoMap.get vs.voters vid = some voter) (hnot : GoMap.get voted vid ≠ some true) :
    tallySum e.VoteCounts + 1 < 2 ^ 64 := by
  have h1 := h.tally eid e hg
  simp only [votedIn, hh, Option.getD_some] at h1
  have h2 := countTrue_lt_length voted vs.voters vid (h.votedNodup eid voted hh)
    (h.votedRegistered eid voted hh) (GoMap.mem_keys_of_get hv) hnot
  have h3 := h.votersBound
  simp only [maxMapLen] at h3
  omega

theorem incr64_of_lt (n : Nat) (h : n + 1 < 2 ^ 64) : incr64 n = n + 1 := by
  unfold incr64
  exact Nat.mod_eq_of_lt h

theorem inv_CastVote {PK : Type} (keyStr : PK → String) (now : Int)
    (scan : List (String × Voter PK)) (tx : VoteTx PK) {vs : VotingState PK} (h : Inv vs) :
    Inv (CastVote keyStr now scan tx vs).1 := by
  by_cases hr : (CastVote keyStr now scan tx vs).2 = .nil
  swap
  · rw [castVote_failure_state keyStr now scan tx vs (h.votedSome tx.ElectionID) hr]
    exact h
  obtain ⟨e, voter, cand, voted, hg, _, _, _, hv, _, hc, _, hh, hnot, hs⟩ :=
    castVote_success keyStr now scan tx vs hr
  have hroom := tally_room h _ _ e voted voter hg hh hv hnot
  have hcnt := h.candCount _ e _ cand hg hc
  have hle := get_le_tallySum hcnt
  have hx : incr64 cand.VoteCount = cand.VoteCount + 1 := incr64_of_lt _ (by omega)
  refine inv_of_update h tx.ElectionID _ _ (by rw [hs]) (fun k => by rw [hs]; exact GoMap.get_set _ _ _ _)
    (fun k => by rw [hs]; exact GoMap.get_set _ _ _ _)
    (GoMap.nodup_keys_set _ _ _ (h.votedNodup _ _ hh)) ?_ ?_ ?_ ?_
  · intro vid hvid
    rcases (GoMap.mem_keys_set _ _ _ _).1 hvid with h1 | h1
    · exact h.votedRegistered _ _ hh vid h1
    · exact h1 ▸ GoMap.mem_keys_of_get hv
  · have h1 := tallySum_set e.VoteCounts tx.CandidateID
      (incr64 ((GoMap.get e.VoteCounts tx.CandidateID).getD 0))
    have h2 := h.tally _ e hg
    simp only [votedIn, hh, Option.getD_some] at h2
    rw [countTrue_set_true _ _ hnot]
    simp only [hcnt, Option.getD_some, hx] at h1 ⊢
    omega
  · intro cid c hcid
    simp only [GoMap.get_set] at hcid ⊢
    by_cases hk : cid = tx.CandidateID
    · simp only [hk, if_true, Option.some.injEq] at hcid ⊢
      rw [← hcid, hcnt]
      rfl
    · simp only [hk, if_false] at hcid ⊢
      exact h.candCount _ e _ _ hg hcid
  · intro cid n hcid
    simp only [GoMap.get_set] at hcid ⊢
    by_cases hk : cid = tx.CandidateID
    · simp [hk]
    · simp only [hk, if_false] at hcid ⊢
      exact h.countCand _ e _ _ hg hcid

/-- Every reachable state is consistent. -/
theorem inv_of_reachable {PK : Type} (keyStr : PK → String) {vs : VotingState PK}
    (h : Reachable keyStr vs) : Inv vs := by
  induction h with
  | init => exact inv_init
  | registerVoter tx _ hlen ih => exact inv_RegisterVoter tx ih hlen
  | approveVoter voterID adminKey _ ih => exact inv_ApproveVoter voterID adminKey ih
  | rejectVoter voterID adminKey _ ih => exact inv_RejectVoter voterID adminKey ih
  | createElection now tx _ ih => exact inv_CreateElection now tx ih
  | registerCandidate tx _ ih => exact inv_RegisterCandidate tx ih
  | approveCandidate eid cid adminKey _ ih => exact inv_ApproveCandidate keyStr eid cid adminKey ih
  | rejectCandidate eid cid adminKey _ ih => exact inv_RejectCandidate keyStr eid cid adminKey ih
  | castVote now scan tx _ _ ih => exact inv_CastVote keyStr now scan tx ih
  | updateElectionStatuses now _ ih => exact inv_UpdateElectionStatuses now ih

/-! ## The voter lookup of `CastVote` -/

/-- The lookup loop ends either with `""` and no entry matching, or with the ID of an entry of
the scan that matches. -/
theorem findVoterID_cases {PK : Type} (keyStr : PK → String) (key : String)
    (scan : List (String × Voter PK)) :
    (findVoterID keyStr key scan = "" ∧ ∀ p ∈ scan, keyStr p.2.PublicKey ≠ key) ∨
    (∃ p ∈ scan, keyStr p.2.PublicKey = key ∧ findVoterID keyStr key scan = p.1) := by
  induction scan with
  | nil => simp [findVoterID]
  | cons p rest ih =>
    obtain ⟨id0, v0⟩ := p
    by_cases h0 : keyStr v0.PublicKey = key
    · right
      exact ⟨(id0, v0), List.mem_cons_self _ _, h0, by simp [findVoterID, h0]⟩
    · rcases ih with ⟨h1, h2⟩ | ⟨p, hp, hk, hf⟩
      · left
        refine ⟨by simp [findVoterID, h0, h1], ?_⟩
        intro q hq
        rcases List.mem_cons.1 hq with hq | hq
        · rw [hq]
          exact h0
        · exact h2 q hq
      · right
        exact ⟨p, List.mem_cons_of_mem _ hp, hk, by simp [findVoterID, h0, hf]⟩

/-- With pairwise distinct key strings the lookup finds the one voter with the key, whatever
the order of the scan. -/
theorem findVoterID_eq_of_distinct {PK : Type} (keyStr : PK → String) {vs : VotingState PK}
    (hn : (GoMap.keys vs.voters).Nodup) (hd : DistinctKeys keyStr vs)
    (scan : List (String × Voter PK)) (hp : scan.Perm vs.voters) (key vid : String)
    (v : Voter PK) (hg : GoMap.get vs.voters vid = some v) (hk : keyStr v.PublicKey = key) :
    findVoterID keyStr key scan = vid := by
  rcases findVoterID_cases keyStr key scan with ⟨_, h2⟩ | ⟨p, hps, hpk, hf⟩
  · exact absurd hk (h2 (vid, v) (hp.mem_iff.2 (GoMap.mem_of_get hg)))
  · obtain ⟨id1, v1⟩ := p
    have h1 : GoMap.get vs.voters id1 = some v1 := GoMap.get_of_mem hn (hp.mem_iff.1 hps)
    rw [hf]
    exact hd id1 vid v1 v h1 hg (hpk.trans hk.symm)

/-- The voter stored under the ID that the lookup found has the key that was looked up. -/
theorem findVoterID_key {PK : Type} (keyStr : PK → String) {vs : VotingState PK}
    (hn : (GoMap.keys vs.voters).Nodup) (scan : List (String × Voter PK))
    (hp : scan.Perm vs.voters) (key : String) (voter : Voter PK)
    (hne : findVoterID keyStr key scan ≠ "")
    (hg : GoMap.get vs.voters (findVoterID keyStr key scan) = some voter) :
    keyStr voter.PublicKey = key := by
  rcases findVoterID_cases keyStr key scan with ⟨h1, _⟩ | ⟨p, hps, hpk, hf⟩
  · exact absurd h1 hne
  · obtain ⟨id1, v1⟩ := p
    have h1 : GoMap.get vs.voters id1 = some v1 := GoMap.get_of_mem hn (hp.mem_iff.1 hps)
    rw [hf] at hg
    simp only at hg
    rw [h1] at hg
    cases hg
    exact hpk

/-- The ID that the lookup found, when not `""`, is a key of the voters map. -/
theorem findVoterID_registered {PK : Type} (keyStr : PK → String) {vs : VotingState PK}
    (scan : List (String × Voter PK)) (hp : scan.Perm vs.voters) (key : String)
    (hne : findVoterID keyStr key scan ≠ "") :
    ∃ voter, GoMap.get vs.voters (findVoterID keyStr key scan) = some voter := by
  rcases findVoterID_cases keyStr key scan with ⟨h1, _⟩ | ⟨p, hps, _, hf⟩
  · exact absurd h1 hne
  · rw [hf]
    exact GoMap.get_of_mem_keys (List.mem_map.2 ⟨p, hp.mem_iff.1 hps, rfl⟩)

/-- In a consistent state `CastVote` does not panic. -/
theorem castVote_no_panic {PK : Type} (keyStr : PK → String) (now : Int)
    (scan : List (String × Voter PK)) (tx : VoteTx PK) {vs : VotingState PK} (h : Inv vs)
    (hp : scan.Perm vs.voters) : (CastVote keyStr now scan tx vs).2 ≠ .panic := by
  unfold CastVote
  cases he : GoMap.get vs.elections tx.ElectionID with
  | none => simp
  | some election =>
    obtain ⟨voted, hh⟩ := h.votedSome _ _ he
    simp only [hh]
    by_cases h1 : now < election.StartTime
    · simp [h1]
    by_cases h2 : now ≥ election.EndTime
    · simp [h1, h2]
    by_cases h3 : findVoterID keyStr (keyStr tx.VoterPublicKey) scan = ""
    · simp [h1, h2, h3]
    obtain ⟨voter, hvt⟩ := findVoterID_registered keyStr scan hp (keyStr tx.VoterPublicKey) h3
    simp only [hvt]
    by_cases h4 : voter.Status = .Approved
    swap
    · simp [h1, h2, h3, h4]
    cases hc : GoMap.get election.Candidates tx.CandidateID with
    | none => simp [h1, h2, h3, h4]
    | some candidate =>
      by_cases h5 : candidate.Status = .Approved
      swap
      · simp [h1, h2, h3, h4, h5]
      by_cases h6 : GoMap.get voted (findVoterID keyStr (keyStr tx.VoterPublicKey) scan)
          = some true
      · simp [h1, h2, h3, h4, h5, h6]
      · simp [h1, h2, h3, h4, h5, h6]

/-- The outcome of `CastVote` when every check up to the candidate lookup passes and the voter
is already marked in the hasVoted map of the election. -/
theorem castVote_marked {PK : Type} (keyStr : PK → String) (now : Int)
    (scan : List (String × Voter PK)) (tx : VoteTx PK) (vs : VotingState PK)
    (election : Election PK) (voter : Voter PK) (candidate : Candidate PK) (voted : GoMap Bool)
    (he : GoMap.get vs.elections tx.ElectionID = some election)
    (h1 : election.StartTime ≤ now) (h2 : now < election.EndTime)
    (h3 : findVoterID keyStr (keyStr tx.VoterPublicKey) scan ≠ "")
    (hv : GoMap.get vs.voters (findVoterID keyStr (keyStr tx.VoterPublicKey) scan) = some voter)
    (h4 : voter.Status = .Approved)
    (hc : GoMap.get election.Candidates tx.CandidateID = some candidate)
    (hh : GoMap.get vs.hasVoted tx.ElectionID = some voted)
    (hm : GoMap.get voted (findVoterID keyStr (keyStr tx.VoterPublicKey) scan) = some true) :
    CastVote keyStr now scan tx vs =
      (vs, .err (if candidate.Status = .Approved then .duplicateVote
        else .candidateNotApproved)) := by
  unfold CastVote
  have h1' : ¬ now < election.StartTime := by omega
  have h2' : ¬ now ≥ election.EndTime := by omega
  simp only [he, h1', h2', if_false, h3, hv, h4, ne_eq, not_true_eq_false, hc, hh,
    Option.getD_some, hm, if_true]
  by_cases h5 : candidate.Status = .Approved
  · simp [h5]
  · simp [h5]

/-! ## Reachability of the example states -/

theorem exS1_reachable : Reachable (id : String → String) exS1 :=
  Reachable.registerVoter exVoterTx Reachable.init (by simp [NewVotingState, maxMapLen])

theorem exS2_reachable : Reachable (id : String → String) exS2 :=
  Reachable.approveVoter "v1" "any" exS1_reachable

theorem exS3_reachable : Reachable (id : String → String) exS3 :=
  Reachable.createElection 5 exElectionTx exS2_reachable

theorem exS4_reachable : Reachable (id : String → String) exS4 :=
  Reachable.registerCandidate exCandidateTx exS3_reachable

theorem exReady_reachable : Reachable (id : String → String) exReady :=
  Reachable.approveCandidate "e1" "c1" "adm" exS4_reachable

theorem exVoted_reachable : Reachable (id : String → String) exVoted :=
  Reachable.castVote 10 exReady.voters exVoteTx exReady_reachable (List.Perm.refl _)

theorem exTwoCands_reachable : Reachable (id : String → String) exTwoCands :=
  Reachable.registerCandidate exCandidateTx2 exReady_reachable

theorem exSharedKey_reachable : Reachable (id : String → String) exSharedKey :=
  Reachable.approveCandidate "e1" "c1" "adm"
    (Reachable.registerCandidate exCandidateTx
      (Reachable.createElection 5 exElectionTx
        (Reachable.approveVoter "b" "any"
          (Reachable.registerVoter exVoterTxB
            (Reachable.registerVoter exVoterTxA Reachable.init
              (by simp [NewVotingState, maxMapLen]))
            (by simp [RegisterVoter, NewVotingState, GoMap.get, GoMap.set, maxMapLen])))))

theorem exSharedKeyBoth_reachable : Reachable (id : String → String) exSharedKeyBoth :=
  Reachable.approveVoter "a" "any" exSharedKey_reachable

theorem exEmptyID_reachable : Reachable (id : String → String) exEmptyID :=
  Reachable.approveCandidate "e1" "c1" "adm"
    (Reachable.registerCandidate exCandidateTx
      (Reachable.createElection 5 exElectionTx
        (Reachable.approveVoter "" "any"
          (Reachable.registerVoter exVoterTxEmpty Reachable.init
            (by simp [NewVotingState, maxMapLen])))))

/-! ## The claims -/

/-- C1: in every state reachable from `NewVotingState` by any sequence of engine methods at
arbitrary clock readings, for every election the sum of the values of its `VoteCounts` map
equals the number of voter IDs marked `true` in the hasVoted map of that election. -/
theorem C1_tally_sum_eq_marked {PK : Type} (keyStr : PK → String) (vs : VotingState PK)
    (h : Reachable keyStr vs) (electionID : String) (election : Election PK)
    (he : GoMap.get vs.elections electionID = some election) :
    tallySum election.VoteCounts = countTrue (votedIn vs electionID) :=
  (inv_of_reachable keyStr h).tally electionID election he

/-- C1 at the example state `exVoted`, reached by seven calls, where one vote is recorded. -/
theorem C1_tally_sum_eq_marked_witness :
    Reachable (id : String → String) exVoted ∧
    GoMap.get exVoted.elections "e1" = some exVotedElection ∧
    tallySum exVotedElection.VoteCounts = countTrue (votedIn exVoted "e1") :=
  ⟨exVoted_reachable, by decide,
    C1_tally_sum_eq_marked id exVoted exVoted_reachable "e1" exVotedElection (by decide)⟩

/-- C2, as stated, fails in two ways.  (a) In `exTwoCands` voter `v1` votes for `c1`; the
repeat of the vote for `c2`, a candidate of the same election that is still Pending, fails
with the candidate-not-approved error, not with the duplicate-vote error.  (b) In
`exSharedKeyBoth` two Approved voters share the key `k1`; the vote succeeds, and its exact
repeat succeeds again when the voters are visited in the other order. -/
theorem C2_counterexample :
    (Reachable (id : String → String) exTwoCands ∧
      (CastVote id 10 exTwoCands.voters exVoteTx exTwoCands).2 = .nil ∧
      exVoteTx2.ElectionID = exVoteTx.ElectionID ∧
      exVoteTx2.VoterPublicKey = exVoteTx.VoterPublicKey ∧
      (GoMap.get exTwoCandsVoted.elections "e1").map
        (fun e => (GoMap.get e.Candidates exVoteTx2.CandidateID).isSome) = some true ∧
      CastVote id 10 exTwoCandsVoted.voters exVoteTx2 exTwoCandsVoted =
        (exTwoCandsVoted, .err .candidateNotApproved)) ∧
    (Reachable (id : String → String) exSharedKeyBoth ∧
      (CastVote id 10 exSharedKeyBoth.voters exVoteTx exSharedKeyBoth).2 = .nil ∧
      exScanBA.Perm (CastVote id 10 exSharedKeyBoth.voters exVoteTx exSharedKeyBoth).1.voters ∧
      (CastVote id 10 exScanBA exVoteTx
        (CastVote id 10 exSharedKeyBoth.voters exVoteTx exSharedKeyBoth).1).2 = .nil ∧
      (GoMap.get (CastVote id 10 exScanBA exVoteTx
        (CastVote id 10 exSharedKeyBoth.voters exVoteTx exSharedKeyBoth).1).1.elections "e1").map
        (fun e => e.VoteCounts) = some [("c1", 2)]) :=
  ⟨⟨exTwoCands_reachable, by decide, by decide, by decide, by decide, by decide⟩,
    ⟨exSharedKeyBoth_reachable, by decide, List.reverse_perm exSharedKeyBoth.voters, by decide,
      by decide⟩⟩

/-- C2, amended: in a reachable state whose registered voters have pairwise distinct
public-key strings, after a successful `CastVote` the repeat of the vote (same election, a key
with the same string form, any candidate of that election, any clock reading inside the
window, any order of the voter scan) fails and leaves the whole state, hence every tally,
unchanged: with the duplicate-vote error when the candidate is Approved, and with the
candidate-not-approved error otherwise. -/
theorem C2_repeat_vote_rejected {PK : Type} (keyStr : PK → String) (vs : VotingState PK)
    (h : Reachable keyStr vs) (hd : DistinctKeys keyStr vs)
    (now : Int) (scan : List (String × Voter PK)) (tx : VoteTx PK)
    (hp : scan.Perm vs.voters) (hok : (CastVote keyStr now scan tx vs).2 = .nil)
    (now2 : Int) (scan2 : List (String × Voter PK)) (tx2 : VoteTx PK)
    (hp2 : scan2.Perm (CastVote keyStr now scan tx vs).1.voters)
    (he2 : tx2.ElectionID = tx.ElectionID)
    (hk2 : keyStr tx2.VoterPublicKey = keyStr tx.VoterPublicKey)
    (election : Election PK) (candidate2 : Candidate PK)
    (hg : GoMap.get vs.elections tx.ElectionID = some election)
    (hw1 : election.StartTime ≤ now2) (hw2 : now2 < election.EndTime)
    (hc2 : GoMap.get election.Candidates tx2.CandidateID = some candidate2) :
    CastVote keyStr now2 scan2 tx2 (CastVote keyStr now scan tx vs).1 =
      ((CastVote keyStr now scan tx vs).1,
        .err (if candidate2.Status = .Approved then .duplicateVote
          else .candidateNotApproved)) := by
  have hinv := inv_of_reachable keyStr h
  obtain ⟨e, voter, cand, voted, hg0, _, _, hne, hv, hst, hc, _, hh, _, hs⟩ :=
    castVote_success keyStr now scan tx vs hok
  rw [hg] at hg0
  cases hg0
  have hkey := findVoterID_key keyStr hinv.votersNodup scan hp _ voter hne hv
  rw [hs] at hp2 ⊢
  have hf : findVoterID keyStr (keyStr tx2.VoterPublicKey) scan2 =
      findVoterID keyStr (keyStr tx.VoterPublicKey) scan :=
    findVoterID_eq_of_distinct keyStr hinv.votersNodup hd scan2 hp2 _ _ voter hv
      (hkey.trans hk2.symm)
  have hcand : ∃ c, GoMap.get (GoMap.set election.Candidates tx.CandidateID
      { cand with VoteCount := incr64 cand.VoteCount }) tx2.CandidateID = some c ∧
      c.Status = candidate2.Status := by
    rw [GoMap.get_set]
    by_cases hcid : tx2.CandidateID = tx.CandidateID
    · rw [hcid, hc] at hc2
      cases hc2
      exact ⟨{ candidate2 with VoteCount := incr64 candidate2.VoteCount }, by rw [if_pos hcid],
        rfl⟩
    · exact ⟨candidate2, by rw [if_neg hcid, hc2], rfl⟩
  obtain ⟨c, hc', hcs'⟩ := hcand
  rw [← hcs']
  refine castVote_marked keyStr now2 scan2 tx2 _
    { election with
        VoteCounts := GoMap.set election.VoteCounts tx.CandidateID
          (incr64 ((GoMap.get election.VoteCounts tx.CandidateID).getD 0))
        Candidates := GoMap.set election.Candidates tx.CandidateID
          { cand with VoteCount := incr64 cand.VoteCount } }
    voter c (GoMap.set voted (findVoterID keyStr (keyStr tx.VoterPublicKey) scan) true)
    ?_ hw1 hw2 ?_ ?_ hst hc' ?_ ?_
  · rw [he2]
    exact GoMap.get_set_same _ _ _
  · rw [hf]
    exact hne
  · rw [hf]
    exact hv
  · rw [he2]
    exact GoMap.get_set_same _ _ _
  · rw [hf]
    exact GoMap.get_set_same _ _ _

/-- The only voter of `exReady` is `v1`. -/
theorem exReady_distinctKeys : DistinctKeys (id : String → String) exReady := by
  intro id1 id2 v1 v2 h1 h2 _
  have e1 : id1 = "v1" := by
    by_contra hne
    have : GoMap.get exReady.voters id1 = none := by
      simp [exReady, exS4, exS3, exS2, exS1, ApproveCandidate, RegisterCandidate,
        CreateElection, ApproveVoter, RegisterVoter, NewVotingState, GoMap.get, GoMap.set,
        exVoterTx, exElectionTx, exCandidateTx, Ne.symm hne]
    rw [this] at h1
    cases h1
  have e2 : id2 = "v1" := by
    by_contra hne
    have : GoMap.get exReady.voters id2 = none := by
      simp [exReady, exS4, exS3, exS2, exS1, ApproveCandidate, RegisterCandidate,
        CreateElection, ApproveVoter, RegisterVoter, NewVotingState, GoMap.get, GoMap.set,
        exVoterTx, exElectionTx, exCandidateTx, Ne.symm hne]
    rw [this] at h2
    cases h2
  rw [e1, e2]

/-- C2 (amended) at the example state `exReady`: the vote of `v1` for `c1` at time 10, repeated
at time 20. -/
theorem C2_repeat_vote_rejected_witness :
    CastVote id 20 exVoted.voters exVoteTx exVoted = (exVoted, .err .duplicateVote) :=
  C2_repeat_vote_rejected id exReady exReady_reachable exReady_distinctKeys 10 exReady.voters
    exVoteTx (List.Perm.refl _) (by decide) 20 exVoted.voters exVoteTx (List.Perm.refl _) rfl rfl
    { exVotedElection with
        Candidates :=
          [("c1", { ID := "c1", ElectionID := "e1", PublicKey := "ck1", IPFSProfileHash := "p1",
                    Status := .Approved, Timestamp := 3, VoteCount := 0 })],
        VoteCounts := [("c1", 0)] }
    { ID := "c1", ElectionID := "e1", PublicKey := "ck1", IPFSProfileHash := "p1",
      Status := .Approved, Timestamp := 3, VoteCount := 0 }
    (by decide) (by decide) (by decide) (by decide)

/-- C3, as stated, fails in two ways: the conditions of the claim hold and `CastVote` returns
an error.  (a) In `exEmptyID` the Approved voter with key `k1` is registered under the empty
ID, which the lookup loop takes for "no voter found".  (b) In `exSharedKey` the Approved voter
`b` shares the key `k1` with the Pending voter `a`, and the lookup stops at `a`. -/
theorem C3_counterexample :
    (Reachable (id : String → String) exEmptyID ∧ VoteAccepted id 10 exVoteTx exEmptyID ∧
      CastVote id 10 exEmptyID.voters exVoteTx exEmptyID = (exEmptyID, .err .voterNotFound)) ∧
    (Reachable (id : String → String) exSharedKey ∧ VoteAccepted id 10 exVoteTx exSharedKey ∧
      CastVote id 10 exSharedKey.voters exVoteTx exSharedKey =
        (exSharedKey, .err .voterNotApproved)) :=
  ⟨⟨exEmptyID_reachable,
      ⟨_, rfl, by decide, by decide, ⟨"", _, rfl, by decide, by decide, by decide⟩,
        ⟨_, rfl, by decide⟩⟩,
      by decide⟩,
    ⟨exSharedKey_reachable,
      ⟨_, rfl, by decide, by decide, ⟨"b", _, rfl, by decide, by decide, by decide⟩,
        ⟨_, rfl, by decide⟩⟩,
      by decide⟩⟩

/-- C3, amended: in a reachable state whose registered voters have pairwise distinct
public-key strings and none of them the empty ID, for every vote, clock reading and order of
the voter scan, `CastVote` succeeds if and only if the election exists, the clock is inside
`[StartTime, EndTime)`, some registered voter has the key string of the vote, is Approved and
is not yet marked in the hasVoted map of the election, and the candidate exists in the
election and is Approved; otherwise it returns an error and leaves the state as it was. -/
theorem C3_castVote_succeeds_iff {PK : Type} (keyStr : PK → String) (vs : VotingState PK)
    (h : Reachable keyStr vs) (hd : DistinctKeys keyStr vs)
    (hne : GoMap.get vs.voters "" = none)
    (now : Int) (scan : List (String × Voter PK)) (tx : VoteTx PK)
    (hp : scan.Perm vs.voters) :
    ((CastVote keyStr now scan tx vs).2 = .nil ↔ VoteAccepted keyStr now tx vs) ∧
    (¬ VoteAccepted keyStr now tx vs → ∃ e, CastVote keyStr now scan tx vs = (vs, .err e)) := by
  have hinv := inv_of_reachable keyStr h
  have hiff : (CastVote keyStr now scan tx vs).2 = .nil ↔ VoteAccepted keyStr now tx vs := by
    constructor
    · intro hok
      obtain ⟨e, voter, cand, voted, hg, h1, h2, hn, hv, hst, hc, hcs, hh, hnot, _⟩ :=
        castVote_success keyStr now scan tx vs hok
      refine ⟨e, hg, h1, h2, ⟨_, voter, hv, ?_, hst, ?_⟩, ⟨cand, hc, hcs⟩⟩
      · exact findVoterID_key keyStr hinv.votersNodup scan hp _ voter hn hv
      · simpa [votedIn, hh] using hnot
    · rintro ⟨e, hg, h1, h2, ⟨vid, voter, hv, hk, hst, hnot⟩, ⟨cand, hc, hcs⟩⟩
      obtain ⟨voted, hh⟩ := hinv.votedSome _ _ hg
      have hf : findVoterID keyStr (keyStr tx.VoterPublicKey) scan = vid :=
        findVoterID_eq_of_distinct keyStr hinv.votersNodup hd scan hp _ vid voter hv hk
      have hvid : vid ≠ "" := by
        intro h0
        rw [h0, hne] at hv
        cases hv
      simp only [votedIn, hh, Option.getD_some] at hnot
      have h1' : ¬ now < e.StartTime := by omega
      have h2' : ¬ now ≥ e.EndTime := by omega
      unfold CastVote
      simp [hg, h1', h2', hf, hvid, hv, hst, hc, hcs, hh, hnot]
  refine ⟨hiff, ?_⟩
  intro hna
  have hnil : (CastVote keyStr now scan tx vs).2 ≠ .nil := fun hc => hna (hiff.1 hc)
  have hst := castVote_failure_state keyStr now scan tx vs (hinv.votedSome tx.ElectionID) hnil
  have hpanic := castVote_no_panic keyStr now scan tx hinv hp
  cases hr : (CastVote keyStr now scan tx vs).2 with
  | nil => exact absurd hr hnil
  | panic => exact absurd hr hpanic
  | err e => exact ⟨e, Prod.ext hst hr⟩

/-- C3 (amended) at the example state `exReady`, for the vote of `v1` for `c1` at time 10. -/
theorem C3_castVote_succeeds_iff_witness :
    ((CastVote id 10 exReady.voters exVoteTx exReady).2 = .nil ↔
      VoteAccepted id 10 exVoteTx exReady) ∧
    (¬ VoteAccepted id 10 exVoteTx exReady →
      ∃ e, CastVote id 10 exReady.voters exVoteTx exReady = (exReady, .err e)) :=
  C3_castVote_succeeds_iff id exReady exReady_reachable exReady_distinctKeys (by decide) 10
    exReady.voters exVoteTx (List.Perm.refl _)

/-- C4: whenever `CastVote` succeeds in a reachable state, the state after differs from the
state before in exactly three places: the election's `VoteCounts` entry of the candidate is
one greater, the candidate's `VoteCount` is one greater, and the resolved voter, not marked
before, is marked `true` in the hasVoted map of the election.  Every other tally, every other
hasVoted entry, every voter, every status, every other field and every other election is
unchanged. -/
theorem C4_castVote_frame {PK : Type} (keyStr : PK → String) (vs : VotingState PK)
    (h : Reachable keyStr vs) (now : Int) (scan : List (String × Voter PK)) (tx : VoteTx PK)
    (hok : (CastVote keyStr now scan tx vs).2 = .nil) :
    ∃ election election' candidate n,
      GoMap.get vs.elections tx.ElectionID = some election ∧
      GoMap.get (CastVote keyStr now scan tx vs).1.elections tx.ElectionID = some election' ∧
      GoMap.get election.Candidates tx.CandidateID = some candidate ∧
      GoMap.get election.VoteCounts tx.CandidateID = some n ∧
      GoMap.get election'.VoteCounts tx.CandidateID = some (n + 1) ∧
      GoMap.get election'.Candidates tx.CandidateID =
        some { candidate with VoteCount := candidate.VoteCount + 1 } ∧
      GoMap.get (votedIn vs tx.ElectionID)
        (findVoterID keyStr (keyStr tx.VoterPublicKey) scan) ≠ some true ∧
      GoMap.get (votedIn (CastVote keyStr now scan tx vs).1 tx.ElectionID)
        (findVoterID keyStr (keyStr tx.VoterPublicKey) scan) = some true ∧
      (CastVote keyStr now scan tx vs).1.voters = vs.voters ∧
      (∀ k, k ≠ tx.ElectionID →
        GoMap.get (CastVote keyStr now scan tx vs).1.elections k = GoMap.get vs.elections k) ∧
      (∀ k, k ≠ tx.ElectionID →
        GoMap.get (CastVote keyStr now scan tx vs).1.hasVoted k = GoMap.get vs.hasVoted k) ∧
      (∀ k, k ≠ tx.CandidateID →
        GoMap.get election'.VoteCounts k = GoMap.get election.VoteCounts k) ∧
      (∀ k, k ≠ tx.CandidateID →
        GoMap.get election'.Candidates k = GoMap.get election.Candidates k) ∧
      (∀ k, k ≠ findVoterID keyStr (keyStr tx.VoterPublicKey) scan →
        GoMap.get (votedIn (CastVote keyStr now scan tx vs).1 tx.ElectionID) k =
          GoMap.get (votedIn vs tx.ElectionID) k) ∧
      election'.ID = election.ID ∧ election'.Title = election.Title ∧
      election'.Description = election.Description ∧
      election'.StartTime = election.StartTime ∧ election'.EndTime = election.EndTime ∧
      election'.AdminKey = election.AdminKey ∧ election'.Status = election.Status ∧
      election'.Timestamp = election.Timestamp := by
  have hinv := inv_of_reachable keyStr h
  obtain ⟨e, voter, cand, voted, hg, _, _, _, hv, _, hc, _, hh, hnot, hs⟩ :=
    castVote_success keyStr now scan tx vs hok
  have hroom := tally_room hinv _ _ e voted voter hg hh hv hnot
  have hcnt := hinv.candCount _ e _ cand hg hc
  have hle := get_le_tallySum hcnt
  have hx : incr64 cand.VoteCount = cand.VoteCount + 1 := incr64_of_lt _ (by omega)
  rw [hs]
  refine ⟨e, _, cand, cand.VoteCount, hg, GoMap.get_set_same _ _ _, hc, hcnt, ?_, ?_, ?_, ?_,
    rfl, ?_, ?_, ?_, ?_, ?_, rfl, rfl, rfl, rfl, rfl, rfl, rfl, rfl⟩
  · simp only [hcnt, Option.getD_some, hx]
    exact GoMap.get_set_same _ _ _
  · simp only [hx]
    exact GoMap.get_set_same _ _ _
  · simpa [votedIn, hh] using hnot
  · simp only [votedIn, GoMap.get_set_same, Option.getD_some]
  · intro k hk
    exact GoMap.get_set_other _ _ _ _ hk
  · intro k hk
    exact GoMap.get_set_other _ _ _ _ hk
  · intro k hk
    exact GoMap.get_set_other _ _ _ _ hk
  · intro k hk
    exact GoMap.get_set_other _ _ _ _ hk
  · intro k hk
    simp only [votedIn, GoMap.get_set_same, Option.getD_some, hh]
    exact GoMap.get_set_other _ _ _ _ hk

/-- C4 at the example state `exReady`, for the vote of `v1` for `c1` at time 10. -/
theorem C4_castVote_frame_witness :
    ∃ election election' candidate n,
      GoMap.get exReady.elections "e1" = some election ∧
      GoMap.get exVoted.elections "e1" = some election' ∧
      GoMap.get election.Candidates "c1" = some candidate ∧
      GoMap.get election.VoteCounts "c1" = some n ∧
      GoMap.get election'.VoteCounts "c1" = some (n + 1) ∧
      GoMap.get election'.Candidates "c1" =
        some { candidate with VoteCount := candidate.VoteCount + 1 } ∧
      GoMap.get (votedIn exReady "e1") "v1" ≠ some true ∧
      GoMap.get (votedIn exVoted "e1") "v1" = some true ∧
      exVoted.voters = exReady.voters ∧
      (∀ k, k ≠ "e1" → GoMap.get exVoted.elections k = GoMap.get exReady.elections k) ∧
      (∀ k, k ≠ "e1" → GoMap.get exVoted.hasVoted k = GoMap.get exReady.hasVoted k) ∧
      (∀ k, k ≠ "c1" → GoMap.get election'.VoteCounts k = GoMap.get election.VoteCounts k) ∧
      (∀ k, k ≠ "c1" → GoMap.get election'.Candidates k = GoMap.get election.Candidates k) ∧
      (∀ k, k ≠ "v1" →
        GoMap.get (votedIn exVoted "e1") k = GoMap.get (votedIn exReady "e1") k) ∧
      election'.ID = election.ID ∧ election'.Title = election.Title ∧
      election'.Description = election.Description ∧
      election'.StartTime = election.StartTime ∧ election'.EndTime = election.EndTime ∧
      election'.AdminKey = election.AdminKey ∧ election'.Status = election.Status ∧
      election'.Timestamp = election.Timestamp :=
  C4_castVote_frame id exReady exReady_reachable 10 exReady.voters exVoteTx (by decide)

/-! ## Reading the results -/

/-- Writing a key that is not in the map adds its entry at the end. -/
theorem set_of_not_mem {V : Type} (m : GoMap V) (k : String) (v : V)
    (h : k ∉ GoMap.keys m) : GoMap.set m k v = m ++ [(k, v)] := by
  induction m with
  | nil => simp [GoMap.set]
  | cons p rest ih =>
    obtain ⟨k0, v0⟩ := p
    simp only [GoMap.keys, List.map_cons, List.mem_cons, not_or] at h
    have h0 : ¬ k0 = k := fun e => h.1 e.symm
    simp only [GoMap.keys] at ih
    simp [GoMap.set, h0, ih h.2]

theorem copy_loop_append (counts acc : GoMap Nat)
    (hn : (GoMap.keys (acc ++ counts)).Nodup) :
    counts.foldl (fun results p => GoMap.set results p.1 p.2) acc = acc ++ counts := by
  induction counts generalizing acc with
  | nil => simp
  | cons p rest ih =>
    obtain ⟨k, v⟩ := p
    have hk : k ∉ GoMap.keys acc := by
      simp only [GoMap.keys, List.map_append, List.map_cons, List.nodup_append,
        List.nodup_cons] at hn
      intro hmem
      exact hn.2.2 hmem (List.mem_cons_self _ _)
    simp only [List.foldl_cons]
    rw [set_of_not_mem acc k v hk, ih]
    · simp
    · simpa using hn

/-- The copy loop of `GetElectionResults` rebuilds the tally map it reads. -/
theorem copyCounts_eq (counts : GoMap Nat) (hn : (GoMap.keys counts).Nodup) :
    copyCounts counts = counts := by
  unfold copyCounts
  rw [copy_loop_append counts [] (by simpa using hn)]
  simp

/-- C5: for every state, election ID and clock reading, `GetElectionResults` fails with the
election-does-not-exist error if the election does not exist; fails with the has-not-ended-yet
error if the election exists and `now < EndTime`, whatever the tallies; and if the election
exists and `now ≥ EndTime` it returns a map equal, key for key and value for value, to the
election's `VoteCounts`.  The state is unchanged in each case.  (`VoteCounts` is a map: no key
has two entries.) -/
theorem C5_getElectionResults {PK : Type} (now : Int) (electionID : String)
    (vs : VotingState PK) :
    (GoMap.get vs.elections electionID = none →
      GetElectionResults now electionID vs = (vs, none, .err (.electionMissing electionID))) ∧
    (∀ election, GoMap.get vs.elections electionID = some election → now < election.EndTime →
      GetElectionResults now electionID vs = (vs, none, .err (.notEnded electionID))) ∧
    (∀ election, GoMap.get vs.elections electionID = some election → now ≥ election.EndTime →
      (GoMap.keys election.VoteCounts).Nodup →
      ∃ results, GetElectionResults now electionID vs = (vs, some results, .nil) ∧
        ∀ k, GoMap.get results k = GoMap.get election.VoteCounts k) := by
  refine ⟨?_, ?_, ?_⟩
  · intro h
    simp [GetElectionResults, h]
  · intro e h hlt
    simp [GetElectionResults, h, hlt]
  · intro e h hge hn
    have hlt : ¬ now < e.EndTime := by omega
    refine ⟨copyCounts e.VoteCounts, by simp [GetElectionResults, h, hlt], ?_⟩
    intro k
    rw [copyCounts_eq _ hn]

/-- C5 at the example state `exVoted`: an unknown election, election `e1` before its end, and
election `e1` at its end. -/
theorem C5_getElectionResults_witness :
    GetElectionResults 10 "e9" exVoted = (exVoted, none, .err (.electionMissing "e9")) ∧
    GetElectionResults 10 "e1" exVoted = (exVoted, none, .err (.notEnded "e1")) ∧
    ∃ results, GetElectionResults 100 "e1" exVoted = (exVoted, some results, .nil) ∧
      ∀ k, GoMap.get results k = GoMap.get exVotedElection.VoteCounts k :=
  ⟨(C5_getElectionResults 10 "e9" exVoted).1 (by decide),
    (C5_getElectionResults 10 "e1" exVoted).2.1 exVotedElection (by decide) (by decide),
    (C5_getElectionResults 100 "e1" exVoted).2.2 exVotedElection (by decide) (by decide)
      (by decide)⟩

/-! ## Failed calls -/

/-- C6: failed operations are atomic.  For every state and every input, if `RegisterVoter`,
`ApproveVoter`, `RejectVoter`, `CreateElection`, `RegisterCandidate`, `ApproveCandidate`,
`RejectCandidate` or `CastVote` returns an error, the engine state after the call is the state
before it. -/
theorem C6_failed_calls_atomic {PK : Type} (keyStr : PK → String) (vs : VotingState PK) :
    (∀ tx e, (RegisterVoter tx vs).2 = .err e → (RegisterVoter tx vs).1 = vs) ∧
    (∀ voterID adminKey e, (ApproveVoter voterID adminKey vs).2 = .err e →
      (ApproveVoter voterID adminKey vs).1 = vs) ∧
    (∀ voterID adminKey e, (RejectVoter voterID adminKey vs).2 = .err e →
      (RejectVoter voterID adminKey vs).1 = vs) ∧
    (∀ now tx e, (CreateElection now tx vs).2 = .err e → (CreateElection now tx vs).1 = vs) ∧
    (∀ tx e, (RegisterCandidate tx vs).2 = .err e → (RegisterCandidate tx vs).1 = vs) ∧
    (∀ electionID candidateID adminKey e,
      (ApproveCandidate keyStr electionID candidateID adminKey vs).2 = .err e →
      (ApproveCandidate keyStr electionID candidateID adminKey vs).1 = vs) ∧
    (∀ electionID candidateID adminKey e,
      (RejectCandidate keyStr electionID candidateID adminKey vs).2 = .err e →
      (RejectCandidate keyStr electionID candidateID adminKey vs).1 = vs) ∧
    (∀ now scan tx e, (CastVote keyStr now scan tx vs).2 = .err e →
      (CastVote keyStr now scan tx vs).1 = vs) := by
  refine ⟨?_, ?_, ?_, ?_, ?_, ?_, ?_, ?_⟩
  · intro tx e h
    unfold RegisterVoter at h ⊢
    split at h
    · rfl
    · simp at h
  · intro voterID adminKey e h
    unfold ApproveVoter at h ⊢
    split at h
    · rfl
    · simp at h
  · intro voterID adminKey e h
    unfold RejectVoter at h ⊢
    split at h
    · rfl
    · simp at h
  · intro now tx e h
    unfold CreateElection at h ⊢
    split at h
    · rfl
    · simp at h
  · intro tx e h
    unfold RegisterCandidate at h ⊢
    cases hg : GoMap.get vs.elections tx.ElectionID with
    | none => rfl
    | some election =>
      simp only [hg] at h ⊢
      cases hc : GoMap.get election.Candidates tx.CandidateID with
      | some c => rfl
      | none => simp [hc] at h
  · intro electionID candidateID adminKey e h
    unfold ApproveCandidate at h ⊢
    cases hg : GoMap.get vs.elections electionID with
    | none => rfl
    | some election =>
      simp only [hg] at h ⊢
      by_cases hk : keyStr election.AdminKey ≠ keyStr adminKey
      · rw [if_pos hk]
      · rw [if_neg hk] at h ⊢
        cases hc : GoMap.get election.Candidates candidateID with
        | none => rfl
        | some c => simp [hc] at h
  · intro electionID candidateID adminKey e h
    unfold RejectCandidate at h ⊢
    cases hg : GoMap.get vs.elections electionID with
    | none => rfl
    | some election =>
      simp only [hg] at h ⊢
      by_cases hk : keyStr election.AdminKey ≠ keyStr adminKey
      · rw [if_pos hk]
      · rw [if_neg hk] at h ⊢
        cases hc : GoMap.get election.Candidates candidateID with
        | none => rfl
        | some c => simp [hc] at h
  · intro now scan tx e h
    exact castVote_error_state keyStr now scan tx vs e h

/-- C6 at the example state `exReady`, with one failing call of each of the eight methods. -/
theorem C6_failed_calls_atomic_witness :
    (RegisterVoter exVoterTx exReady).1 = exReady ∧
    (ApproveVoter "v9" "any" exReady).1 = exReady ∧
    (RejectVoter "v9" "any" exReady).1 = exReady ∧
    (CreateElection 5 exElectionTx exReady).1 = exReady ∧
    (RegisterCandidate exCandidateTx exReady).1 = exReady ∧
    (ApproveCandidate id "e1" "c1" "other" exReady).1 = exReady ∧
    (RejectCandidate id "e1" "c1" "other" exReady).1 = exReady ∧
    (CastVote id 100 exReady.voters exVoteTx exReady).1 = exReady :=
  ⟨(C6_failed_calls_atomic id exReady).1 exVoterTx (.voterExists "v1") (by decide),
    (C6_failed_calls_atomic id exReady).2.1 "v9" "any" (.voterMissing "v9") (by decide),
    (C6_failed_calls_atomic id exReady).2.2.1 "v9" "any" (.voterMissing "v9") (by decide),
    (C6_failed_calls_atomic id exReady).2.2.2.1 5 exElectionTx (.electionExists "e1")
      (by decide),
    (C6_failed_calls_atomic id exReady).2.2.2.2.1 exCandidateTx (.candidateExists "c1" "e1")
      (by decide),
    (C6_failed_calls_atomic id exReady).2.2.2.2.2.1 "e1" "c1" "other" .unauthorizedApprove
      (by decide),
    (C6_failed_calls_atomic id exReady).2.2.2.2.2.2.1 "e1" "c1" "other" .unauthorizedReject
      (by decide),
    (C6_failed_calls_atomic id exReady).2.2.2.2.2.2.2 100 exReady.voters exVoteTx (.ended "e1")
      (by decide)⟩

/-! ## Candidate approval -/

/-- C7: for every existing election and every key whose string form differs from the string
form of the election's `AdminKey`, `ApproveCandidate` and `RejectCandidate` fail with their
unauthorized error and leave the whole state, hence the candidate's status, unchanged. -/
theorem C7_unauthorized {PK : Type} (keyStr : PK → String) (electionID candidateID : String)
    (adminKey : PK) (vs : VotingState PK) (election : Election PK)
    (hg : GoMap.get vs.elections electionID = some election)
    (hk : keyStr adminKey ≠ keyStr election.AdminKey) :
    ApproveCandidate keyStr electionID candidateID adminKey vs =
      (vs, .err .unauthorizedApprove) ∧
    RejectCandidate keyStr electionID candidateID adminKey vs =
      (vs, .err .unauthorizedReject) := by
  have hk' : keyStr election.AdminKey ≠ keyStr adminKey := fun e => hk e.symm
  constructor
  · simp [ApproveCandidate, hg, hk']
  · simp [RejectCandidate, hg, hk']

/-- C7 at the example state `exS4`, with a key that is not the admin key of `e1`. -/
theorem C7_unauthorized_witness :
    ApproveCandidate id "e1" "c1" "other" exS4 = (exS4, .err .unauthorizedApprove) ∧
    RejectCandidate id "e1" "c1" "other" exS4 = (exS4, .err .unauthorizedReject) :=
  C7_unauthorized id "e1" "c1" "other" exS4
    { ID := "e1", Title := "Board", Description := "", StartTime := 0, EndTime := 100,
      AdminKey := "adm", Status := .Active, Timestamp := 2,
      Candidates :=
        [("c1", { ID := "c1", ElectionID := "e1", PublicKey := "ck1", IPFSProfileHash := "p1",
                  Status := .Pending, Timestamp := 3, VoteCount := 0 })],
      VoteCounts := [("c1", 0)] }
    (by decide) (by decide)

/-- Overwriting the status of a stored candidate changes that status and nothing else. -/
theorem candidateStatusSet_intro {PK : Type} (vs : VotingState PK)
    (electionID candidateID : String) (election : Election PK) (candidate : Candidate PK)
    (st : CandidateStatus) (hg : GoMap.get vs.elections electionID = some election)
    (hc : GoMap.get election.Candidates candidateID = some candidate) :
    CandidateStatusSet vs
      { vs with
        elections := GoMap.set vs.elections electionID
          { election with
              Candidates := GoMap.set election.Candidates candidateID
                { candidate with Status := st } } }
      electionID candidateID st :=
  ⟨rfl, rfl, fun _ hk => GoMap.get_set_other _ _ _ _ hk, election, _, candidate, hg,
    GoMap.get_set_same _ _ _, hc, GoMap.get_set_same _ _ _,
    fun _ hk => GoMap.get_set_other _ _ _ _ hk, rfl, rfl, rfl, rfl, rfl, rfl, rfl, rfl, rfl⟩

/-- C8: `ApproveCandidate` (resp. `RejectCandidate`) called with a key whose string form equals
the string form of the election's `AdminKey` succeeds exactly when the election and the
candidate in it both exist; on success it sets the status of that candidate to Approved
(resp. Rejected) and changes nothing else; when the election or the candidate is missing it
fails with the does-not-exist error of the missing one, the state unchanged. -/
theorem C8_authorized {PK : Type} (keyStr : PK → String) (electionID candidateID : String)
    (adminKey : PK) (vs : VotingState PK)
    (hkey : ∀ election, GoMap.get vs.elections electionID = some election →
      keyStr adminKey = keyStr election.AdminKey) :
    ((ApproveCandidate keyStr electionID candidateID adminKey vs).2 = .nil ↔
      ∃ election candidate, GoMap.get vs.elections electionID = some election ∧
        GoMap.get election.Candidates candidateID = some candidate) ∧
    ((RejectCandidate keyStr electionID candidateID adminKey vs).2 = .nil ↔
      ∃ election candidate, GoMap.get vs.elections electionID = some election ∧
        GoMap.get election.Candidates candidateID = some candidate) ∧
    (∀ election candidate, GoMap.get vs.elections electionID = some election →
      GoMap.get election.Candidates candidateID = some candidate →
      CandidateStatusSet vs (ApproveCandidate keyStr electionID candidateID adminKey vs).1
        electionID candidateID .Approved ∧
      CandidateStatusSet vs (RejectCandidate keyStr electionID candidateID adminKey vs).1
        electionID candidateID .Rejected) ∧
    (GoMap.get vs.elections electionID = none →
      ApproveCandidate keyStr electionID candidateID adminKey vs =
        (vs, .err (.electionMissing electionID)) ∧
      RejectCandidate keyStr electionID candidateID adminKey vs =
        (vs, .err (.electionMissing electionID))) ∧
    (∀ election, GoMap.get vs.elections electionID = some election →
      GoMap.get election.Candidates candidateID = none →
      ApproveCandidate keyStr electionID candidateID adminKey vs =
        (vs, .err (.candidateMissing candidateID electionID)) ∧
      RejectCandidate keyStr electionID candidateID adminKey vs =
        (vs, .err (.candidateMissing candidateID electionID))) := by
  cases hg : GoMap.get vs.elections electionID with
  | none => simp [ApproveCandidate, RejectCandidate, hg]
  | some election =>
    have hk := hkey election hg
    cases hc : GoMap.get election.Candidates candidateID with
    | none =>
      simp only [ApproveCandidate, RejectCandidate, hg, hk, hc]
      refine ⟨by simp [hc], by simp [hc], ?_, by simp, by simp [hc]⟩
      intro e c he hce
      cases he
      rw [hc] at hce
      cases hce
    | some candidate =>
      have ha : ApproveCandidate keyStr electionID candidateID adminKey vs =
          ({ vs with
              elections := GoMap.set vs.elections electionID
                { election with
                    Candidates := GoMap.set election.Candidates candidateID
                      { candidate with Status := .Approved } } }, .nil) := by
        simp [ApproveCandidate, hg, hk, hc]
      have hr : RejectCandidate keyStr electionID candidateID adminKey vs =
          ({ vs with
              elections := GoMap.set vs.elections electionID
                { election with
                    Candidates := GoMap.set election.Candidates candidateID
                      { candidate with Status := .Rejected } } }, .nil) := by
        simp [RejectCandidate, hg, hk, hc]
      rw [ha, hr]
      refine ⟨by simp [hc], by simp [hc], ?_, by simp, by simp [hc]⟩
      intro e c he hce
      cases he
      rw [hc] at hce
      cases hce
      exact ⟨candidateStatusSet_intro vs electionID candidateID _ _ .Approved hg hc,
        candidateStatusSet_intro vs electionID candidateID _ _ .Rejected hg hc⟩

/-- C8 at the example state `exS4`, with the admin key of `e1`. -/
theorem C8_authorized_witness :
    (ApproveCandidate id "e1" "c1" "adm" exS4).2 = .nil ∧
    CandidateStatusSet exS4 (ApproveCandidate id "e1" "c1" "adm" exS4).1 "e1" "c1" .Approved ∧
    CandidateStatusSet exS4 (RejectCandidate id "e1" "c1" "adm" exS4).1 "e1" "c1" .Rejected ∧
    ApproveCandidate id "e1" "c7" "adm" exS4 = (exS4, .err (.candidateMissing "c7" "e1")) :=
  have hkey : ∀ election : Election String, GoMap.get exS4.elections "e1" = some election →
      id "adm" = id election.AdminKey := by
    intro election h
    have h' : some election = GoMap.get exS4.elections "e1" := h.symm
    have h2 : GoMap.get exS4.elections "e1" =
        some { ID := "e1", Title := "Board", Description := "", StartTime := 0, EndTime := 100,
               AdminKey := "adm", Status := .Active, Timestamp := 2,
               Candidates :=
                 [("c1", { ID := "c1", ElectionID := "e1", PublicKey := "ck1",
                           IPFSProfileHash := "p1", Status := .Pending, Timestamp := 3,
                           VoteCount := 0 })],
               VoteCounts := [("c1", 0)] } := by decide
    rw [h2] at h'
    cases h'
    rfl
  ⟨((C8_authorized id "e1" "c1" "adm" exS4 hkey).1).2 ⟨_, _, rfl, rfl⟩,
    ((C8_authorized id "e1" "c1" "adm" exS4 hkey).2.2.1 _ _ rfl rfl).1,
    ((C8_authorized id "e1" "c1" "adm" exS4 hkey).2.2.1 _ _ rfl rfl).2,
    ((C8_authorized id "e1" "c7" "adm" exS4 hkey).2.2.2.2 _ rfl (by decide)).1⟩

/-! ## Voter registration and approval -/

/-- C9: `RegisterVoter` succeeds if and only if the voter ID of the payload is not yet a
registered voter ID.  On success `GetVoter` of that ID returns a voter with status Pending and
the ID, public key, document hash and timestamp of the payload, and every other voter, every
election and every hasVoted map is unchanged.  When the ID is registered the call fails with
the already-exists error; so does a second registration under the same ID, and the state after
the second call is the state after the first. -/
theorem C9_registerVoter {PK : Type} (tx : VoterRegistrationTx PK) (vs : VotingState PK) :
    ((RegisterVoter tx vs).2 = .nil ↔ GoMap.get vs.voters tx.VoterID = none) ∧
    (GoMap.get vs.voters tx.VoterID = none →
      GetVoter tx.VoterID (RegisterVoter tx vs).1 =
        ((RegisterVoter tx vs).1,
          some { ID := tx.VoterID, PublicKey := tx.VoterPublicKey,
                 IPFSDocHash := tx.IPFSDocHash, Status := .Pending,
                 Timestamp := tx.Timestamp }, .nil) ∧
      (∀ k, k ≠ tx.VoterID →
        GoMap.get (RegisterVoter tx vs).1.voters k = GoMap.get vs.voters k) ∧
      (RegisterVoter tx vs).1.elections = vs.elections ∧
      (RegisterVoter tx vs).1.hasVoted = vs.hasVoted) ∧
    (∀ voter, GoMap.get vs.voters tx.VoterID = some voter →
      RegisterVoter tx vs = (vs, .err (.voterExists tx.VoterID))) ∧
    (∀ tx2 : VoterRegistrationTx PK, tx2.VoterID = tx.VoterID →
      RegisterVoter tx2 (RegisterVoter tx vs).1 =
        ((RegisterVoter tx vs).1, .err (.voterExists tx.VoterID))) := by
  cases hg : GoMap.get vs.voters tx.VoterID with
  | some voter =>
    have h1 : RegisterVoter tx vs = (vs, .err (.voterExists tx.VoterID)) := by
      simp [RegisterVoter, hg]
    rw [h1]
    refine ⟨by simp, by simp, by simp, ?_⟩
    intro tx2 h2
    simp [RegisterVoter, h2, hg]
  | none =>
    have h1 : RegisterVoter tx vs =
        ({ vs with
            voters := GoMap.set vs.voters tx.VoterID
              { ID := tx.VoterID, PublicKey := tx.VoterPublicKey,
                IPFSDocHash := tx.IPFSDocHash, Status := .Pending,
                Timestamp := tx.Timestamp } }, .nil) := by
      simp [RegisterVoter, hg]
    rw [h1]
    refine ⟨by simp, ?_, by simp, ?_⟩
    · intro _
      refine ⟨by simp [GetVoter, GoMap.get_set_same], ?_, rfl, rfl⟩
      intro k hk
      exact GoMap.get_set_other _ _ _ _ hk
    · intro tx2 h2
      simp [RegisterVoter, h2, GoMap.get_set_same]

/-- C9 at the fresh state, for the registration of voter `v1`, and its repeat. -/
theorem C9_registerVoter_witness :
    (RegisterVoter exVoterTx NewVotingState).2 = .nil ∧
    GetVoter "v1" exS1 =
      (exS1, some { ID := "v1", PublicKey := "k1", IPFSDocHash := "doc1", Status := .Pending,
                    Timestamp := 1 }, .nil) ∧
    RegisterVoter exVoterTx exS1 = (exS1, .err (.voterExists "v1")) :=
  ⟨(C9_registerVoter exVoterTx NewVotingState).1.2 (by decide),
    ((C9_registerVoter exVoterTx NewVotingState).2.1 (by decide)).1,
    (C9_registerVoter exVoterTx NewVotingState).2.2.2 exVoterTx rfl⟩

/-- Overwriting the status of a stored voter changes that status and nothing else. -/
theorem voterStatusSet_intro {PK : Type} (vs : VotingState PK) (voterID : String)
    (voter : Voter PK) (st : VoterStatus) (hg : GoMap.get vs.voters voterID = some voter) :
    VoterStatusSet vs
      { vs with voters := GoMap.set vs.voters voterID { voter with Status := st } }
      voterID st :=
  ⟨rfl, rfl, fun _ hk => GoMap.get_set_other _ _ _ _ hk, voter, hg, GoMap.get_set_same _ _ _⟩

/-- C10: `ApproveVoter` and `RejectVoter` fail, with the voter-does-not-exist error, if and
only if the voter ID is not registered; otherwise they succeed for every value of the
`adminKey` argument and for every current status of the voter, set the status to Approved
(resp. Rejected) and change nothing else.  The outcome does not depend on `adminKey`. -/
theorem C10_voter_approval {PK : Type} (voterID : String) (adminKey : PK)
    (vs : VotingState PK) :
    (ApproveVoter voterID adminKey vs = (vs, .err (.voterMissing voterID)) ↔
      GoMap.get vs.voters voterID = none) ∧
    (RejectVoter voterID adminKey vs = (vs, .err (.voterMissing voterID)) ↔
      GoMap.get vs.voters voterID = none) ∧
    (∀ voter, GoMap.get vs.voters voterID = some voter →
      (ApproveVoter voterID adminKey vs).2 = .nil ∧
      VoterStatusSet vs (ApproveVoter voterID adminKey vs).1 voterID .Approved ∧
      (RejectVoter voterID adminKey vs).2 = .nil ∧
      VoterStatusSet vs (RejectVoter voterID adminKey vs).1 voterID .Rejected) ∧
    (∀ otherKey : PK, ApproveVoter voterID adminKey vs = ApproveVoter voterID otherKey vs ∧
      RejectVoter voterID adminKey vs = RejectVoter voterID otherKey vs) := by
  cases hg : GoMap.get vs.voters voterID with
  | none => simp [ApproveVoter, RejectVoter, hg]
  | some voter =>
    have ha : ApproveVoter voterID adminKey vs =
        ({ vs with voters := GoMap.set vs.voters voterID { voter with Status := .Approved } },
          .nil) := by
      simp [ApproveVoter, hg]
    have hr : RejectVoter voterID adminKey vs =
        ({ vs with voters := GoMap.set vs.voters voterID { voter with Status := .Rejected } },
          .nil) := by
      simp [RejectVoter, hg]
    refine ⟨by simp [ha], by simp [hr], ?_, ?_⟩
    · intro v hv
      cases hv
      rw [ha, hr]
      exact ⟨rfl, voterStatusSet_intro vs voterID _ .Approved hg, rfl,
        voterStatusSet_intro vs voterID _ .Rejected hg⟩
    · intro otherKey
      simp [ApproveVoter, RejectVoter]

/-- C10 at the example states `exRejected` (a Rejected voter is approved) and `exS2` (an
Approved voter is rejected). -/
theorem C10_voter_approval_witness :
    (ApproveVoter "v1" "any" exRejected).2 = .nil ∧
    VoterStatusSet exRejected (ApproveVoter "v1" "any" exRejected).1 "v1" .Approved ∧
    (RejectVoter "v1" "any" exS2).2 = .nil ∧
    VoterStatusSet exS2 (RejectVoter "v1" "any" exS2).1 "v1" .Rejected ∧
    ApproveVoter "v9" "any" exS2 = (exS2, .err (.voterMissing "v9")) :=
  ⟨((C10_voter_approval "v1" "any" exRejected).2.2.1 _ rfl).1,
    ((C10_voter_approval "v1" "any" exRejected).2.2.1 _ rfl).2.1,
    ((C10_voter_approval "v1" "any" exS2).2.2.1 _ rfl).2.2.1,
    ((C10_voter_approval "v1" "any" exS2).2.2.1 _ rfl).2.2.2,
    (C10_voter_approval "v9" "any" exS2).1.2 (by decide)⟩

/-! ## Election creation and candidate registration -/

/-- C11: `CreateElection` fails, with the already-exists error, if and only if the election ID
of the payload is already an election ID, and then the state is untouched.  On success the new
election carries the ID, title, description, start and end times, admin key and timestamp of
the payload, has an empty `Candidates` map, an empty `VoteCounts` map and an empty hasVoted
map, and every voter, every other election and every other hasVoted map is unchanged. -/
theorem C11_createElection {PK : Type} (now : Int) (tx : ElectionCreationTx PK)
    (vs : VotingState PK) :
    (CreateElection now tx vs = (vs, .err (.electionExists tx.ElectionID)) ↔
      ∃ e, GoMap.get vs.elections tx.ElectionID = some e) ∧
    ((CreateElection now tx vs).2 = .nil ↔ GoMap.get vs.elections tx.ElectionID = none) ∧
    (GoMap.get vs.elections tx.ElectionID = none →
      (∃ e, GoMap.get (CreateElection now tx vs).1.elections tx.ElectionID = some e ∧
        e.ID = tx.ElectionID ∧ e.Title = tx.Title ∧ e.Description = tx.Description ∧
        e.StartTime = tx.StartTime ∧ e.EndTime = tx.EndTime ∧ e.AdminKey = tx.AdminPublicKey ∧
        e.Timestamp = tx.Timestamp ∧ e.Candidates = [] ∧ e.VoteCounts = []) ∧
      GoMap.get (CreateElection now tx vs).1.hasVoted tx.ElectionID = some [] ∧
      (∀ k, k ≠ tx.ElectionID →
        GoMap.get (CreateElection now tx vs).1.elections k = GoMap.get vs.elections k) ∧
      (∀ k, k ≠ tx.ElectionID →
        GoMap.get (CreateElection now tx vs).1.hasVoted k = GoMap.get vs.hasVoted k) ∧
      (CreateElection now tx vs).1.voters = vs.voters) := by
  cases hg : GoMap.get vs.elections tx.ElectionID with
  | some e => simp [CreateElection, hg]
  | none =>
    simp only [CreateElection, hg]
    refine ⟨by simp, by simp, ?_⟩
    intro _
    exact ⟨⟨_, GoMap.get_set_same _ _ _, rfl, rfl, rfl, rfl, rfl, rfl, rfl, rfl, rfl⟩,
      GoMap.get_set_same _ _ _, fun _ hk => GoMap.get_set_other _ _ _ _ hk,
      fun _ hk => GoMap.get_set_other _ _ _ _ hk, trivial⟩

/-- C11 at the example state `exVoted`: `e1` exists, `e2` does not. -/
theorem C11_createElection_witness :
    CreateElection 10 exElectionTx exVoted = (exVoted, .err (.electionExists "e1")) ∧
    (CreateElection 10 exElectionTx2 exVoted).2 = .nil ∧
    GoMap.get exTwoElections.hasVoted "e2" = some [] :=
  ⟨(C11_createElection 10 exElectionTx exVoted).1.2 ⟨exVotedElection, by decide⟩,
    (C11_createElection 10 exElectionTx2 exVoted).2.1.2 (by decide),
    ((C11_createElection 10 exElectionTx2 exVoted).2.2 (by decide)).2.1⟩

/-- C12: for every successful `CreateElection` executed at clock reading `now`, the created
election is Active at once if `StartTime ≤ now < EndTime`, and Ended if `now ≥ EndTime`. -/
theorem C12_created_active_or_ended {PK : Type} (now : Int) (tx : ElectionCreationTx PK)
    (vs : VotingState PK) (hok : (CreateElection now tx vs).2 = .nil) :
    ∃ e, GoMap.get (CreateElection now tx vs).1.elections tx.ElectionID = some e ∧
      (tx.StartTime ≤ now ∧ now < tx.EndTime → e.Status = .Active) ∧
      (now ≥ tx.EndTime → e.Status = .Ended) := by
  cases hg : GoMap.get vs.elections tx.ElectionID with
  | some e => simp [CreateElection, hg] at hok
  | none =>
    simp only [CreateElection, hg]
    refine ⟨_, GoMap.get_set_same _ _ _, ?_, ?_⟩
    · intro h
      simp [createStatus, h]
    · intro h
      have h' : ¬ now < tx.EndTime := by omega
      simp [createStatus, h, h']

/-- C12 at the fresh state: `e1`, open over `[0, 100)`, created at time 5 and at time 100. -/
theorem C12_created_active_or_ended_witness :
    (∃ e, GoMap.get (CreateElection 5 exElectionTx NewVotingState).1.elections "e1" = some e ∧
      ((0 : Int) ≤ 5 ∧ (5 : Int) < 100 → e.Status = .Active) ∧
      ((5 : Int) ≥ 100 → e.Status = .Ended)) ∧
    (∃ e, GoMap.get (CreateElection 100 exElectionTx NewVotingState).1.elections "e1" = some e ∧
      ((0 : Int) ≤ 100 ∧ (100 : Int) < 100 → e.Status = .Active) ∧
      ((100 : Int) ≥ 100 → e.Status = .Ended)) :=
  ⟨C12_created_active_or_ended 5 exElectionTx NewVotingState (by decide),
    C12_created_active_or_ended 100 exElectionTx NewVotingState (by decide)⟩

/-- C13, as stated, fails: the election with `StartTime = 100` and `EndTime = 0` is created
successfully at time 50, before its start, and its status is Ended, not Pending. -/
theorem C13_counterexample :
    (CreateElection 50 exElectionTxInverted NewVotingState).2 = .nil ∧
    (50 : Int) < exElectionTxInverted.StartTime ∧
    (GoMap.get (CreateElection 50 exElectionTxInverted NewVotingState).1.elections "e3").map
      (fun e => e.Status) = some .Ended := by
  decide

/-- C13, amended: for every successful `CreateElection` executed at a clock reading `now` with
`now < StartTime`, the created election is Pending if also `now < EndTime` (as is the case
whenever `StartTime ≤ EndTime`), and Ended if `EndTime ≤ now`. -/
theorem C13_created_pending {PK : Type} (now : Int) (tx : ElectionCreationTx PK)
    (vs : VotingState PK) (hok : (CreateElection now tx vs).2 = .nil)
    (hstart : now < tx.StartTime) :
    ∃ e, GoMap.get (CreateElection now tx vs).1.elections tx.ElectionID = some e ∧
      (now < tx.EndTime → e.Status = .Pending) ∧
      (tx.StartTime ≤ tx.EndTime → e.Status = .Pending) ∧
      (tx.EndTime ≤ now → e.Status = .Ended) := by
  cases hg : GoMap.get vs.elections tx.ElectionID with
  | some e => simp [CreateElection, hg] at hok
  | none =>
    simp only [CreateElection, hg]
    have h1 : ¬ now ≥ tx.StartTime := by omega
    refine ⟨_, GoMap.get_set_same _ _ _, ?_, ?_, ?_⟩
    · intro h
      have h2 : ¬ now ≥ tx.EndTime := by omega
      simp [createStatus, h1, h2]
    · intro h
      have h2 : ¬ now ≥ tx.EndTime := by omega
      simp [createStatus, h1, h2]
    · intro h
      simp [createStatus, h1, h]

/-- C13 (amended) at the fresh state: `e4`, open over `[50, 100)`, created at time 5. -/
theorem C13_created_pending_witness :
    ∃ e, GoMap.get (CreateElection 5 exElectionTxLater NewVotingState).1.elections "e4" =
        some e ∧
      ((5 : Int) < 100 → e.Status = .Pending) ∧
      ((50 : Int) ≤ 100 → e.Status = .Pending) ∧
      ((100 : Int) ≤ 5 → e.Status = .Ended) :=
  C13_created_pending 5 exElectionTxLater NewVotingState (by decide) (by decide)

/-- C14: `RegisterCandidate` fails with the election-does-not-exist error if the election of
the payload does not exist, fails with the already-registered error if the candidate ID is
already a candidate of that election, and otherwise succeeds: it inserts into that election a
candidate with status Pending and `VoteCount` 0, built from the payload, and a `VoteCounts`
entry of 0 for it, and changes no other candidate, no other tally and nothing else.  Candidate
IDs are unique per election only: after the call, a registration in another election that
lacks the candidate ID of its payload (the same ID as before, for one) succeeds. -/
theorem C14_registerCandidate {PK : Type} (tx : CandidateRegistrationTx PK)
    (vs : VotingState PK) :
    (GoMap.get vs.elections tx.ElectionID = none →
      RegisterCandidate tx vs = (vs, .err (.electionMissing tx.ElectionID))) ∧
    (∀ e c, GoMap.get vs.elections tx.ElectionID = some e →
      GoMap.get e.Candidates tx.CandidateID = some c →
      RegisterCandidate tx vs = (vs, .err (.candidateExists tx.CandidateID tx.ElectionID))) ∧
    (∀ e, GoMap.get vs.elections tx.ElectionID = some e →
      GoMap.get e.Candidates tx.CandidateID = none →
      (RegisterCandidate tx vs).2 = .nil ∧
      (∃ e', GoMap.get (RegisterCandidate tx vs).1.elections tx.ElectionID = some e' ∧
        GoMap.get e'.Candidates tx.CandidateID =
          some { ID := tx.CandidateID, ElectionID := tx.ElectionID,
                 PublicKey := tx.CandidatePublicKey, IPFSProfileHash := tx.IPFSProfileHash,
                 Status := .Pending, Timestamp := tx.Timestamp, VoteCount := 0 } ∧
        GoMap.get e'.VoteCounts tx.CandidateID = some 0 ∧
        (∀ k, k ≠ tx.CandidateID → GoMap.get e'.Candidates k = GoMap.get e.Candidates k) ∧
        (∀ k, k ≠ tx.CandidateID → GoMap.get e'.VoteCounts k = GoMap.get e.VoteCounts k) ∧
        e'.ID = e.ID ∧ e'.Title = e.Title ∧ e'.Description = e.Description ∧
        e'.StartTime = e.StartTime ∧ e'.EndTime = e.EndTime ∧ e'.AdminKey = e.AdminKey ∧
        e'.Status = e.Status ∧ e'.Timestamp = e.Timestamp) ∧
      (∀ k, k ≠ tx.ElectionID →
        GoMap.get (RegisterCandidate tx vs).1.elections k = GoMap.get vs.elections k) ∧
      (RegisterCandidate tx vs).1.voters = vs.voters ∧
      (RegisterCandidate tx vs).1.hasVoted = vs.hasVoted) ∧
    (∀ (tx2 : CandidateRegistrationTx PK) e2, tx2.ElectionID ≠ tx.ElectionID →
      GoMap.get vs.elections tx2.ElectionID = some e2 →
      GoMap.get e2.Candidates tx2.CandidateID = none →
      (RegisterCandidate tx2 (RegisterCandidate tx vs).1).2 = .nil) := by
  have hother : ∀ (tx2 : CandidateRegistrationTx PK) e2 (vs' : VotingState PK),
      GoMap.get vs'.elections tx2.ElectionID = some e2 →
      GoMap.get e2.Candidates tx2.CandidateID = none →
      (RegisterCandidate tx2 vs').2 = .nil := by
    intro tx2 e2 vs' h1 h2
    simp [RegisterCandidate, h1, h2]
  cases hg : GoMap.get vs.elections tx.ElectionID with
  | none =>
    have h1 : RegisterCandidate tx vs = (vs, .err (.electionMissing tx.ElectionID)) := by
      simp [RegisterCandidate, hg]
    rw [h1]
    exact ⟨fun _ => rfl, by simp, by simp, fun tx2 e2 _ h2 h3 => hother tx2 e2 vs h2 h3⟩
  | some e =>
    cases hc : GoMap.get e.Candidates tx.CandidateID with
    | some c =>
      have h1 : RegisterCandidate tx vs =
          (vs, .err (.candidateExists tx.CandidateID tx.ElectionID)) := by
        simp [RegisterCandidate, hg, hc]
      rw [h1]
      refine ⟨by simp, fun _ _ _ _ => rfl, ?_, fun tx2 e2 _ h2 h3 => hother tx2 e2 vs h2 h3⟩
      intro e' he' hc'
      cases he'
      rw [hc] at hc'
      cases hc'
    | none =>
      have h1 : RegisterCandidate tx vs =
          ({ vs with
              elections := GoMap.set vs.elections tx.ElectionID
                { e with
                    Candidates := GoMap.set e.Candidates tx.CandidateID
                      { ID := tx.CandidateID, ElectionID := tx.ElectionID,
                        PublicKey := tx.CandidatePublicKey,
                        IPFSProfileHash := tx.IPFSProfileHash, Status := .Pending,
                        Timestamp := tx.Timestamp, VoteCount := 0 }
                    VoteCounts := GoMap.set e.VoteCounts tx.CandidateID 0 } }, .nil) := by
        simp [RegisterCandidate, hg, hc]
      rw [h1]
      refine ⟨by simp, ?_, ?_, ?_⟩
      · intro e' c he' hc'
        cases he'
        rw [hc] at hc'
        cases hc'
      · intro e' he' _
        cases he'
        exact ⟨rfl, ⟨_, GoMap.get_set_same _ _ _, GoMap.get_set_same _ _ _,
          GoMap.get_set_same _ _ _, fun _ hk => GoMap.get_set_other _ _ _ _ hk,
          fun _ hk => GoMap.get_set_other _ _ _ _ hk, rfl, rfl, rfl, rfl, rfl, rfl, rfl, rfl⟩,
          fun _ hk => GoMap.get_set_other _ _ _ _ hk, rfl, rfl⟩
      · intro tx2 e2 hne h2 h3
        refine hother tx2 e2 _ ?_ h3
        rw [← h2]
        exact GoMap.get_set_other _ _ _ _ hne

/-- C14 at the example state `exTwoEmpty`: candidate `c1` is registered in election `e1` and
then, under the same ID, in election `e2`; a second registration in `e1` fails. -/
theorem C14_registerCandidate_witness :
    (RegisterCandidate exCandidateTx exTwoEmpty).2 = .nil ∧
    (RegisterCandidate exCandidateTxE2 (RegisterCandidate exCandidateTx exTwoEmpty).1).2
      = .nil ∧
    exCandidateTxE2.CandidateID = exCandidateTx.CandidateID ∧
    RegisterCandidate exCandidateTx exS4 = (exS4, .err (.candidateExists "c1" "e1")) ∧
    RegisterCandidate exCandidateTx exS2 = (exS2, .err (.electionMissing "e1")) :=
  ⟨((C14_registerCandidate exCandidateTx exTwoEmpty).2.2.1 _ rfl (by decide)).1,
    (C14_registerCandidate exCandidateTx exTwoEmpty).2.2.2 exCandidateTxE2 _ (by decide) rfl
      (by decide),
    rfl,
    (C14_registerCandidate exCandidateTx exS4).2.1 _ _ rfl rfl,
    (C14_registerCandidate exCandidateTx exS2).1 (by decide)⟩

/-! ## Election status along a run -/

/-- The status after the loop body of `UpdateElectionStatuses`: Active inside the window, Ended
from the end on, and the stored status otherwise. -/
theorem updateStatus_status {PK : Type} (now : Int) (e : Election PK) :
    (updateStatus now e).Status =
      if e.StartTime ≤ now ∧ now < e.EndTime then .Active
      else if e.EndTime ≤ now then .Ended
      else e.Status := by
  unfold updateStatus
  by_cases h1 : e.StartTime ≤ now ∧ now < e.EndTime
  · by_cases h2 : e.Status = .Active
    · have h3 : ¬ now ≥ e.EndTime := by omega
      simp [h1, h2, h3]
    · simp [h1, h2]
  · by_cases h3 : e.EndTime ≤ now
    · have h4 : ¬ (now ≥ e.StartTime ∧ now < e.EndTime ∧ e.Status ≠ .Active) := by
        rintro ⟨a, b, _⟩
        exact h1 ⟨a, b⟩
      by_cases h5 : e.Status = .Ended
      · simp [h1, h3, h4, h5]
      · simp [h1, h3, h4, h5]
    · have h4 : ¬ (now ≥ e.StartTime ∧ now < e.EndTime ∧ e.Status ≠ .Active) := by
        rintro ⟨a, b, _⟩
        exact h1 ⟨a, b⟩
      simp [h1, h3, h4]

theorem electionKept_refl {PK : Type} (now : Int) (e : Election PK) : ElectionKept now e e :=
  ⟨rfl, rfl, rfl, rfl, rfl, rfl, rfl, Or.inl rfl⟩

theorem electionKept_updateStatus {PK : Type} (now : Int) (e : Election PK) :
    ElectionKept now e (updateStatus now e) := by
  obtain ⟨h1, h2, h3, h4, h5, h6, h7, _, _⟩ := updateStatus_fields now e
  exact ⟨h1, h2, h3, h4, h5, h6, h7, Or.inr rfl⟩

/-- A call that leaves the elections map as it is. -/
theorem electionsStep_refl {PK : Type} (now : Int) (m : GoMap (Election PK)) :
    ElectionsStep now m m := by
  intro eid
  cases h : GoMap.get m eid with
  | none => exact Or.inl ⟨rfl, rfl⟩
  | some e => exact Or.inr (Or.inl ⟨e, e, rfl, rfl, electionKept_refl now e⟩)

/-- A call that rewrites one stored election record, keeping its identity fields. -/
theorem electionsStep_set {PK : Type} (now : Int) (m : GoMap (Election PK)) (k : String)
    (e0 e1 : Election PK) (h0 : GoMap.get m k = some e0) (hk : ElectionKept now e0 e1) :
    ElectionsStep now m (GoMap.set m k e1) := by
  intro eid
  rw [GoMap.get_set]
  by_cases he : eid = k
  · subst he
    exact Or.inr (Or.inl ⟨e0, e1, h0, by simp, hk⟩)
  · simp only [he, if_false]
    exact electionsStep_refl now m eid

/-- The status left by `CreateElection` is the status derived from the clock. -/
theorem createStatus_eq_derived {PK : Type} (now : Int) (e : Election PK)
    (h : e.Status = .Pending) :
    createStatus now e = derivedStatus now { e with Status := createStatus now e } := by
  simp only [createStatus, derivedStatus, ge_iff_le, h]

theorem electionsStep_RegisterVoter {PK : Type} (now : Int) (tx : VoterRegistrationTx PK)
    (vs : VotingState PK) : ElectionsStep now vs.elections (RegisterVoter tx vs).1.elections := by
  unfold RegisterVoter
  split <;> exact electionsStep_refl now _

theorem electionsStep_ApproveVoter {PK : Type} (now : Int) (voterID : String) (adminKey : PK)
    (vs : VotingState PK) :
    ElectionsStep now vs.elections (ApproveVoter voterID adminKey vs).1.elections := by
  unfold ApproveVoter
  split <;> exact electionsStep_refl now _

theorem electionsStep_RejectVoter {PK : Type} (now : Int) (voterID : String) (adminKey : PK)
    (vs : VotingState PK) :
    ElectionsStep now vs.elections (RejectVoter voterID adminKey vs).1.elections := by
  unfold RejectVoter
  split <;> exact electionsStep_refl now _

theorem electionsStep_CreateElection {PK : Type} (now : Int) (tx : ElectionCreationTx PK)
    (vs : VotingState PK) :
    ElectionsStep now vs.elections (CreateElection now tx vs).1.elections := by
  unfold CreateElection
  cases hg : GoMap.get vs.elections tx.ElectionID with
  | some e => exact electionsStep_refl now _
  | none =>
    intro eid
    simp only
    rw [GoMap.get_set]
    by_cases he : eid = tx.ElectionID
    · subst he
      refine Or.inr (Or.inr ⟨hg, _, if_pos rfl, ?_⟩)
      exact createStatus_eq_derived now _ rfl
    · simp only [he, if_false]
      exact electionsStep_refl now _ eid

theorem electionsStep_RegisterCandidate {PK : Type} (now : Int)
    (tx : CandidateRegistrationTx PK) (vs : VotingState PK) :
    ElectionsStep now vs.elections (RegisterCandidate tx vs).1.elections := by
  unfold RegisterCandidate
  cases hg : GoMap.get vs.elections tx.ElectionID with
  | none => exact electionsStep_refl now _
  | some e =>
    dsimp only
    cases hc : GoMap.get e.Candidates tx.CandidateID with
    | some c => exact electionsStep_refl now _
    | none =>
      exact electionsStep_set now _ _ e _ hg ⟨rfl, rfl, rfl, rfl, rfl, rfl, rfl, Or.inl rfl⟩

theorem electionsStep_ApproveCandidate {PK : Type} (keyStr : PK → String) (now : Int)
    (eid cid : String) (adminKey : PK) (vs : VotingState PK) :
    ElectionsStep now vs.elections (ApproveCandidate keyStr eid cid adminKey vs).1.elections := by
  unfold ApproveCandidate
  cases hg : GoMap.get vs.elections eid with
  | none => exact electionsStep_refl now _
  | some e =>
    dsimp only
    by_cases hk : keyStr e.AdminKey ≠ keyStr adminKey
    · rw [if_pos hk]
      exact electionsStep_refl now _
    · rw [if_neg hk]
      cases hc : GoMap.get e.Candidates cid with
      | none => exact electionsStep_refl now _
      | some c =>
        exact electionsStep_set now _ _ e _ hg ⟨rfl, rfl, rfl, rfl, rfl, rfl, rfl, Or.inl rfl⟩

theorem electionsStep_RejectCandidate {PK : Type} (keyStr : PK → String) (now : Int)
    (eid cid : String) (adminKey : PK) (vs : VotingState PK) :
    ElectionsStep now vs.elections (RejectCandidate keyStr eid cid adminKey vs).1.elections := by
  unfold RejectCandidate
  cases hg : GoMap.get vs.elections eid with
  | none => exact electionsStep_refl now _
  | some e =>
    dsimp only
    by_cases hk : keyStr e.AdminKey ≠ keyStr adminKey
    · rw [if_pos hk]
      exact electionsStep_refl now _
    · rw [if_neg hk]
      cases hc : GoMap.get e.Candidates cid with
      | none => exact electionsStep_refl now _
      | some c =>
        exact electionsStep_set now _ _ e _ hg ⟨rfl, rfl, rfl, rfl, rfl, rfl, rfl, Or.inl rfl⟩

theorem electionsStep_CastVote {PK : Type} (keyStr : PK → String) (now : Int)
    (scan : List (String × Voter PK)) (tx : VoteTx PK) {vs : VotingState PK} (h : Inv vs) :
    ElectionsStep now vs.elections (CastVote keyStr now scan tx vs).1.elections := by
  by_cases hr : (CastVote keyStr now scan tx vs).2 = .nil
  · obtain ⟨e, _, _, _, hg, _, _, _, _, _, _, _, _, _, hs⟩ :=
      castVote_success keyStr now scan tx vs hr
    rw [hs]
    exact electionsStep_set now _ _ e _ hg ⟨rfl, rfl, rfl, rfl, rfl, rfl, rfl, Or.inl rfl⟩
  · rw [castVote_failure_state keyStr now scan tx vs (h.votedSome tx.ElectionID) hr]
    exact electionsStep_refl now _

theorem electionsStep_UpdateElectionStatuses {PK : Type} (now : Int) (vs : VotingState PK) :
    ElectionsStep now vs.elections (UpdateElectionStatuses now vs).elections := by
  intro eid
  simp only [UpdateElectionStatuses, GoMap.get_mapValues]
  cases hg : GoMap.get vs.elections eid with
  | none => exact Or.inl ⟨rfl, rfl⟩
  | some e =>
    exact Or.inr (Or.inl ⟨e, updateStatus now e, rfl, rfl, electionKept_updateStatus now e⟩)

/-- Every call relates the elections maps before and after it by `ElectionsStep`. -/
theorem electionsStep_of_step {PK : Type} (keyStr : PK → String) (now : Int)
    {vs vs' : VotingState PK} (h : Inv vs) (hs : Step keyStr now vs vs') :
    ElectionsStep now vs.elections vs'.elections := by
  cases hs with
  | registerVoter tx _ => exact electionsStep_RegisterVoter now tx vs
  | approveVoter voterID adminKey => exact electionsStep_ApproveVoter now voterID adminKey vs
  | rejectVoter voterID adminKey => exact electionsStep_RejectVoter now voterID adminKey vs
  | createElection tx => exact electionsStep_CreateElection now tx vs
  | registerCandidate tx => exact electionsStep_RegisterCandidate now tx vs
  | approveCandidate eid cid adminKey =>
    exact electionsStep_ApproveCandidate keyStr now eid cid adminKey vs
  | rejectCandidate eid cid adminKey =>
    exact electionsStep_RejectCandidate keyStr now eid cid adminKey vs
  | castVote scan tx _ => exact electionsStep_CastVote keyStr now scan tx h
  | updateElectionStatuses => exact electionsStep_UpdateElectionStatuses now vs

/-- A call in a reachable state leads to a reachable state. -/
theorem reachable_step {PK : Type} (keyStr : PK → String) (now : Int)
    {vs vs' : VotingState PK} (h : Reachable keyStr vs) (hs : Step keyStr now vs vs') :
    Reachable keyStr vs' := by
  cases hs with
  | registerVoter tx hlen => exact Reachable.registerVoter tx h hlen
  | approveVoter voterID adminKey => exact Reachable.approveVoter voterID adminKey h
  | rejectVoter voterID adminKey => exact Reachable.rejectVoter voterID adminKey h
  | createElection tx => exact Reachable.createElection now tx h
  | registerCandidate tx => exact Reachable.registerCandidate tx h
  | approveCandidate eid cid adminKey => exact Reachable.approveCandidate eid cid adminKey h
  | rejectCandidate eid cid adminKey => exact Reachable.rejectCandidate eid cid adminKey h
  | castVote scan tx hp => exact Reachable.castVote now scan tx h hp
  | updateElectionStatuses => exact Reachable.updateElectionStatuses now h

/-- A run from a reachable state leads to a reachable state. -/
theorem reachable_run {PK : Type} (keyStr : PK → String) {t t' : Int}
    {vs vs' : VotingState PK} (h : Reachable keyStr vs) (hr : RunFrom keyStr t vs t' vs') :
    Reachable keyStr vs' := by
  induction hr with
  | refl => exact h
  | step _ _ hs ih => exact reachable_step keyStr _ ih hs

/-- The clock of a run does not go back. -/
theorem run_clock_le {PK : Type} (keyStr : PK → String) {t t' : Int}
    {vs vs' : VotingState PK} (hr : RunFrom keyStr t vs t' vs') : t ≤ t' := by
  induction hr with
  | refl => exact le_refl _
  | step _ hle _ ih => exact le_trans ih hle

theorem statusBehind_init {PK : Type} (t : Int) :
    StatusBehind t (NewVotingState : VotingState PK) := by
  intro eid e he
  simp [NewVotingState, GoMap.get] at he

/-- One call at a clock reading not before `t` keeps the stored statuses behind the clock. -/
theorem statusBehind_step {PK : Type} {t now : Int} {vs vs' : VotingState PK}
    (hb : StatusBehind t vs) (hle : t ≤ now)
    (hs : ElectionsStep now vs.elections vs'.elections) : StatusBehind now vs' := by
  intro eid e' he'
  rcases hs eid with ⟨_, h2⟩ | ⟨e, e'', h1, h2, hk⟩ | ⟨_, e'', h2, hst⟩
  · rw [h2] at he'
    cases he'
  · rw [h2] at he'
    cases he'
    obtain ⟨_, _, _, hS, hE, _, _, hstat⟩ := hk
    obtain ⟨hbA, hbE⟩ := hb eid e h1
    rw [hS, hE]
    rcases hstat with hstat | hstat
    · rw [hstat]
      exact ⟨fun h => le_trans (hbA h) hle, fun h => le_trans (hbE h) hle⟩
    · rw [hstat, updateStatus_status]
      by_cases c1 : e.StartTime ≤ now ∧ now < e.EndTime
      · simp [c1]
      · by_cases c2 : e.EndTime ≤ now
        · simp [c1, c2]
        · rw [if_neg c1, if_neg c2]
          exact ⟨fun h => le_trans (hbA h) hle, fun h => le_trans (hbE h) hle⟩
  · rw [h2] at he'
    cases he'
    rw [hst]
    unfold derivedStatus
    by_cases c1 : e'.StartTime ≤ now ∧ now < e'.EndTime
    · simp [c1]
    · by_cases c2 : e'.EndTime ≤ now
      · simp [c1, c2]
      · simp [c1, c2]

/-- Along a run from a reachable state whose statuses are behind the clock: the statuses stay
behind the clock, every election stays, an Ended election stays Ended, and an election that is
not Pending does not become Pending. -/
theorem run_status {PK : Type} (keyStr : PK → String) {t t' : Int} {vs vs' : VotingState PK}
    (hr : Reachable keyStr vs) (hb : StatusBehind t vs) (h : RunFrom keyStr t vs t' vs') :
    StatusBehind t' vs' ∧
    ∀ eid e, GoMap.get vs.elections eid = some e →
      ∃ e', GoMap.get vs'.elections eid = some e' ∧
        (e.Status = .Ended → e'.Status = .Ended) ∧
        (e.Status ≠ .Pending → e'.Status ≠ .Pending) := by
  induction h with
  | refl => exact ⟨hb, fun eid e he => ⟨e, he, id, id⟩⟩
  | @step t1 now vs1 vs2 hrun hle hs ih =>
    obtain ⟨hb1, hkeep⟩ := ih
    have hinv1 := inv_of_reachable keyStr (reachable_run keyStr hr hrun)
    have hES := electionsStep_of_step keyStr now hinv1 hs
    refine ⟨statusBehind_step hb1 hle hES, ?_⟩
    intro eid e he
    obtain ⟨e1, he1, hEnd, hNotP⟩ := hkeep eid e he
    rcases hES eid with ⟨h1, _⟩ | ⟨e1', e2, h1, h2, hk⟩ | ⟨h1, _⟩
    · rw [h1] at he1
      cases he1
    · rw [h1] at he1
      cases he1
      obtain ⟨_, hbE⟩ := hb1 eid e1 h1
      obtain ⟨_, _, _, _, _, _, _, hstat⟩ := hk
      refine ⟨e2, h2, ?_, ?_⟩
      · intro hE
        have hE1 := hEnd hE
        rcases hstat with hstat | hstat
        · rw [hstat]
          exact hE1
        · have hle2 : e1.EndTime ≤ now := le_trans (hbE hE1) hle
          have c1 : ¬ (e1.StartTime ≤ now ∧ now < e1.EndTime) := by
            rintro ⟨_, c⟩
            omega
          rw [hstat, updateStatus_status]
          simp [c1, hle2]
      · intro hP
        have hP1 := hNotP hP
        rcases hstat with hstat | hstat
        · rw [hstat]
          exact hP1
        · rw [hstat, updateStatus_status]
          by_cases c1 : e1.StartTime ≤ now ∧ now < e1.EndTime
          · simp [c1]
          · by_cases c2 : e1.EndTime ≤ now
            · simp [c1, c2]
            · rw [if_neg c1, if_neg c2]
              exact hP1
    · rw [h1] at he1
      cases he1

/-- C15: election status never regresses once Ended.  Along any sequence of engine calls at
non-decreasing clock readings from `NewVotingState`, an election that is Ended in some state
is Ended after every later call, and an election that is Active is not Pending after any later
call. -/
theorem C15_status_never_regresses {PK : Type} (keyStr : PK → String) (t0 t t' : Int)
    (vs vs' : VotingState PK) (h1 : RunFrom keyStr t0 NewVotingState t vs)
    (h2 : RunFrom keyStr t vs t' vs') (electionID : String) (election : Election PK)
    (he : GoMap.get vs.elections electionID = some election) :
    ∃ election', GoMap.get vs'.elections electionID = some election' ∧
      (election.Status = .Ended → election'.Status = .Ended) ∧
      (election.Status = .Active → election'.Status ≠ .Pending) := by
  have hr : Reachable keyStr vs := reachable_run keyStr Reachable.init h1
  have hb : StatusBehind t vs := (run_status keyStr Reachable.init (statusBehind_init t0) h1).1
  obtain ⟨e', he', hE, hP⟩ := (run_status keyStr hr hb h2).2 electionID election he
  refine ⟨e', he', hE, ?_⟩
  intro hA
  apply hP
  rw [hA]
  decide

/-- The run that creates election `e1` at time 100. -/
theorem exCreatedEnded_run :
    RunFrom (id : String → String) 100 NewVotingState 100 exCreatedEnded :=
  RunFrom.step RunFrom.refl (le_refl _) (Step.createElection _ exElectionTx)

/-- C15 at the example state `exCreatedEnded`, followed by a status update at time 150 and the
registration of a voter at time 160. -/
theorem C15_status_never_regresses_witness :
    ∃ election',
      GoMap.get (RegisterVoter exVoterTx
        (UpdateElectionStatuses 150 exCreatedEnded)).1.elections "e1" = some election' ∧
      (ElectionStatus.Ended = .Ended → election'.Status = .Ended) ∧
      (ElectionStatus.Ended = .Active → election'.Status ≠ .Pending) :=
  C15_status_never_regresses id 100 100 160 exCreatedEnded
    (RegisterVoter exVoterTx (UpdateElectionStatuses 150 exCreatedEnded)).1
    exCreatedEnded_run
    (RunFrom.step
      (RunFrom.step RunFrom.refl (by decide : (100 : Int) ≤ 150)
        (Step.updateElectionStatuses _))
      (by decide : (150 : Int) ≤ 160)
      (Step.registerVoter _ exVoterTx (by simp [UpdateElectionStatuses, exCreatedEnded,
        CreateElection, NewVotingState, GoMap.get, maxMapLen])))
    "e1"
    { ID := "e1", Title := "Board", Description := "", StartTime := 0, EndTime := 100,
      AdminKey := "adm", Status := .Ended, Timestamp := 2, Candidates := [], VoteCounts := [] }
    (by decide)

/-- With the stored status behind the clock, the loop body of `UpdateElectionStatuses` stores
the status derived from the clock and changes nothing else. -/
theorem updateStatus_eq_derived {PK : Type} {t now : Int} (e : Election PK) (hle : t ≤ now)
    (hA : e.Status = .Active → e.StartTime ≤ t) (hE : e.Status = .Ended → e.EndTime ≤ t) :
    updateStatus now e = { e with Status := derivedStatus now e } := by
  have hf := updateStatus_fields now e
  have hs := updateStatus_status now e
  have hst : (updateStatus now e).Status = derivedStatus now e := by
    rw [hs]
    unfold derivedStatus
    by_cases c1 : e.StartTime ≤ now ∧ now < e.EndTime
    · simp [c1]
    · by_cases c2 : e.EndTime ≤ now
      · simp [c1, c2]
      · rw [if_neg c1, if_neg c2, if_neg c1, if_neg c2]
        cases hstat : e.Status with
        | Pending => rfl
        | Active =>
          have := hA hstat
          exact absurd ⟨by omega, by omega⟩ c1
        | Ended =>
          have := hE hstat
          exact absurd (by omega) c2
  obtain ⟨h1, h2, h3, h4, h5, h6, h7, h8, h9⟩ := hf
  cases hu : updateStatus now e with
  | mk ID Title Description StartTime EndTime AdminKey Status Timestamp Candidates VoteCounts =>
    rw [hu] at h1 h2 h3 h4 h5 h6 h7 h8 h9 hst
    simp only at h1 h2 h3 h4 h5 h6 h7 h8 h9 hst
    subst h1 h2 h3 h4 h5 h6 h7 h8 h9 hst
    rfl

/-- C16: `UpdateElectionStatuses` recomputes every election's status from the current time.
In every state reached from `NewVotingState` by calls at non-decreasing clock readings, after a
call at a clock reading `now` not before the last one, every election's status is the status
derived from `now` (Active if `StartTime ≤ now < EndTime`, Ended if `now ≥ EndTime`, Pending
if `now` is before both), whatever recomputations were missed before; every election record is
the record before the call with that status, and the voters and the hasVoted maps are
unchanged. -/
theorem C16_update_recomputes {PK : Type} (keyStr : PK → String) (t0 t now : Int)
    (vs : VotingState PK) (h : RunFrom keyStr t0 NewVotingState t vs) (hnow : t ≤ now) :
    (∀ eid e', GoMap.get (UpdateElectionStatuses now vs).elections eid = some e' →
      e'.Status = derivedStatus now e') ∧
    (∀ eid, GoMap.get (UpdateElectionStatuses now vs).elections eid =
      (GoMap.get vs.elections eid).map (fun e => { e with Status := derivedStatus now e })) ∧
    (UpdateElectionStatuses now vs).voters = vs.voters ∧
    (UpdateElectionStatuses now vs).hasVoted = vs.hasVoted := by
  have hb : StatusBehind t vs := (run_status keyStr Reachable.init (statusBehind_init t0) h).1
  have hall : ∀ eid, GoMap.get (UpdateElectionStatuses now vs).elections eid =
      (GoMap.get vs.elections eid).map (fun e => { e with Status := derivedStatus now e }) := by
    intro eid
    simp only [UpdateElectionStatuses, GoMap.get_mapValues]
    cases hg : GoMap.get vs.elections eid with
    | none => rfl
    | some e =>
      obtain ⟨hA, hE⟩ := hb eid e hg
      simp only [Option.map_some']
      rw [updateStatus_eq_derived e hnow hA hE]
  refine ⟨?_, hall, rfl, rfl⟩
  intro eid e' he'
  rw [hall] at he'
  cases hg : GoMap.get vs.elections eid with
  | none => simp [hg] at he'
  | some e =>
    simp only [hg, Option.map_some', Option.some.injEq] at he'
    rw [← he']
    rfl

/-- The run that creates election `e4` at time 5. -/
theorem exCreatedPending_run :
    RunFrom (id : String → String) 5 NewVotingState 5 exCreatedPending :=
  RunFrom.step RunFrom.refl (le_refl _) (Step.createElection _ exElectionTxLater)

/-- C16 at the example state `exCreatedPending`: election `e4`, open over `[50, 100)` and
Pending since time 5, with no update until time 120. -/
theorem C16_update_recomputes_witness :
    (∀ eid e', GoMap.get (UpdateElectionStatuses 120 exCreatedPending).elections eid = some e' →
      e'.Status = derivedStatus 120 e') ∧
    (∀ eid, GoMap.get (UpdateElectionStatuses 120 exCreatedPending).elections eid =
      (GoMap.get exCreatedPending.elections eid).map
        (fun e => { e with Status := derivedStatus 120 e })) ∧
    (UpdateElectionStatuses 120 exCreatedPending).voters = exCreatedPending.voters ∧
    (UpdateElectionStatuses 120 exCreatedPending).hasVoted = exCreatedPending.hasVoted :=
  C16_update_recomputes id 5 5 120 exCreatedPending exCreatedPending_run (by decide)

/-! ## The transaction envelope -/

/-- What `Hash` returns, and the envelope it leaves. -/
theorem hash_cases {PK SK Sig H Payload : Type} (X : Extern PK SK Sig H)
    (hasher : Transaction PK Sig H Payload → H) (tx : Transaction PK Sig H Payload) :
    (X.IsZero tx.hash = true ∧
      Transaction.Hash X hasher tx = ({ tx with hash := hasher tx }, hasher tx)) ∨
    (X.IsZero tx.hash = false ∧ Transaction.Hash X hasher tx = (tx, tx.hash)) := by
  unfold Transaction.Hash
  cases h : X.IsZero tx.hash <;> simp

/-- `Hash` returns the hash it leaves in the cache, and writes no other field. -/
theorem hash_result {PK SK Sig H Payload : Type} (X : Extern PK SK Sig H)
    (hasher : Transaction PK Sig H Payload → H) (tx : Transaction PK Sig H Payload) :
    (Transaction.Hash X hasher tx).1.hash = (Transaction.Hash X hasher tx).2 ∧
    SameButCache tx (Transaction.Hash X hasher tx).1 := by
  rcases hash_cases X hasher tx with ⟨_, h⟩ | ⟨_, h⟩ <;> rw [h] <;>
    exact ⟨rfl, rfl, rfl, rfl, rfl, rfl, rfl, rfl⟩

/-- A hash that is not zero stays in the cache: on any envelope that carries it, `Hash` with
any hasher returns it and leaves the envelope as it is. -/
theorem hash_cached {PK SK Sig H Payload : Type} (X : Extern PK SK Sig H)
    (hasher : Transaction PK Sig H Payload → H) (tx : Transaction PK Sig H Payload)
    (h : X.IsZero tx.hash = false) : Transaction.Hash X hasher tx = (tx, tx.hash) := by
  unfold Transaction.Hash
  simp [h]

/-- C19: `Verify` returns an error if and only if the envelope has no signature or the
signature does not validate against the recorded signer key `From` and the envelope hash: the
no-signature error in the first case (the envelope untouched), the invalid-signature error in
the second.  It changes no envelope field other than the hash cache, which it leaves as it is
or, when it was zero, fills with the computed hash. -/
theorem C19_verify_errors {PK SK Sig H Payload : Type} (X : Extern PK SK Sig H)
    (txHasher : SignedFields PK Payload → H) (tx : Transaction PK Sig H Payload) :
    ((Transaction.Verify X txHasher tx).2 ≠ none ↔
      tx.Signature = none ∨
      ∃ sig, tx.Signature = some sig ∧
        X.Verify sig tx.From (X.ToSlice (envelopeHash X txHasher tx)) = false) ∧
    (tx.Signature = none → Transaction.Verify X txHasher tx = (tx, some .noSignature)) ∧
    (∀ sig, tx.Signature = some sig →
      X.Verify sig tx.From (X.ToSlice (envelopeHash X txHasher tx)) = false →
      (Transaction.Verify X txHasher tx).2 = some .invalidSignature) ∧
    SameButCache tx (Transaction.Verify X txHasher tx).1 ∧
    ((Transaction.Verify X txHasher tx).1.hash = tx.hash ∨
      (X.IsZero tx.hash = true ∧
        (Transaction.Verify X txHasher tx).1.hash = txHasher tx.signedFields)) := by
  cases hs : tx.Signature with
  | none =>
    have hv : Transaction.Verify X txHasher tx = (tx, some .noSignature) := by
      simp [Transaction.Verify, hs]
    rw [hv]
    exact ⟨by simp, fun _ => rfl, by simp, ⟨rfl, rfl, rfl, rfl, rfl, rfl, rfl⟩, Or.inl rfl⟩
  | some sig =>
    have hfrom : (Transaction.Hash X (hasherOf txHasher) tx).1.From = tx.From :=
      (hash_result X (hasherOf txHasher) tx).2.2.2.2.2.1
    have hsame := (hash_result X (hasherOf txHasher) tx).2
    have hcache : (Transaction.Hash X (hasherOf txHasher) tx).1.hash = tx.hash ∨
        (X.IsZero tx.hash = true ∧
          (Transaction.Hash X (hasherOf txHasher) tx).1.hash = txHasher tx.signedFields) := by
      rcases hash_cases X (hasherOf txHasher) tx with ⟨hz, h⟩ | ⟨_, h⟩
      · rw [h]
        exact Or.inr ⟨hz, rfl⟩
      · rw [h]
        exact Or.inl rfl
    cases hver : X.Verify sig tx.From (X.ToSlice (envelopeHash X txHasher tx)) with
    | false =>
      have hv : Transaction.Verify X txHasher tx =
          ((Transaction.Hash X (hasherOf txHasher) tx).1, some .invalidSignature) := by
        simp only [envelopeHash] at hver
        simp [Transaction.Verify, hs, hfrom, hver]
      rw [hv]
      exact ⟨by simp [hver], by simp, by simp [hver], hsame, hcache⟩
    | true =>
      have hv : Transaction.Verify X txHasher tx =
          ((Transaction.Hash X (hasherOf txHasher) tx).1, none) := by
        simp only [envelopeHash] at hver
        simp [Transaction.Verify, hs, hfrom, hver]
      rw [hv]
      exact ⟨by simp [hver], by simp, by simp [hver], hsame, hcache⟩

/-- C19 at the example envelopes: the unsigned `exTx`, the signed `exSigned`, and the altered
copy `exTamperedFresh` without cached hash. -/
theorem C19_verify_errors_witness :
    Transaction.Verify exExtern exTxHasher exTx = (exTx, some .noSignature) ∧
    (Transaction.Verify exExtern exTxHasher exTamperedFresh).2 = some .invalidSignature ∧
    (Transaction.Verify exExtern exTxHasher exSigned).2 = none :=
  ⟨(C19_verify_errors exExtern exTxHasher exTx).2.1 rfl,
    (C19_verify_errors exExtern exTxHasher exTamperedFresh).2.2.1 ("alice", [6, 0, 3]) rfl
      (by decide),
    not_not.1 fun h => by
      rcases (C19_verify_errors exExtern exTxHasher exSigned).1.1 h with h1 | ⟨sig, h1, h2⟩
      · exact absurd h1 (by decide)
      · have h3 : sig = ("alice", [6, 0, 3]) := by
          have h4 : exSigned.Signature = some ("alice", [6, 0, 3]) := by decide
          rw [h4] at h1
          cases h1
          rfl
        subst h3
        exact absurd h2 (by decide)⟩

/-- C18: for every envelope and every private key whose signing operation succeeds, with a
correct signature scheme, `Sign` returns no error, records `From` = the public key of the
private key and `Signature` = the signature over the envelope hash, writes none of the signed
fields, and a subsequent `Verify` on the unmodified envelope succeeds.  `Sign` returns an error
only when the signing operation of the key fails: it passes that error on and leaves `From`
and `Signature` unchanged. -/
theorem C18_sign_then_verify {PK SK Sig H Payload : Type} (X : Extern PK SK Sig H)
    (txHasher : SignedFields PK Payload → H) (hcorrect : SchemeCorrect X) (privKey : SK)
    (tx : Transaction PK Sig H Payload) :
    (∀ sig, X.Sign privKey (X.ToSlice (envelopeHash X txHasher tx)) = .ok sig →
      (Transaction.Sign X txHasher privKey tx).2 = none ∧
      (Transaction.Sign X txHasher privKey tx).1.From = X.PublicKey privKey ∧
      (Transaction.Sign X txHasher privKey tx).1.Signature = some sig ∧
      (Transaction.Sign X txHasher privKey tx).1.signedFields = tx.signedFields ∧
      (Transaction.Verify X txHasher (Transaction.Sign X txHasher privKey tx).1).2 = none) ∧
    (∀ err, X.Sign privKey (X.ToSlice (envelopeHash X txHasher tx)) = .error err →
      (Transaction.Sign X txHasher privKey tx).2 = some (.keyError err) ∧
      SameButCache tx (Transaction.Sign X txHasher privKey tx).1) ∧
    ((Transaction.Sign X txHasher privKey tx).2 ≠ none ↔
      ∃ err, X.Sign privKey (X.ToSlice (envelopeHash X txHasher tx)) = .error err) := by
  have hfields : ∀ (a b : Transaction PK Sig H Payload), SameButCache a b →
      b.signedFields = a.signedFields := by
    intro a b h
    obtain ⟨h1, h2, h3, h4, _, _, h7⟩ := h
    simp [Transaction.signedFields, h1, h2, h3, h4, h7]
  have hres := hash_result X (hasherOf txHasher) tx
  cases hsign : X.Sign privKey (X.ToSlice (envelopeHash X txHasher tx)) with
  | error err =>
    have hs : Transaction.Sign X txHasher privKey tx =
        ((Transaction.Hash X (hasherOf txHasher) tx).1, some (.keyError err)) := by
      simp only [envelopeHash] at hsign
      simp [Transaction.Sign, hsign]
    rw [hs]
    exact ⟨by simp, fun e he => by cases he; exact ⟨rfl, hres.2⟩, by simp⟩
  | ok sig =>
    have hs : Transaction.Sign X txHasher privKey tx =
        ({ (Transaction.Hash X (hasherOf txHasher) tx).1 with
            From := X.PublicKey privKey, Signature := some sig }, none) := by
      simp only [envelopeHash] at hsign
      simp [Transaction.Sign, hsign]
    rw [hs]
    refine ⟨?_, by simp, by simp⟩
    intro sig' hsig'
    cases hsig'
    refine ⟨rfl, rfl, rfl, hfields tx (Transaction.Hash X (hasherOf txHasher) tx).1 hres.2, ?_⟩
    -- the hash that `Verify` gets is the hash that was signed
    have hsame : (Transaction.Hash X (hasherOf txHasher)
        { (Transaction.Hash X (hasherOf txHasher) tx).1 with
            From := X.PublicKey privKey, Signature := some sig }).2 =
        envelopeHash X txHasher tx := by
      simp only [envelopeHash]
      rcases hash_cases X (hasherOf txHasher) tx with ⟨hz, h⟩ | ⟨hz, h⟩
      · rw [h]
        simp only [Transaction.Hash, hasherOf, Transaction.signedFields]
        split <;> rfl
      · rw [h]
        simp [Transaction.Hash, hz]
    have hfrom : (Transaction.Hash X (hasherOf txHasher)
        { (Transaction.Hash X (hasherOf txHasher) tx).1 with
            From := X.PublicKey privKey, Signature := some sig }).1.From =
        X.PublicKey privKey :=
      (hash_result X (hasherOf txHasher) _).2.2.2.2.2.1
    have hv := hcorrect privKey _ sig hsign
    simp [Transaction.Verify, hsame, hfrom, hv]

/-- The toy signature scheme is correct. -/
theorem exExtern_correct : SchemeCorrect exExtern := by
  intro sk msg sig h
  simp only [exExtern] at h ⊢
  by_cases hk : sk = ""
  · simp [hk] at h
  · simp only [hk, if_false, Except.ok.injEq] at h
    subst h
    simp

/-- C18 at the example envelope `exTx`: signed by `alice`, and by the empty key, which cannot
sign. -/
theorem C18_sign_then_verify_witness :
    ((Transaction.Sign exExtern exTxHasher "alice" exTx).2 = none ∧
      exSigned.From = "alice" ∧ exSigned.Signature = some ("alice", [6, 0, 3]) ∧
      exSigned.signedFields = exTx.signedFields ∧
      (Transaction.Verify exExtern exTxHasher exSigned).2 = none) ∧
    ((Transaction.Sign exExtern exTxHasher "" exTx).2 = some (.keyError "empty key") ∧
      SameButCache exTx (Transaction.Sign exExtern exTxHasher "" exTx).1) :=
  ⟨(C18_sign_then_verify exExtern exTxHasher exExtern_correct "alice" exTx).1
      ("alice", [6, 0, 3]) rfl,
    (C18_sign_then_verify exExtern exTxHasher exExtern_correct "" exTx).2.1 "empty key"
      rfl⟩

/-- C20, as stated, fails: with the nonce hasher the first `Hash` of the envelope `exTxZero`
returns the zero hash, which is not kept as a cached hash; after the nonce is altered, the
second `Hash` returns other bytes. -/
theorem C20_counterexample :
    (Transaction.Hash exExtern exNonceHasher exTxZero).2 = [0, 0, 0] ∧
    exHashedZeroMutated = { exHashedZero with Nonce := 7 } ∧
    (Transaction.Hash exExtern exNonceHasher exHashedZeroMutated).2 = [0, 0, 7] := by
  decide

/-- C20, amended: the envelope hash is computed once and cached when it is not the zero hash.
For every envelope and every hasher, if the first `Hash` returns a hash that is not zero, then
on every envelope that carries the cache left by the first call, whatever its other fields
(unmutated or mutated), `Hash` with any hasher returns exactly the bytes of the first call and
leaves the envelope as it is.  On the unmutated envelope a second `Hash` with the same hasher
returns the bytes of the first call also when they are zero, if the hasher does not read the
cache. -/
theorem C20_hash_cached {PK SK Sig H Payload : Type} (X : Extern PK SK Sig H)
    (hasher hasher2 : Transaction PK Sig H Payload → H) (tx : Transaction PK Sig H Payload) :
    (X.IsZero (Transaction.Hash X hasher tx).2 = false →
      ∀ tx' : Transaction PK Sig H Payload, tx'.hash = (Transaction.Hash X hasher tx).1.hash →
        Transaction.Hash X hasher2 tx' = (tx', (Transaction.Hash X hasher tx).2)) ∧
    ((∀ (t : Transaction PK Sig H Payload) (h : H), hasher { t with hash := h } = hasher t) →
      (Transaction.Hash X hasher (Transaction.Hash X hasher tx).1).2 =
        (Transaction.Hash X hasher tx).2) := by
  have hres := (hash_result X hasher tx).1
  constructor
  · intro hz tx' hc
    rw [← hres] at hz ⊢
    rw [← hc] at hz ⊢
    exact hash_cached X hasher2 tx' hz
  · intro hind
    rcases hash_cases X hasher tx with ⟨hz, h⟩ | ⟨hz, h⟩
    · rw [h]
      simp only [Transaction.Hash]
      split
      · exact hind tx _
      · rfl
    · rw [h]
      simp [Transaction.Hash, hz]

/-- C20 (amended) at the example envelope `exTx`: its hash with the nonce hasher is not zero,
and is returned again after the nonce is altered, also with another hasher. -/
theorem C20_hash_cached_witness :
    Transaction.Hash exExtern (hasherOf exTxHasher) { exHashed with Nonce := 7 } =
      ({ exHashed with Nonce := 7 }, [0, 0, 5]) ∧
    (Transaction.Hash exExtern exNonceHasher exHashedZero).2 = [0, 0, 0] :=
  ⟨(C20_hash_cached exExtern exNonceHasher (hasherOf exTxHasher) exTx).1 (by decide)
      { exHashed with Nonce := 7 } rfl,
    (C20_hash_cached exExtern exNonceHasher exNonceHasher exTxZero).2 (fun _ _ => rfl)⟩

/-! ## Every method call is one of the writes of `Effect` -/

theorem effect_RegisterVoter {PK : Type} (now : Int) (tx : VoterRegistrationTx PK)
    (vs : VotingState PK) : Effect now vs (RegisterVoter tx vs).1 := by
  unfold RegisterVoter
  cases hg : GoMap.get vs.voters tx.VoterID with
  | some v => exact Effect.unchanged
  | none => exact Effect.voterAdded _ _ hg

theorem effect_ApproveVoter {PK : Type} (now : Int) (voterID : String) (adminKey : PK)
    (vs : VotingState PK) : Effect now vs (ApproveVoter voterID adminKey vs).1 := by
  unfold ApproveVoter
  cases hg : GoMap.get vs.voters voterID with
  | none => exact Effect.unchanged
  | some v => exact Effect.voterStatus _ v .Approved hg

theorem effect_RejectVoter {PK : Type} (now : Int) (voterID : String) (adminKey : PK)
    (vs : VotingState PK) : Effect now vs (RejectVoter voterID adminKey vs).1 := by
  unfold RejectVoter
  cases hg : GoMap.get vs.voters voterID with
  | none => exact Effect.unchanged
  | some v => exact Effect.voterStatus _ v .Rejected hg

theorem effect_CreateElection {PK : Type} (now : Int) (tx : ElectionCreationTx PK)
    (vs : VotingState PK) : Effect now vs (CreateElection now tx vs).1 := by
  unfold CreateElection
  cases hg : GoMap.get vs.elections tx.ElectionID with
  | some e => exact Effect.unchanged
  | none => exact Effect.electionAdded _ _ hg rfl rfl

theorem effect_RegisterCandidate {PK : Type} (now : Int) (tx : CandidateRegistrationTx PK)
    (vs : VotingState PK) : Effect now vs (RegisterCandidate tx vs).1 := by
  unfold RegisterCandidate
  cases hg : GoMap.get vs.elections tx.ElectionID with
  | none => exact Effect.unchanged
  | some e =>
    dsimp only
    cases hc : GoMap.get e.Candidates tx.CandidateID with
    | some c => exact Effect.unchanged
    | none => exact Effect.candidateAdded _ _ e _ hg hc rfl rfl rfl

theorem effect_ApproveCandidate {PK : Type} (keyStr : PK → String) (now : Int)
    (eid cid : String) (adminKey : PK) (vs : VotingState PK) :
    Effect now vs (ApproveCandidate keyStr eid cid adminKey vs).1 := by
  unfold ApproveCandidate
  cases hg : GoMap.get vs.elections eid with
  | none => exact Effect.unchanged
  | some e =>
    dsimp only
    by_cases hk : keyStr e.AdminKey ≠ keyStr adminKey
    · rw [if_pos hk]
      exact Effect.unchanged
    · rw [if_neg hk]
      cases hc : GoMap.get e.Candidates cid with
      | none => exact Effect.unchanged
      | some c => exact Effect.candidateStatus _ _ e c .Approved hg hc

theorem effect_RejectCandidate {PK : Type} (keyStr : PK → String) (now : Int)
    (eid cid : String) (adminKey : PK) (vs : VotingState PK) :
    Effect now vs (RejectCandidate keyStr eid cid adminKey vs).1 := by
  unfold RejectCandidate
  cases hg : GoMap.get vs.elections eid with
  | none => exact Effect.unchanged
  | some e =>
    dsimp only
    by_cases hk : keyStr e.AdminKey ≠ keyStr adminKey
    · rw [if_pos hk]
      exact Effect.unchanged
    · rw [if_neg hk]
      cases hc : GoMap.get e.Candidates cid with
      | none => exact Effect.unchanged
      | some c => exact Effect.candidateStatus _ _ e c .Rejected hg hc

theorem effect_CastVote {PK : Type} (keyStr : PK → String) (now : Int)
    (scan : List (String × Voter PK)) (tx : VoteTx PK) (vs : VotingState PK) :
    Effect now vs (CastVote keyStr now scan tx vs).1 := by
  unfold CastVote
  cases he : GoMap.get vs.elections tx.ElectionID with
  | none => exact Effect.unchanged
  | some election =>
    dsimp only
    by_cases h1 : now < election.StartTime
    · rw [if_pos h1]
      exact Effect.unchanged
    rw [if_neg h1]
    by_cases h2 : now ≥ election.EndTime
    · rw [if_pos h2]
      exact Effect.unchanged
    rw [if_neg h2]
    by_cases h3 : findVoterID keyStr (keyStr tx.VoterPublicKey) scan = ""
    · rw [if_pos h3]
      exact Effect.unchanged
    rw [if_neg h3]
    cases hvt : GoMap.get vs.voters (findVoterID keyStr (keyStr tx.VoterPublicKey) scan) with
    | none => exact Effect.unchanged
    | some voter =>
      dsimp only
      by_cases h4 : voter.Status ≠ .Approved
      · rw [if_pos h4]
        exact Effect.unchanged
      rw [if_neg h4]
      cases hc : GoMap.get election.Candidates tx.CandidateID with
      | none => exact Effect.unchanged
      | some candidate =>
        dsimp only
        by_cases h5 : candidate.Status ≠ .Approved
        · rw [if_pos h5]
          exact Effect.unchanged
        rw [if_neg h5]
        by_cases h6 : GoMap.get ((GoMap.get vs.hasVoted tx.ElectionID).getD [])
            (findVoterID keyStr (keyStr tx.VoterPublicKey) scan) = some true
        · rw [if_pos h6]
          exact Effect.unchanged
        rw [if_neg h6]
        have hs : election.StartTime ≤ now := by omega
        have hn : now < election.EndTime := by omega
        cases hh : GoMap.get vs.hasVoted tx.ElectionID with
        | none => exact Effect.vote _ _ election candidate _ he hc hs hn (Or.inl rfl)
        | some voted =>
          exact Effect.vote _ _ election candidate _ he hc hs hn
            (Or.inr ⟨voted, _, voter, hh, hvt, rfl⟩)

/-- Every call of a run is one of the writes of `Effect`. -/
theorem effect_of_step {PK : Type} (keyStr : PK → String) (now : Int)
    {vs vs' : VotingState PK} (hs : Step keyStr now vs vs') : Effect now vs vs' := by
  cases hs with
  | registerVoter tx _ => exact effect_RegisterVoter now tx vs
  | approveVoter voterID adminKey => exact effect_ApproveVoter now voterID adminKey vs
  | rejectVoter voterID adminKey => exact effect_RejectVoter now voterID adminKey vs
  | createElection tx => exact effect_CreateElection now tx vs
  | registerCandidate tx => exact effect_RegisterCandidate now tx vs
  | approveCandidate eid cid adminKey =>
    exact effect_ApproveCandidate keyStr now eid cid adminKey vs
  | rejectCandidate eid cid adminKey =>
    exact effect_RejectCandidate keyStr now eid cid adminKey vs
  | castVote scan tx _ => exact effect_CastVote keyStr now scan tx vs
  | updateElectionStatuses => exact Effect.statuses

/-- A property of the fresh state that every write of `Effect` keeps holds in every reachable
state. -/
theorem reachable_effect_induction {PK : Type} (keyStr : PK → String)
    (P : VotingState PK → Prop) (h0 : P NewVotingState)
    (hstep : ∀ now vs vs', Reachable keyStr vs → P vs → Effect now vs vs' → P vs')
    {vs : VotingState PK} (h : Reachable keyStr vs) : P vs := by
  induction h with
  | init => exact h0
  | registerVoter tx hr _ ih => exact hstep 0 _ _ hr ih (effect_RegisterVoter 0 tx _)
  | approveVoter voterID adminKey hr ih =>
    exact hstep 0 _ _ hr ih (effect_ApproveVoter 0 voterID adminKey _)
  | rejectVoter voterID adminKey hr ih =>
    exact hstep 0 _ _ hr ih (effect_RejectVoter 0 voterID adminKey _)
  | createElection now tx hr ih => exact hstep now _ _ hr ih (effect_CreateElection now tx _)
  | registerCandidate tx hr ih => exact hstep 0 _ _ hr ih (effect_RegisterCandidate 0 tx _)
  | approveCandidate eid cid adminKey hr ih =>
    exact hstep 0 _ _ hr ih (effect_ApproveCandidate keyStr 0 eid cid adminKey _)
  | rejectCandidate eid cid adminKey hr ih =>
    exact hstep 0 _ _ hr ih (effect_RejectCandidate keyStr 0 eid cid adminKey _)
  | castVote now scan tx hr _ ih =>
    exact hstep now _ _ hr ih (effect_CastVote keyStr now scan tx _)
  | updateElectionStatuses now hr ih => exact hstep now _ _ hr ih Effect.statuses

/-! ## Entities are kept -/

/-- A map write keeps every entry, up to a relation `R` that holds between the value
overwritten and the value written. -/
theorem set_keeps {V : Type} (R : V → V → Prop) (hrefl : ∀ v, R v v) (m : GoMap V)
    (k : String) (v' : V) (h : ∀ v, GoMap.get m k = some v → R v v') (k0 : String) (v0 : V)
    (h0 : GoMap.get m k0 = some v0) :
    ∃ v0', GoMap.get (GoMap.set m k v') k0 = some v0' ∧ R v0 v0' := by
  rw [GoMap.get_set]
  by_cases hk : k0 = k
  · subst hk
    exact ⟨v', by simp, h v0 h0⟩
  · exact ⟨v0, by simp [hk, h0], hrefl v0⟩

theorem voterKept_refl {PK : Type} (v : Voter PK) : VoterKept v v := ⟨rfl, rfl, rfl, rfl⟩

theorem candidateKept_refl {PK : Type} (c : Candidate PK) : CandidateKept c c :=
  ⟨rfl, rfl, rfl, rfl, rfl⟩

theorem electionIdentityKept_refl {PK : Type} (e : Election PK) : ElectionIdentityKept e e :=
  ⟨rfl, rfl, rfl, rfl, rfl, rfl, rfl, fun _ c hc => ⟨c, hc, candidateKept_refl c⟩⟩

theorem preserved_refl {PK : Type} (vs : VotingState PK) : Preserved vs vs :=
  ⟨fun _ v hv => ⟨v, hv, voterKept_refl v⟩, fun _ e he => ⟨e, he, electionIdentityKept_refl e⟩⟩

/-- A change of the candidates map of an election that keeps every candidate keeps the
election. -/
theorem electionIdentityKept_of_candidates {PK : Type} (e : Election PK)
    (cands : GoMap (Candidate PK)) (counts : GoMap Nat)
    (h : ∀ cid c, GoMap.get e.Candidates cid = some c →
      ∃ c', GoMap.get cands cid = some c' ∧ CandidateKept c c') :
    ElectionIdentityKept e { e with Candidates := cands, VoteCounts := counts } :=
  ⟨rfl, rfl, rfl, rfl, rfl, rfl, rfl, h⟩

/-- Every write of `Effect` keeps every voter, election and candidate, with its identity
fields. -/
theorem preserved_of_effect {PK : Type} (now : Int) {vs vs' : VotingState PK}
    (h : Effect now vs vs') : Preserved vs vs' := by
  cases h with
  | unchanged => exact preserved_refl vs
  | voterAdded voterID voter hg =>
    refine ⟨?_, (preserved_refl vs).2⟩
    intro vid v hv
    refine set_keeps VoterKept voterKept_refl _ _ _ ?_ vid v hv
    intro v0 h0
    rw [hg] at h0
    cases h0
  | voterStatus voterID voter st hg =>
    refine ⟨?_, (preserved_refl vs).2⟩
    intro vid v hv
    refine set_keeps VoterKept voterKept_refl _ _ _ ?_ vid v hv
    intro v0 h0
    rw [hg] at h0
    cases h0
    exact ⟨rfl, rfl, rfl, rfl⟩
  | electionAdded eid e hg _ _ =>
    refine ⟨(preserved_refl vs).1, ?_⟩
    intro k e0 he0
    refine set_keeps ElectionIdentityKept electionIdentityKept_refl _ _ _ ?_ k e0 he0
    intro v0 h0
    rw [hg] at h0
    cases h0
  | candidateAdded eid cid e c hg hc _ _ _ =>
    refine ⟨(preserved_refl vs).1, ?_⟩
    intro k e0 he0
    refine set_keeps ElectionIdentityKept electionIdentityKept_refl _ _ _ ?_ k e0 he0
    intro v0 h0
    rw [hg] at h0
    cases h0
    refine electionIdentityKept_of_candidates e _ _ ?_
    intro k1 c1 hc1
    refine set_keeps CandidateKept candidateKept_refl _ _ _ ?_ k1 c1 hc1
    intro c0 h1
    rw [hc] at h1
    cases h1
  | candidateStatus eid cid e c st hg hc =>
    refine ⟨(preserved_refl vs).1, ?_⟩
    intro k e0 he0
    refine set_keeps ElectionIdentityKept electionIdentityKept_refl _ _ _ ?_ k e0 he0
    intro v0 h0
    rw [hg] at h0
    cases h0
    refine electionIdentityKept_of_candidates e _ e.VoteCounts ?_
    intro k1 c1 hc1
    refine set_keeps CandidateKept candidateKept_refl _ _ _ ?_ k1 c1 hc1
    intro c0 h1
    rw [hc] at h1
    cases h1
    exact ⟨rfl, rfl, rfl, rfl, rfl⟩
  | vote eid cid e c hasVoted' hg hc _ _ _ =>
    refine ⟨(preserved_refl vs).1, ?_⟩
    intro k e0 he0
    refine set_keeps ElectionIdentityKept electionIdentityKept_refl _ _ _ ?_ k e0 he0
    intro v0 h0
    rw [hg] at h0
    cases h0
    refine ⟨rfl, rfl, rfl, rfl, rfl, rfl, rfl, ?_⟩
    intro k1 c1 hc1
    refine set_keeps CandidateKept candidateKept_refl _ _ _ ?_ k1 c1 hc1
    intro c0 h1
    rw [hc] at h1
    cases h1
    exact ⟨rfl, rfl, rfl, rfl, rfl⟩
  | statuses =>
    refine ⟨(preserved_refl vs).1, ?_⟩
    intro k e0 he0
    refine ⟨updateStatus now e0, ?_, ?_⟩
    · simp [UpdateElectionStatuses, GoMap.get_mapValues, he0]
    · obtain ⟨h1, h2, h3, h4, h5, h6, h7, h8, _⟩ := updateStatus_fields now e0
      refine ⟨h1, h2, h3, h4, h5, h6, h7, ?_⟩
      intro cid c hc
      rw [h8]
      exact ⟨c, hc, candidateKept_refl c⟩

/-- C22: entities are never deleted and their identity fields never change.  For every engine
method, every state and every input, each voter ID, election ID and (election, candidate) ID
present before the call is present after it; the ID, public key, document hash and timestamp
of a voter, the ID, election ID, public key, profile hash and timestamp of a candidate, and
the ID, title, description, start and end times, admin key and timestamp of an election are
the same after the call as before: on existing entities only statuses, tallies and hasVoted
marks are written. -/
theorem C22_entities_kept {PK : Type} (keyStr : PK → String) (vs : VotingState PK) :
    (∀ tx, Preserved vs (RegisterVoter tx vs).1) ∧
    (∀ voterID adminKey, Preserved vs (ApproveVoter voterID adminKey vs).1) ∧
    (∀ voterID adminKey, Preserved vs (RejectVoter voterID adminKey vs).1) ∧
    (∀ now tx, Preserved vs (CreateElection now tx vs).1) ∧
    (∀ tx, Preserved vs (RegisterCandidate tx vs).1) ∧
    (∀ electionID candidateID adminKey,
      Preserved vs (ApproveCandidate keyStr electionID candidateID adminKey vs).1) ∧
    (∀ electionID candidateID adminKey,
      Preserved vs (RejectCandidate keyStr electionID candidateID adminKey vs).1) ∧
    (∀ now scan tx, Preserved vs (CastVote keyStr now scan tx vs).1) ∧
    (∀ now, Preserved vs (UpdateElectionStatuses now vs)) :=
  ⟨fun tx => preserved_of_effect 0 (effect_RegisterVoter 0 tx vs),
    fun voterID adminKey => preserved_of_effect 0 (effect_ApproveVoter 0 voterID adminKey vs),
    fun voterID adminKey => preserved_of_effect 0 (effect_RejectVoter 0 voterID adminKey vs),
    fun now tx => preserved_of_effect now (effect_CreateElection now tx vs),
    fun tx => preserved_of_effect 0 (effect_RegisterCandidate 0 tx vs),
    fun eid cid adminKey =>
      preserved_of_effect 0 (effect_ApproveCandidate keyStr 0 eid cid adminKey vs),
    fun eid cid adminKey =>
      preserved_of_effect 0 (effect_RejectCandidate keyStr 0 eid cid adminKey vs),
    fun now scan tx => preserved_of_effect now (effect_CastVote keyStr now scan tx vs),
    fun now => preserved_of_effect now Effect.statuses⟩

/-! ## Invariants of the tallies, the candidates and the hasVoted maps -/

/-- C23: in every state reachable from `NewVotingState`, for every election the key set of
`VoteCounts` is a subset of the key set of `Candidates`: no tally exists for a candidate ID
that is not registered in that election. -/
theorem C23_counts_subset_candidates {PK : Type} (keyStr : PK → String) (vs : VotingState PK)
    (h : Reachable keyStr vs) (electionID : String) (election : Election PK)
    (he : GoMap.get vs.elections electionID = some election) :
    ∀ cid, cid ∈ GoMap.keys election.VoteCounts → cid ∈ GoMap.keys election.Candidates := by
  intro cid hcid
  obtain ⟨n, hn⟩ := GoMap.get_of_mem_keys hcid
  obtain ⟨c, hc⟩ := (inv_of_reachable keyStr h).countCand electionID election cid n he hn
  exact GoMap.mem_keys_of_get hc

/-- C23 at the example state `exTwoCandsVoted`, where election `e1` has two candidates: the
tally key `c2` is a candidate ID. -/
theorem C23_counts_subset_candidates_witness :
    "c2" ∈ GoMap.keys
      [("c1", ({ ID := "c1", ElectionID := "e1", PublicKey := "ck1",
                 IPFSProfileHash := "p1", Status := .Approved, Timestamp := 3,
                 VoteCount := 1 } : Candidate String)),
       ("c2", { ID := "c2", ElectionID := "e1", PublicKey := "ck2", IPFSProfileHash := "p2",
                Status := .Pending, Timestamp := 3, VoteCount := 0 })] :=
  C23_counts_subset_candidates id exTwoCandsVoted
    (Reachable.castVote 10 exTwoCands.voters exVoteTx exTwoCands_reachable (List.Perm.refl _))
    "e1"
    { ID := "e1", Title := "Board", Description := "", StartTime := 0, EndTime := 100,
      AdminKey := "adm", Status := .Active, Timestamp := 2,
      Candidates :=
        [("c1", { ID := "c1", ElectionID := "e1", PublicKey := "ck1", IPFSProfileHash := "p1",
                  Status := .Approved, Timestamp := 3, VoteCount := 1 }),
         ("c2", { ID := "c2", ElectionID := "e1", PublicKey := "ck2", IPFSProfileHash := "p2",
                  Status := .Pending, Timestamp := 3, VoteCount := 0 })],
      VoteCounts := [("c1", 1), ("c2", 0)] }
    (by decide) "c2" (by decide)

/-- Every write of `Effect` keeps the candidates under their own IDs. -/
theorem candidateIDs_of_effect {PK : Type} (now : Int) {vs vs' : VotingState PK}
    (hP : CandidateIDs vs) (h : Effect now vs vs') : CandidateIDs vs' := by
  cases h with
  | unchanged => exact hP
  | voterAdded voterID voter hg => exact hP
  | voterStatus voterID voter st hg => exact hP
  | electionAdded eid e hg hc _ =>
    intro k e' cid c he' hc'
    simp only [GoMap.get_set] at he'
    by_cases hk : k = eid
    · simp only [hk, if_true, Option.some.injEq] at he'
      subst he'
      rw [hc] at hc'
      simp [GoMap.get] at hc'
    · simp only [hk, if_false] at he'
      exact hP k e' cid c he' hc'
  | candidateAdded eid cid e c hg hc h1 h2 _ =>
    intro k e' cid' c' he' hc'
    simp only [GoMap.get_set] at he'
    by_cases hk : k = eid
    · simp only [hk, if_true, Option.some.injEq] at he'
      subst he'
      simp only [GoMap.get_set] at hc'
      by_cases hcid : cid' = cid
      · simp only [hcid, if_true, Option.some.injEq] at hc'
        subst hc'
        exact ⟨by rw [h2, hk], by rw [h1, hcid]⟩
      · simp only [hcid, if_false] at hc'
        rw [hk]
        exact hP eid e cid' c' hg hc'
    · simp only [hk, if_false] at he'
      exact hP k e' cid' c' he' hc'
  | candidateStatus eid cid e c st hg hc =>
    intro k e' cid' c' he' hc'
    simp only [GoMap.get_set] at he'
    by_cases hk : k = eid
    · simp only [hk, if_true, Option.some.injEq] at he'
      subst he'
      simp only [GoMap.get_set] at hc'
      rw [hk]
      by_cases hcid : cid' = cid
      · simp only [hcid, if_true, Option.some.injEq] at hc'
        subst hc'
        rw [hcid]
        exact hP eid e cid c hg hc
      · simp only [hcid, if_false] at hc'
        exact hP eid e cid' c' hg hc'
    · simp only [hk, if_false] at he'
      exact hP k e' cid' c' he' hc'
  | vote eid cid e c hasVoted' hg hc _ _ _ =>
    intro k e' cid' c' he' hc'
    simp only [GoMap.get_set] at he'
    by_cases hk : k = eid
    · simp only [hk, if_true, Option.some.injEq] at he'
      subst he'
      simp only [GoMap.get_set] at hc'
      rw [hk]
      by_cases hcid : cid' = cid
      · simp only [hcid, if_true, Option.some.injEq] at hc'
        subst hc'
        rw [hcid]
        exact hP eid e cid c hg hc
      · simp only [hcid, if_false] at hc'
        exact hP eid e cid' c' hg hc'
    · simp only [hk, if_false] at he'
      exact hP k e' cid' c' he' hc'
  | statuses =>
    intro k e' cid' c' he' hc'
    simp only [UpdateElectionStatuses, GoMap.get_mapValues] at he'
    cases hg : GoMap.get vs.elections k with
    | none => simp [hg] at he'
    | some e0 =>
      simp only [hg, Option.map_some', Option.some.injEq] at he'
      subst he'
      rw [(updateStatus_fields now e0).2.2.2.2.2.2.2.1] at hc'
      exact hP k e0 cid' c' hg hc'

/-- C24: the two tally stores never disagree.  In every state reachable from
`NewVotingState`, for every election and every candidate ID in its `Candidates` map,
`VoteCounts` contains that ID and the candidate's `VoteCount` equals the election's
`VoteCounts` entry; and every candidate stored under an election names that election in its
`ElectionID` and is stored under its own ID. -/
theorem C24_tally_stores_agree {PK : Type} (keyStr : PK → String) (vs : VotingState PK)
    (h : Reachable keyStr vs) (electionID candidateID : String) (election : Election PK)
    (candidate : Candidate PK) (he : GoMap.get vs.elections electionID = some election)
    (hc : GoMap.get election.Candidates candidateID = some candidate) :
    GoMap.get election.VoteCounts candidateID = some candidate.VoteCount ∧
    candidate.ElectionID = electionID ∧ candidate.ID = candidateID := by
  have hids : CandidateIDs vs :=
    reachable_effect_induction keyStr CandidateIDs
      (by intro eid e cid c he; simp [NewVotingState, GoMap.get] at he)
      (fun now _ _ _ hP hE => candidateIDs_of_effect now hP hE) h
  exact ⟨(inv_of_reachable keyStr h).candCount electionID election candidateID candidate he hc,
    hids electionID election candidateID candidate he hc⟩

/-- C24 at the example state `exVoted`, for candidate `c1` of election `e1`. -/
theorem C24_tally_stores_agree_witness :
    GoMap.get exVotedElection.VoteCounts "c1" = some 1 ∧
    (("e1" : String) = "e1") ∧ (("c1" : String) = "c1") :=
  C24_tally_stores_agree id exVoted exVoted_reachable "e1" "c1" exVotedElection
    { ID := "c1", ElectionID := "e1", PublicKey := "ck1", IPFSProfileHash := "p1",
      Status := .Approved, Timestamp := 3, VoteCount := 1 }
    (by decide) (by decide)

/-- The marks of a hasVoted map whose keys are registered voter IDs are at most as many as the
registered voters. -/
theorem countTrue_le_length {V : Type} (voted : GoMap Bool) (voters : GoMap V)
    (hn : (GoMap.keys voted).Nodup)
    (hsub : ∀ vid ∈ GoMap.keys voted, vid ∈ GoMap.keys voters) :
    countTrue voted ≤ voters.length := by
  have hsl : ((voted.filter (fun p => p.2)).map Prod.fst).Sublist (GoMap.keys voted) :=
    List.Sublist.map _ (List.filter_sublist _)
  have hnd : ((voted.filter (fun p => p.2)).map Prod.fst).Nodup := hn.sublist hsl
  have hss : ((voted.filter (fun p => p.2)).map Prod.fst) ⊆ GoMap.keys voters :=
    fun x hx => hsub x (hsl.subset hx)
  have hlen := (List.subperm_of_subset hnd hss).length_le
  simp only [List.length_map, GoMap.keys] at hlen
  exact hlen

/-- Every write of `Effect` keeps every hasVoted map with an election. -/
theorem votedOfElection_of_effect {PK : Type} (now : Int) {vs vs' : VotingState PK}
    (hP : VotedOfElection vs) (h : Effect now vs vs') : VotedOfElection vs' := by
  have hkeep : ∀ k, (∃ e, GoMap.get vs.elections k = some e) →
      ∃ e', GoMap.get vs'.elections k = some e' := by
    rintro k ⟨e, he⟩
    obtain ⟨e', he', _⟩ := (preserved_of_effect now h).2 k e he
    exact ⟨e', he'⟩
  have hold : ∀ k voted, GoMap.get vs.hasVoted k = some voted →
      ∃ e', GoMap.get vs'.elections k = some e' :=
    fun k voted hk => hkeep k (hP k voted hk)
  cases h with
  | unchanged => exact hold
  | voterAdded voterID voter hg => exact hold
  | voterStatus voterID voter st hg => exact hold
  | electionAdded eid e hg _ _ =>
    intro k voted hk
    simp only [GoMap.get_set] at hk
    by_cases hke : k = eid
    · exact ⟨e, by simp [GoMap.get_set, hke]⟩
    · simp only [hke, if_false] at hk
      exact hold k voted hk
  | candidateAdded eid cid e c hg hc _ _ _ => exact hold
  | candidateStatus eid cid e c st hg hc => exact hold
  | vote eid cid e c hasVoted' hg hc _ _ hv =>
    intro k voted hk
    rcases hv with hv | ⟨voted0, voterID, voter, hh, _, hv⟩
    · simp only [hv] at hk
      exact hold k voted hk
    · simp only [hv, GoMap.get_set] at hk
      by_cases hke : k = eid
      · exact hkeep k ⟨e, by rw [hke]; exact hg⟩
      · simp only [hke, if_false] at hk
        exact hold k voted hk
  | statuses => exact hold

/-- C25: in every state reachable from `NewVotingState`, hasVoted has an inner map for exactly
the election IDs present in elections (so the nested write of `CastVote` never targets a
missing inner map); every voter ID marked `true` in the hasVoted map of an election is the ID
of a registered voter; and the votes recorded in an election are at most as many as the
registered voters. -/
theorem C25_hasVoted_consistent {PK : Type} (keyStr : PK → String) (vs : VotingState PK)
    (h : Reachable keyStr vs) :
    (∀ eid, (∃ voted, GoMap.get vs.hasVoted eid = some voted) ↔
      (∃ e, GoMap.get vs.elections eid = some e)) ∧
    (∀ eid voted vid, GoMap.get vs.hasVoted eid = some voted →
      GoMap.get voted vid = some true → ∃ voter, GoMap.get vs.voters vid = some voter) ∧
    (∀ eid e, GoMap.get vs.elections eid = some e →
      tallySum e.VoteCounts ≤ vs.voters.length ∧
      countTrue (votedIn vs eid) ≤ vs.voters.length) := by
  have hinv := inv_of_reachable keyStr h
  have hvoe : VotedOfElection vs :=
    reachable_effect_induction keyStr VotedOfElection
      (by intro eid voted hv; simp [NewVotingState, GoMap.get] at hv)
      (fun now _ _ _ hP hE => votedOfElection_of_effect now hP hE) h
  refine ⟨?_, ?_, ?_⟩
  · intro eid
    constructor
    · rintro ⟨voted, hv⟩
      exact hvoe eid voted hv
    · rintro ⟨e, he⟩
      exact hinv.votedSome eid e he
  · intro eid voted vid hv hm
    exact GoMap.get_of_mem_keys
      (hinv.votedRegistered eid voted hv vid (GoMap.mem_keys_of_get hm))
  · intro eid e he
    obtain ⟨voted, hv⟩ := hinv.votedSome eid e he
    have hle : countTrue (votedIn vs eid) ≤ vs.voters.length := by
      simp only [votedIn, hv, Option.getD_some]
      exact countTrue_le_length voted vs.voters (hinv.votedNodup eid voted hv)
        (hinv.votedRegistered eid voted hv)
    rw [hinv.tally eid e he]
    exact ⟨hle, hle⟩

/-- C25 at the example state `exVoted`: one election, one voter, one vote. -/
theorem C25_hasVoted_consistent_witness :
    ((∃ voted, GoMap.get exVoted.hasVoted "e1" = some voted) ↔
      (∃ e, GoMap.get exVoted.elections "e1" = some e)) ∧
    (∃ voter, GoMap.get exVoted.voters "v1" = some voter) ∧
    tallySum exVotedElection.VoteCounts ≤ exVoted.voters.length :=
  ⟨(C25_hasVoted_consistent id exVoted exVoted_reachable).1 "e1",
    (C25_hasVoted_consistent id exVoted exVoted_reachable).2.1 "e1" [("v1", true)] "v1"
      (by decide) (by decide),
    ((C25_hasVoted_consistent id exVoted exVoted_reachable).2.2 "e1" exVotedElection
      (by decide)).1⟩

/-! ## The stored status is not read -/

theorem set_mapValues {V : Type} (f : V → V) (m : GoMap V) (k : String) (v : V) :
    GoMap.set (GoMap.mapValues f m) k (f v) = GoMap.mapValues f (GoMap.set m k v) := by
  induction m with
  | nil => simp [GoMap.mapValues, GoMap.set]
  | cons p rest ih =>
    obtain ⟨k0, v0⟩ := p
    simp only [GoMap.mapValues] at ih
    by_cases h0 : k0 = k
    · simp [GoMap.mapValues, GoMap.set, h0]
    · simp [GoMap.mapValues, GoMap.set, h0, ih]

/-- `CastVote` on the state with the statuses blanked returns what it returns on the state
itself, and leaves the state it leaves there, with the statuses blanked. -/
theorem castVote_eraseStatus {PK : Type} (keyStr : PK → String) (now : Int)
    (scan : List (String × Voter PK)) (tx : VoteTx PK) (vs : VotingState PK) :
    CastVote keyStr now scan tx (eraseStatus vs) =
      (eraseStatus (CastVote keyStr now scan tx vs).1, (CastVote keyStr now scan tx vs).2) := by
  unfold CastVote
  simp only [eraseStatus, GoMap.get_mapValues]
  cases he : GoMap.get vs.elections tx.ElectionID with
  | none => rfl
  | some election =>
    simp only [Option.map_some']
    by_cases h1 : now < election.StartTime
    · simp [h1]
    by_cases h2 : now ≥ election.EndTime
    · simp [h1, h2]
    by_cases h3 : findVoterID keyStr (keyStr tx.VoterPublicKey) scan = ""
    · simp [h1, h2, h3]
    cases hvt : GoMap.get vs.voters (findVoterID keyStr (keyStr tx.VoterPublicKey) scan) with
    | none => simp [h1, h2, h3]
    | some voter =>
      by_cases h4 : voter.Status = .Approved
      swap
      · simp [h1, h2, h3, h4]
      cases hc : GoMap.get election.Candidates tx.CandidateID with
      | none => simp [h1, h2, h3, h4]
      | some candidate =>
        by_cases h5 : candidate.Status = .Approved
        swap
        · simp [h1, h2, h3, h4, h5]
        by_cases h6 : GoMap.get ((GoMap.get vs.hasVoted tx.ElectionID).getD [])
            (findVoterID keyStr (keyStr tx.VoterPublicKey) scan) = some true
        · simp [h1, h2, h3, h4, h5, h6]
        · have hset := set_mapValues (fun e : Election PK => { e with Status := .Pending })
            vs.elections tx.ElectionID
            { election with
                VoteCounts := GoMap.set election.VoteCounts tx.CandidateID
                  (incr64 ((GoMap.get election.VoteCounts tx.CandidateID).getD 0))
                Candidates := GoMap.set election.Candidates tx.CandidateID
                  { candidate with VoteCount := incr64 candidate.VoteCount } }
          simp only [h5] at hset
          cases hh : GoMap.get vs.hasVoted tx.ElectionID with
          | none =>
            simp only [hh, Option.getD_none] at h6
            simp [h1, h2, h3, h4, h5, h6, hset]
          | some voted =>
            simp only [hh, Option.getD_some] at h6
            simp [h1, h2, h3, h4, h5, h6, hset]

/-- `CastVote` writes no election status. -/
theorem castVote_status {PK : Type} (keyStr : PK → String) (now : Int)
    (scan : List (String × Voter PK)) (tx : VoteTx PK) (vs : VotingState PK) (k : String) :
    (GoMap.get (CastVote keyStr now scan tx vs).1.elections k).map (fun e => e.Status) =
      (GoMap.get vs.elections k).map (fun e => e.Status) := by
  unfold CastVote
  cases he : GoMap.get vs.elections tx.ElectionID with
  | none => rfl
  | some election =>
    dsimp only
    by_cases h1 : now < election.StartTime
    · rw [if_pos h1]
    rw [if_neg h1]
    by_cases h2 : now ≥ election.EndTime
    · rw [if_pos h2]
    rw [if_neg h2]
    by_cases h3 : findVoterID keyStr (keyStr tx.VoterPublicKey) scan = ""
    · rw [if_pos h3]
    rw [if_neg h3]
    cases hvt : GoMap.get vs.voters (findVoterID keyStr (keyStr tx.VoterPublicKey) scan) with
    | none => rfl
    | some voter =>
      dsimp only
      by_cases h4 : voter.Status ≠ .Approved
      · rw [if_pos h4]
      rw [if_neg h4]
      cases hc : GoMap.get election.Candidates tx.CandidateID with
      | none => rfl
      | some candidate =>
        dsimp only
        by_cases h5 : candidate.Status ≠ .Approved
        · rw [if_pos h5]
        rw [if_neg h5]
        by_cases h6 : GoMap.get ((GoMap.get vs.hasVoted tx.ElectionID).getD [])
            (findVoterID keyStr (keyStr tx.VoterPublicKey) scan) = some true
        · rw [if_pos h6]
        rw [if_neg h6]
        have hk : ∀ e1 : Election PK, e1.Status = election.Status →
            (GoMap.get (GoMap.set vs.elections tx.ElectionID e1) k).map (fun e => e.Status) =
              (GoMap.get vs.elections k).map (fun e => e.Status) := by
          intro e1 h1
          rw [GoMap.get_set]
          by_cases hke : k = tx.ElectionID
          · simp [hke, he, h1]
          · simp [hke]
        cases hh : GoMap.get vs.hasVoted tx.ElectionID with
        | none => exact hk _ rfl
        | some voted => exact hk _ rfl

/-- `GetElectionResults` on the state with the statuses blanked returns what it returns on the
state itself. -/
theorem getElectionResults_eraseStatus {PK : Type} (now : Int) (electionID : String)
    (vs : VotingState PK) :
    (GetElectionResults now electionID (eraseStatus vs)).2 =
      (GetElectionResults now electionID vs).2 := by
  unfold GetElectionResults
  simp only [eraseStatus, GoMap.get_mapValues]
  cases he : GoMap.get vs.elections electionID with
  | none => rfl
  | some election =>
    simp only [Option.map_some']
    by_cases h1 : now < election.EndTime
    · simp [h1]
    · simp [h1]

/-- C28: `CastVote` and `GetElectionResults` decide the voting window from `StartTime`,
`EndTime` and the clock only and never read the stored `Status`.  For any two states that
differ only in the `Status` field of elections, `CastVote` returns the same result and makes the
same updates (the states after it differ only in the `Status` fields again, and it writes no
`Status`), and `GetElectionResults` returns the same result and leaves the state as it is.  In
particular the vote at time 60 in `exPendingReady` is accepted: its election is open over
`[50, 100)`, was created at time 5, and is still stored as Pending. -/
theorem C28_status_not_read {PK : Type} (keyStr : PK → String) (now : Int)
    (scan : List (String × Voter PK)) (tx : VoteTx PK) (electionID : String)
    (vs1 vs2 : VotingState PK) (h : SameButStatus vs1 vs2) :
    (CastVote keyStr now scan tx vs1).2 = (CastVote keyStr now scan tx vs2).2 ∧
    SameButStatus (CastVote keyStr now scan tx vs1).1 (CastVote keyStr now scan tx vs2).1 ∧
    (∀ k, (GoMap.get (CastVote keyStr now scan tx vs1).1.elections k).map (fun e => e.Status) =
      (GoMap.get vs1.elections k).map (fun e => e.Status)) ∧
    (∀ k, (GoMap.get (CastVote keyStr now scan tx vs2).1.elections k).map (fun e => e.Status) =
      (GoMap.get vs2.elections k).map (fun e => e.Status)) ∧
    (GetElectionResults now electionID vs1).2 = (GetElectionResults now electionID vs2).2 ∧
    (GetElectionResults now electionID vs1).1 = vs1 ∧
    (GetElectionResults now electionID vs2).1 = vs2 ∧
    ((GoMap.get exPendingReady.elections "e4").map (fun e => e.Status) = some .Pending ∧
      (CastVote id 60 exPendingReady.voters exVoteTxE4 exPendingReady).2 = .nil) := by
  have h1 := castVote_eraseStatus keyStr now scan tx vs1
  have h2 := castVote_eraseStatus keyStr now scan tx vs2
  unfold SameButStatus at h
  rw [h, h2] at h1
  have h3 := (Prod.ext_iff.1 h1)
  simp only at h3
  have hg : ∀ vs : VotingState PK, (GetElectionResults now electionID vs).1 = vs := by
    intro vs
    unfold GetElectionResults
    split
    · rfl
    · split <;> rfl
  refine ⟨h3.2.symm, h3.1.symm, castVote_status keyStr now scan tx vs1,
    castVote_status keyStr now scan tx vs2, ?_, hg vs1, hg vs2, by decide, by decide⟩
  rw [← getElectionResults_eraseStatus now electionID vs1,
    ← getElectionResults_eraseStatus now electionID vs2, h]

/-- The status update at time 60 changes only `Status` fields. -/
theorem exPendingReady_sameButStatus :
    SameButStatus exPendingReady (UpdateElectionStatuses 60 exPendingReady) := by
  unfold SameButStatus
  decide

/-- C28 at the example state `exPendingReady` and the state after a status update at time 60,
where the election is stored as Active. -/
theorem C28_status_not_read_witness :
    (CastVote id 60 exPendingReady.voters exVoteTxE4 exPendingReady).2 =
      (CastVote id 60 exPendingReady.voters exVoteTxE4
        (UpdateElectionStatuses 60 exPendingReady)).2 ∧
    (GetElectionResults 60 "e4" exPendingReady).2 =
      (GetElectionResults 60 "e4" (UpdateElectionStatuses 60 exPendingReady)).2 :=
  ⟨(C28_status_not_read id 60 exPendingReady.voters exVoteTxE4 "e4" exPendingReady
      (UpdateElectionStatuses 60 exPendingReady) exPendingReady_sameButStatus).1,
    (C28_status_not_read id 60 exPendingReady.voters exVoteTxE4 "e4" exPendingReady
      (UpdateElectionStatuses 60 exPendingReady) exPendingReady_sameButStatus).2.2.2.2.1⟩

/-! ## Results after the end of an election -/

theorem talliesKept_refl {PK : Type} (e : Election PK) : TalliesKept e e :=
  ⟨rfl, rfl, fun _ _ h => h, fun _ c h => ⟨c, h, rfl⟩, fun _ _ h => Or.inl h⟩

theorem talliesKept_trans {PK : Type} {e1 e2 e3 : Election PK} (h12 : TalliesKept e1 e2)
    (h23 : TalliesKept e2 e3) : TalliesKept e1 e3 := by
  obtain ⟨a1, a2, a3, a4, a5⟩ := h12
  obtain ⟨b1, b2, b3, b4, b5⟩ := h23
  refine ⟨b1.trans a1, b2.trans a2, fun cid n h => b3 cid n (a3 cid n h), ?_, ?_⟩
  · intro cid c hc
    obtain ⟨c2, hc2, hv2⟩ := a4 cid c hc
    obtain ⟨c3, hc3, hv3⟩ := b4 cid c2 hc2
    exact ⟨c3, hc3, hv3.trans hv2⟩
  · intro cid n hn
    rcases b5 cid n hn with h2 | h0
    · exact a5 cid n h2
    · exact Or.inr h0

/-- Every write of `Effect` keeps the key sets of the tally maps free of duplicates. -/
theorem countsNodup_of_effect {PK : Type} (now : Int) {vs vs' : VotingState PK}
    (hP : CountsNodup vs) (h : Effect now vs vs') : CountsNodup vs' := by
  cases h with
  | unchanged => exact hP
  | voterAdded voterID voter hg => exact hP
  | voterStatus voterID voter st hg => exact hP
  | electionAdded eid e hg _ hvc =>
    intro k e' he'
    simp only [GoMap.get_set] at he'
    by_cases hk : k = eid
    · simp only [hk, if_true, Option.some.injEq] at he'
      subst he'
      rw [hvc]
      simp [GoMap.keys]
    · simp only [hk, if_false] at he'
      exact hP k e' he'
  | candidateAdded eid cid e c hg hc _ _ _ =>
    intro k e' he'
    simp only [GoMap.get_set] at he'
    by_cases hk : k = eid
    · simp only [hk, if_true, Option.some.injEq] at he'
      subst he'
      exact GoMap.nodup_keys_set _ _ _ (hP eid e hg)
    · simp only [hk, if_false] at he'
      exact hP k e' he'
  | candidateStatus eid cid e c st hg hc =>
    intro k e' he'
    simp only [GoMap.get_set] at he'
    by_cases hk : k = eid
    · simp only [hk, if_true, Option.some.injEq] at he'
      subst he'
      exact hP eid e hg
    · simp only [hk, if_false] at he'
      exact hP k e' he'
  | vote eid cid e c hasVoted' hg hc _ _ _ =>
    intro k e' he'
    simp only [GoMap.get_set] at he'
    by_cases hk : k = eid
    · simp only [hk, if_true, Option.some.injEq] at he'
      subst he'
      exact GoMap.nodup_keys_set _ _ _ (hP eid e hg)
    · simp only [hk, if_false] at he'
      exact hP k e' he'
  | statuses =>
    intro k e' he'
    simp only [UpdateElectionStatuses, GoMap.get_mapValues] at he'
    cases hg : GoMap.get vs.elections k with
    | none => simp [hg] at he'
    | some e0 =>
      simp only [hg, Option.map_some', Option.some.injEq] at he'
      subst he'
      rw [(updateStatus_fields now e0).2.2.2.2.2.2.2.2]
      exact hP k e0 hg

/-- In every reachable state no tally map has a candidate ID twice. -/
theorem countsNodup_of_reachable {PK : Type} (keyStr : PK → String) {vs : VotingState PK}
    (h : Reachable keyStr vs) : CountsNodup vs :=
  reachable_effect_induction keyStr CountsNodup
    (by intro eid e he; simp [NewVotingState, GoMap.get] at he)
    (fun now _ _ _ hP hE => countsNodup_of_effect now hP hE) h

/-- A write of `Effect` at a clock reading at or after the end of an election keeps the
tallies of that election, in a consistent state. -/
theorem talliesKept_of_effect {PK : Type} (now : Int) {vs vs' : VotingState PK} (hinv : Inv vs)
    (h : Effect now vs vs') (eid : String) (e : Election PK)
    (he : GoMap.get vs.elections eid = some e) (hend : e.EndTime ≤ now) :
    ∃ e', GoMap.get vs'.elections eid = some e' ∧ TalliesKept e e' := by
  have hsame : ∃ e', GoMap.get vs.elections eid = some e' ∧ TalliesKept e e' :=
    ⟨e, he, talliesKept_refl e⟩
  cases h with
  | unchanged => exact hsame
  | voterAdded voterID voter hg => exact hsame
  | voterStatus voterID voter st hg => exact hsame
  | electionAdded eid0 e0 hg _ _ =>
    have hk : eid ≠ eid0 := by
      intro hk
      rw [hk, hg] at he
      cases he
    exact ⟨e, by simp [GoMap.get_set, hk, he], talliesKept_refl e⟩
  | candidateAdded eid0 cid0 e0 c0 hg hc _ _ _ =>
    by_cases hk : eid = eid0
    · subst hk
      rw [hg] at he
      cases he
      refine ⟨_, GoMap.get_set_same _ _ _, rfl, rfl, ?_, ?_, ?_⟩
      · intro cid n hn
        obtain ⟨c, hcc⟩ := hinv.countCand eid e cid n hg hn
        have hne : cid ≠ cid0 := by
          intro hcid
          rw [hcid, hc] at hcc
          cases hcc
        simp only
        rw [GoMap.get_set_other _ _ _ _ hne]
        exact hn
      · intro cid c hcc
        have hne : cid ≠ cid0 := by
          intro hcid
          rw [hcid, hc] at hcc
          cases hcc
        exact ⟨c, by simp only; rw [GoMap.get_set_other _ _ _ _ hne]; exact hcc, rfl⟩
      · intro cid n hn
        simp only [GoMap.get_set] at hn
        by_cases hcid : cid = cid0
        · simp only [hcid, if_true, Option.some.injEq] at hn
          exact Or.inr hn.symm
        · simp only [hcid, if_false] at hn
          exact Or.inl hn
    · exact ⟨e, by simp [GoMap.get_set, hk, he], talliesKept_refl e⟩
  | candidateStatus eid0 cid0 e0 c0 st hg hc =>
    by_cases hk : eid = eid0
    · subst hk
      rw [hg] at he
      cases he
      refine ⟨_, GoMap.get_set_same _ _ _, rfl, rfl, fun _ _ hn => hn, ?_, fun _ _ hn => Or.inl hn⟩
      intro cid c hcc
      simp only [GoMap.get_set]
      by_cases hcid : cid = cid0
      · subst hcid
        rw [hc] at hcc
        cases hcc
        exact ⟨{ c0 with Status := st }, by simp, rfl⟩
      · exact ⟨c, by simp [hcid, hcc], rfl⟩
    · exact ⟨e, by simp [GoMap.get_set, hk, he], talliesKept_refl e⟩
  | vote eid0 cid0 e0 c0 hasVoted' hg hc _ hwin _ =>
    by_cases hk : eid = eid0
    · subst hk
      rw [hg] at he
      cases he
      omega
    · exact ⟨e, by simp [GoMap.get_set, hk, he], talliesKept_refl e⟩
  | statuses =>
    refine ⟨updateStatus now e, by simp [UpdateElectionStatuses, GoMap.get_mapValues, he], ?_⟩
    obtain ⟨_, _, _, h4, h5, _, _, h8, h9⟩ := updateStatus_fields now e
    refine ⟨h4, h5, ?_, ?_, ?_⟩
    · intro cid n hn
      rw [h9]
      exact hn
    · intro cid c hcc
      rw [h8]
      exact ⟨c, hcc, rfl⟩
    · intro cid n hn
      rw [h9] at hn
      exact Or.inl hn

/-- Along a run that starts at or after the end of an election, in a reachable state, the
tallies of that election are kept. -/
theorem talliesKept_run {PK : Type} (keyStr : PK → String) {now t' : Int}
    {vs vs' : VotingState PK} (hr : Reachable keyStr vs) (h : RunFrom keyStr now vs t' vs')
    (eid : String) (e : Election PK) (he : GoMap.get vs.elections eid = some e)
    (hend : e.EndTime ≤ now) :
    ∃ e', GoMap.get vs'.elections eid = some e' ∧ TalliesKept e e' := by
  induction h with
  | refl => exact ⟨e, he, talliesKept_refl e⟩
  | @step t1 now2 vs1 vs2 hrun hle hs ih =>
    obtain ⟨e1, he1, hk1⟩ := ih
    have hinv1 := inv_of_reachable keyStr (reachable_run keyStr hr hrun)
    have hclock := run_clock_le keyStr hrun
    have hend1 : e1.EndTime ≤ now2 := by
      rw [hk1.2.1]
      omega
    obtain ⟨e2, he2, hk2⟩ :=
      talliesKept_of_effect now2 hinv1 (effect_of_step keyStr now2 hs) eid e1 he1 hend1
    exact ⟨e2, he2, talliesKept_trans hk1 hk2⟩

theorem exInverted_reachable : Reachable (id : String → String) exInverted :=
  Reachable.createElection 50 exElectionTxInverted Reachable.init

/-- C27, as stated, fails in its parenthesis: election `e3`, with `StartTime = 100` and
`EndTime = 0`, exists in a reachable state; at clock reading 50, at or after its `EndTime`,
`CastVote` on it fails with the has-not-started-yet error, not with the has-ended error. -/
theorem C27_counterexample :
    Reachable (id : String → String) exInverted ∧
    (GoMap.get exInverted.elections "e3").map (fun e => e.EndTime) = some 0 ∧
    (50 : Int) ≥ 0 ∧
    CastVote id 50 exInverted.voters exVoteTxE3 exInverted =
      (exInverted, .err (.notStarted "e3")) ∧
    (CastVote id 50 exInverted.voters exVoteTxE3 exInverted).2 ≠ .err (.ended "e3") :=
  ⟨exInverted_reachable, by decide, by decide, by decide, by decide⟩

/-- C27, amended: for every reachable state and election, if the clock has reached
`now ≥ EndTime`, then (1) after every sequence of engine operations executed at non-decreasing
clock readings `≥ now` the election still exists with the same window, the tally of every
candidate already in `VoteCounts` and the `VoteCount` of every candidate already registered are
unchanged, every other tally is 0, and `GetElectionResults` succeeds and reports the same value
for every existing tally; (2) every `CastVote` on the election at a clock reading `≥ now` fails
and leaves the state unchanged, with the has-ended error when the clock reading is at or after
`StartTime` and with the has-not-started-yet error otherwise; (3) `RegisterCandidate` of a
candidate ID not yet in the election succeeds, adds a tally 0 under that ID and changes no
other tally. -/
theorem C27_results_final {PK : Type} (keyStr : PK → String) (vs : VotingState PK)
    (h : Reachable keyStr vs) (electionID : String) (election : Election PK)
    (he : GoMap.get vs.elections electionID = some election) (now : Int)
    (hend : now ≥ election.EndTime) :
    (∀ t' vs', RunFrom keyStr now vs t' vs' →
      ∃ election', GoMap.get vs'.elections electionID = some election' ∧
        TalliesKept election election' ∧
        ∃ results, GetElectionResults t' electionID vs' = (vs', some results, .nil) ∧
          (∀ cid, GoMap.get results cid = GoMap.get election'.VoteCounts cid) ∧
          ∀ cid n, GoMap.get election.VoteCounts cid = some n →
            GoMap.get results cid = some n) ∧
    (∀ now' scan (tx : VoteTx PK), now' ≥ now → tx.ElectionID = electionID →
      CastVote keyStr now' scan tx vs =
        (vs, .err (if now' < election.StartTime then .notStarted electionID
                   else .ended electionID))) ∧
    (∀ tx : CandidateRegistrationTx PK, tx.ElectionID = electionID →
      GoMap.get election.Candidates tx.CandidateID = none →
      (RegisterCandidate tx vs).2 = .nil ∧
      ∃ election', GoMap.get (RegisterCandidate tx vs).1.elections electionID = some election' ∧
        GoMap.get election'.VoteCounts tx.CandidateID = some 0 ∧
        ∀ cid, cid ≠ tx.CandidateID →
          GoMap.get election'.VoteCounts cid = GoMap.get election.VoteCounts cid) := by
  refine ⟨?_, ?_, ?_⟩
  · intro t' vs' hrun
    obtain ⟨e', he', hk⟩ := talliesKept_run keyStr h hrun electionID election he hend
    have hnd := countsNodup_of_reachable keyStr (reachable_run keyStr h hrun) electionID e' he'
    have hclock := run_clock_le keyStr hrun
    have hlt : ¬ t' < e'.EndTime := by
      rw [hk.2.1]
      omega
    refine ⟨e', he', hk, copyCounts e'.VoteCounts, by simp [GetElectionResults, he', hlt], ?_, ?_⟩
    · intro cid
      rw [copyCounts_eq _ hnd]
    · intro cid n hn
      rw [copyCounts_eq _ hnd]
      exact hk.2.2.1 cid n hn
  · intro now' scan tx hle htx
    subst htx
    by_cases hlt : now' < election.StartTime
    · simp [CastVote, he, hlt]
    · have hge : now' ≥ election.EndTime := by omega
      simp [CastVote, he, hlt, hge]
  · intro tx htx hnone
    subst htx
    refine ⟨by simp [RegisterCandidate, he, hnone], ?_⟩
    simp only [RegisterCandidate, he, hnone]
    refine ⟨_, GoMap.get_set_same _ _ _, GoMap.get_set_same _ _ _, ?_⟩
    intro cid hcid
    exact GoMap.get_set_other _ _ _ _ hcid

/-- C27 (amended) at the example state `exVoted`, whose election `e1` ends at 100, with the
clock at 100: a vote at 150 fails with the has-ended error, the results at 100 report 1 for
`c1`, and candidate `c2` can still be registered. -/
theorem C27_results_final_witness :
    GoMap.get exVoted.elections "e1" = some exVotedElection ∧
    (100 : Int) ≥ exVotedElection.EndTime ∧
    CastVote id 150 exVoted.voters exVoteTx exVoted = (exVoted, .err (.ended "e1")) ∧
    (RegisterCandidate exCandidateTx2 exVoted).2 = .nil ∧
    ((GetElectionResults 100 "e1" exVoted).2.1.map (fun r => GoMap.get r "c1")) =
      some (some 1) :=
  have hw := C27_results_final id exVoted exVoted_reachable "e1" exVotedElection (by decide) 100
    (by decide)
  ⟨by decide, by decide, hw.2.1 150 exVoted.voters exVoteTx (by decide) rfl,
    (hw.2.2 exCandidateTx2 rfl (by decide)).1,
    by
      obtain ⟨_, _, _, results, hres, _, hkeep⟩ := hw.1 100 exVoted RunFrom.refl
      rw [hres]
      simp [hkeep "c1" 1 (by decide)]⟩

/-! ## Votes per public key -/

theorem mem_markedWithKey {PK : Type} (keyStr : PK → String) (vs : VotingState PK)
    (electionID key : String) (p : String × Bool)
    (hp : p ∈ markedWithKey keyStr vs electionID key) :
    p ∈ votedIn vs electionID ∧ p.2 = true ∧
      ∃ voter, GoMap.get vs.voters p.1 = some voter ∧ keyStr voter.PublicKey = key := by
  unfold markedWithKey at hp
  rw [List.mem_filter] at hp
  obtain ⟨hm, hb⟩ := hp
  rw [Bool.and_eq_true] at hb
  refine ⟨hm, hb.1, ?_⟩
  cases hg : GoMap.get vs.voters p.1 with
  | none =>
    have h2 := hb.2
    rw [hg] at h2
    cases h2
  | some voter =>
    have h2 := hb.2
    rw [hg] at h2
    exact ⟨voter, rfl, of_decide_eq_true h2⟩

/-- A map whose entries all have the same key has at most one entry. -/
theorem length_le_one_of_same_key {V : Type} (m : GoMap V) (hn : (GoMap.keys m).Nodup)
    (hs : ∀ p ∈ m, ∀ q ∈ m, p.1 = q.1) : m.length ≤ 1 := by
  match m, hn, hs with
  | [], _, _ => simp
  | [_], _, _ => simp
  | p :: q :: rest, hn, hs =>
    have hpq : p.1 = q.1 := hs p (by simp) q (by simp)
    simp [GoMap.keys, hpq] at hn

/-- The hasVoted map of an election has no voter ID twice. -/
theorem votedIn_nodup {PK : Type} {vs : VotingState PK} (hinv : Inv vs) (electionID : String) :
    (GoMap.keys (votedIn vs electionID)).Nodup := by
  unfold votedIn
  cases hg : GoMap.get vs.hasVoted electionID with
  | none => simp [GoMap.keys]
  | some voted => exact hinv.votedNodup electionID voted hg

/-- With pairwise distinct key strings the lookup of `CastVote` does not depend on the order of
the scan. -/
theorem findVoterID_scan_irrelevant {PK : Type} (keyStr : PK → String) {vs : VotingState PK}
    (hn : (GoMap.keys vs.voters).Nodup) (hd : DistinctKeys keyStr vs)
    (scan1 scan2 : List (String × Voter PK)) (hp1 : scan1.Perm vs.voters)
    (hp2 : scan2.Perm vs.voters) (key : String) :
    findVoterID keyStr key scan1 = findVoterID keyStr key scan2 := by
  rcases findVoterID_cases keyStr key scan1 with ⟨h1, hno⟩ | ⟨p, hps, hpk, _⟩
  · rcases findVoterID_cases keyStr key scan2 with ⟨h2, _⟩ | ⟨q, hqs, hqk, _⟩
    · rw [h1, h2]
    · exact absurd hqk (hno q (hp1.mem_iff.2 (hp2.mem_iff.1 hqs)))
  · obtain ⟨id1, v1⟩ := p
    have hg : GoMap.get vs.voters id1 = some v1 := GoMap.get_of_mem hn (hp1.mem_iff.1 hps)
    rw [findVoterID_eq_of_distinct keyStr hn hd scan1 hp1 key id1 v1 hg hpk,
      findVoterID_eq_of_distinct keyStr hn hd scan2 hp2 key id1 v1 hg hpk]

/-- `CastVote` reads the scan only through the lookup. -/
theorem castVote_scan {PK : Type} (keyStr : PK → String) (now : Int)
    (scan1 scan2 : List (String × Voter PK)) (tx : VoteTx PK) (vs : VotingState PK)
    (h : findVoterID keyStr (keyStr tx.VoterPublicKey) scan1 =
      findVoterID keyStr (keyStr tx.VoterPublicKey) scan2) :
    CastVote keyStr now scan1 tx vs = CastVote keyStr now scan2 tx vs := by
  unfold CastVote
  rw [h]

/-- C26: double-vote prevention is keyed by voter ID, and `RegisterVoter` does not enforce the
uniqueness of public keys.  (1) There is a reachable state with two Approved voters under
different IDs and the same public key, and orders of the voter scan, for which two successive
`CastVote` calls with that key in the same election both succeed: the tally is 2 and two votes
are recorded for the key.  (2) Conversely, in a reachable state whose registered voters have
pairwise distinct public-key strings, the voter that `CastVote` resolves, hence its whole
outcome, does not depend on the order of the scan; at most one vote is recorded per key and
election; and a `CastVote` succeeds only if no vote is recorded yet for its key in its
election.  (No hypothesis on the IDs is needed.) -/
theorem C26_votes_per_key {PK : Type} (keyStr : PK → String) (vs : VotingState PK)
    (h : Reachable keyStr vs) (hd : DistinctKeys keyStr vs) :
    (∃ (s : VotingState String) (ida idb : String) (va vb : Voter String)
        (scan1 scan2 : List (String × Voter String)) (now : Int) (tx : VoteTx String),
      Reachable (id : String → String) s ∧ ida ≠ idb ∧
      GoMap.get s.voters ida = some va ∧ GoMap.get s.voters idb = some vb ∧
      va.Status = .Approved ∧ vb.Status = .Approved ∧
      va.PublicKey = tx.VoterPublicKey ∧ vb.PublicKey = tx.VoterPublicKey ∧
      scan1.Perm s.voters ∧ (CastVote id now scan1 tx s).2 = .nil ∧
      scan2.Perm (CastVote id now scan1 tx s).1.voters ∧
      (CastVote id now scan2 tx (CastVote id now scan1 tx s).1).2 = .nil ∧
      (GoMap.get (CastVote id now scan2 tx (CastVote id now scan1 tx s).1).1.elections
        tx.ElectionID).map (fun e => GoMap.get e.VoteCounts tx.CandidateID) = some (some 2) ∧
      (markedWithKey id (CastVote id now scan2 tx (CastVote id now scan1 tx s).1).1
        tx.ElectionID tx.VoterPublicKey).length = 2) ∧
    (∀ scan1 scan2 : List (String × Voter PK), scan1.Perm vs.voters → scan2.Perm vs.voters →
      (∀ key, findVoterID keyStr key scan1 = findVoterID keyStr key scan2) ∧
      ∀ now tx, CastVote keyStr now scan1 tx vs = CastVote keyStr now scan2 tx vs) ∧
    (∀ electionID key, (markedWithKey keyStr vs electionID key).length ≤ 1) ∧
    (∀ now scan (tx : VoteTx PK), scan.Perm vs.voters →
      (CastVote keyStr now scan tx vs).2 = .nil →
      markedWithKey keyStr vs tx.ElectionID (keyStr tx.VoterPublicKey) = []) := by
  have hinv := inv_of_reachable keyStr h
  refine ⟨?_, ?_, ?_, ?_⟩
  · exact ⟨exSharedKeyBoth, "a", "b",
      { ID := "a", PublicKey := "k1", IPFSDocHash := "docA", Status := .Approved,
        Timestamp := 1 },
      { ID := "b", PublicKey := "k1", IPFSDocHash := "docB", Status := .Approved,
        Timestamp := 1 },
      exSharedKeyBoth.voters, exScanBA, 10, exVoteTx,
      exSharedKeyBoth_reachable, by decide, by decide, by decide, rfl, rfl, by decide,
      by decide, List.Perm.refl _, by decide, List.reverse_perm exSharedKeyBoth.voters,
      by decide, by decide, by decide⟩
  · intro scan1 scan2 hp1 hp2
    have hf := findVoterID_scan_irrelevant keyStr hinv.votersNodup hd scan1 scan2 hp1 hp2
    exact ⟨hf, fun now tx => castVote_scan keyStr now scan1 scan2 tx vs (hf _)⟩
  · intro electionID key
    apply length_le_one_of_same_key
    · exact List.Nodup.sublist (List.Sublist.map _ (List.filter_sublist _))
        (votedIn_nodup hinv electionID)
    · intro p hp q hq
      obtain ⟨_, _, v1, hv1, hk1⟩ := mem_markedWithKey keyStr vs electionID key p hp
      obtain ⟨_, _, v2, hv2, hk2⟩ := mem_markedWithKey keyStr vs electionID key q hq
      exact hd p.1 q.1 v1 v2 hv1 hv2 (hk1.trans hk2.symm)
  · intro now scan tx hp hok
    obtain ⟨election, voter, candidate, voted, _, _, _, h3, hv, _, _, _, hh, hm, _⟩ :=
      castVote_success keyStr now scan tx vs hok
    have hkey := findVoterID_key keyStr hinv.votersNodup scan hp (keyStr tx.VoterPublicKey)
      voter h3 hv
    rw [List.eq_nil_iff_forall_not_mem]
    intro p hpm
    obtain ⟨hmem, htrue, v1, hv1, hk1⟩ :=
      mem_markedWithKey keyStr vs tx.ElectionID (keyStr tx.VoterPublicKey) p hpm
    have hid : p.1 = findVoterID keyStr (keyStr tx.VoterPublicKey) scan :=
      hd _ _ v1 voter hv1 hv (hk1.trans hkey.symm)
    have hmem2 : (p.1, p.2) ∈ voted := by
      simpa [votedIn, hh] using hmem
    have hget := GoMap.get_of_mem (hinv.votedNodup tx.ElectionID voted hh) hmem2
    rw [hid, htrue] at hget
    exact hm hget

/-- C26 at the example state `exVoted`, where the only voter `v1`, with key `k1`, has voted in
`e1`: the outcome of a vote at time 20 is the same for both orders of the scan, and one vote is
recorded for `k1`. -/
theorem C26_votes_per_key_witness :
    DistinctKeys (id : String → String) exVoted ∧
    CastVote id 20 exVoted.voters exVoteTx exVoted =
      CastVote id 20 exVoted.voters.reverse exVoteTx exVoted ∧
    (markedWithKey id exVoted "e1" "k1").length ≤ 1 ∧
    (markedWithKey id exVoted "e1" "k1").length = 1 :=
  have hw := C26_votes_per_key id exVoted exVoted_reachable exReady_distinctKeys
  ⟨exReady_distinctKeys,
    (hw.2.1 exVoted.voters exVoted.voters.reverse (List.Perm.refl _)
      (List.reverse_perm _)).2 20 exVoteTx,
    hw.2.2.1 "e1" "k1", by decide⟩

/-! ## The end-to-end scenario -/

/-- The state of the scenario before the vote. -/
theorem scenarioReady_eq {PK : Type} (keyStr : PK → String) (T tc : Int)
    (etx : ElectionCreationTx PK) (vtx : VoterRegistrationTx PK) (anyKey : PK)
    (ctx : CandidateRegistrationTx PK)
    (h1 : etx.ElectionID = "E1") (h2 : etx.StartTime = T) (h3 : etx.EndTime = T + 3600)
    (h4 : vtx.VoterID = "V1") (h5 : ctx.CandidateID = "C1") (h6 : ctx.ElectionID = "E1") :
    scenarioReady keyStr tc etx vtx anyKey ctx =
      { voters := [("V1", { ID := "V1", PublicKey := vtx.VoterPublicKey,
                             IPFSDocHash := vtx.IPFSDocHash, Status := .Approved,
                             Timestamp := vtx.Timestamp })]
        elections :=
          [("E1", { ID := "E1", Title := etx.Title, Description := etx.Description,
                    StartTime := T, EndTime := T + 3600, AdminKey := etx.AdminPublicKey,
                    Status := createStatus tc
                      { ID := "E1", Title := etx.Title, Description := etx.Description,
                        StartTime := T, EndTime := T + 3600, AdminKey := etx.AdminPublicKey,
                        Status := .Pending, Timestamp := etx.Timestamp, Candidates := [],
                        VoteCounts := [] },
                    Timestamp := etx.Timestamp,
                    Candidates :=
                      [("C1", { ID := "C1", ElectionID := "E1",
                                PublicKey := ctx.CandidatePublicKey,
                                IPFSProfileHash := ctx.IPFSProfileHash, Status := .Approved,
                                Timestamp := ctx.Timestamp, VoteCount := 0 })],
                    VoteCounts := [("C1", 0)] })]
        hasVoted := [("E1", [])] } := by
  simp [scenarioReady, scenarioCandidate, scenarioApproved, scenarioRegistered, scenarioCreated,
    ApproveCandidate, RegisterCandidate, ApproveVoter, RegisterVoter, CreateElection,
    NewVotingState, GoMap.get, GoMap.set, h1, h2, h3, h4, h5, h6]

/-- C21: the end-to-end scenario, for every `T`, every clock reading `tc` of the creation, all
keys and all other transaction data.  From `NewVotingState`: creating election `E1` with
`StartTime = T` and `EndTime = T + 3600`, registering and approving voter `V1`, registering
candidate `C1` under `E1` and approving it with the admin key of `E1` all succeed; then
`CastVote` for `C1` in `E1` with the key of `V1` at clock reading `T + 10` succeeds and
`VoteCounts[C1] = 1`; the same `CastVote` again at `T + 10` fails with the duplicate-vote error
and leaves the state unchanged; `GetElectionResults` of `E1` at `T + 10` fails with the
has-not-ended-yet error and at `T + 3601` it returns exactly the map with the one entry
`C1 : 1`.  (Times are integers: the engine only compares them.) -/
theorem C21_scenario {PK : Type} (keyStr : PK → String) (T tc : Int)
    (etx : ElectionCreationTx PK) (vtx : VoterRegistrationTx PK) (anyKey : PK)
    (ctx : CandidateRegistrationTx PK) (vote : VoteTx PK)
    (h1 : etx.ElectionID = "E1") (h2 : etx.StartTime = T) (h3 : etx.EndTime = T + 3600)
    (h4 : vtx.VoterID = "V1") (h5 : ctx.CandidateID = "C1") (h6 : ctx.ElectionID = "E1")
    (h7 : vote.ElectionID = "E1") (h8 : vote.CandidateID = "C1")
    (h9 : keyStr vote.VoterPublicKey = keyStr vtx.VoterPublicKey) :
    (CreateElection tc etx NewVotingState).2 = .nil ∧
    (RegisterVoter vtx (scenarioCreated tc etx)).2 = .nil ∧
    (ApproveVoter "V1" anyKey (scenarioRegistered tc etx vtx)).2 = .nil ∧
    (RegisterCandidate ctx (scenarioApproved tc etx vtx anyKey)).2 = .nil ∧
    (ApproveCandidate keyStr "E1" "C1" etx.AdminPublicKey
      (scenarioCandidate tc etx vtx anyKey ctx)).2 = .nil ∧
    ∀ scan : List (String × Voter PK),
      scan.Perm (scenarioReady keyStr tc etx vtx anyKey ctx).voters →
      (CastVote keyStr (T + 10) scan vote (scenarioReady keyStr tc etx vtx anyKey ctx)).2
        = .nil ∧
      (GoMap.get (scenarioVoted keyStr tc etx vtx anyKey ctx (T + 10) scan vote).elections
        "E1").map (fun e => e.VoteCounts) = some [("C1", 1)] ∧
      (∀ scan2 : List (String × Voter PK),
        scan2.Perm (scenarioVoted keyStr tc etx vtx anyKey ctx (T + 10) scan vote).voters →
        CastVote keyStr (T + 10) scan2 vote
            (scenarioVoted keyStr tc etx vtx anyKey ctx (T + 10) scan vote) =
          (scenarioVoted keyStr tc etx vtx anyKey ctx (T + 10) scan vote,
            .err .duplicateVote)) ∧
      GetElectionResults (T + 10) "E1"
          (scenarioVoted keyStr tc etx vtx anyKey ctx (T + 10) scan vote) =
        (scenarioVoted keyStr tc etx vtx anyKey ctx (T + 10) scan vote, none,
          .err (.notEnded "E1")) ∧
      GetElectionResults (T + 3601) "E1"
          (scenarioVoted keyStr tc etx vtx anyKey ctx (T + 10) scan vote) =
        (scenarioVoted keyStr tc etx vtx anyKey ctx (T + 10) scan vote, some [("C1", 1)],
          .nil) := by
  have a1 : ¬ (T + 10 < T) := by omega
  have a2 : ¬ (T + 10 ≥ T + 3600) := by omega
  have a3 : T + 10 < T + 3600 := by omega
  have a4 : ¬ (T + 3601 < T + 3600) := by omega
  have hready := scenarioReady_eq keyStr T tc etx vtx anyKey ctx h1 h2 h3 h4 h5 h6
  refine ⟨?_, ?_, ?_, ?_, ?_, ?_⟩
  · simp [CreateElection, NewVotingState, GoMap.get]
  · simp [scenarioCreated, RegisterVoter, CreateElection, NewVotingState, GoMap.get]
  · simp [scenarioRegistered, scenarioCreated, ApproveVoter, RegisterVoter, CreateElection,
      NewVotingState, GoMap.get, GoMap.set, h4]
  · simp [scenarioApproved, scenarioRegistered, scenarioCreated, RegisterCandidate,
      ApproveVoter, RegisterVoter, CreateElection, NewVotingState, GoMap.get, GoMap.set,
      h1, h4, h6]
  · simp [scenarioCandidate, scenarioApproved, scenarioRegistered, scenarioCreated,
      ApproveCandidate, RegisterCandidate, ApproveVoter, RegisterVoter, CreateElection,
      NewVotingState, GoMap.get, GoMap.set, h1, h4, h5, h6]
  · intro scan hp
    rw [hready] at hp
    have hscan := List.perm_singleton.1 hp
    have hvoted : scenarioVoted keyStr tc etx vtx anyKey ctx (T + 10) scan vote =
        { voters := [("V1", { ID := "V1", PublicKey := vtx.VoterPublicKey,
                               IPFSDocHash := vtx.IPFSDocHash, Status := .Approved,
                               Timestamp := vtx.Timestamp })]
          elections :=
            [("E1", { ID := "E1", Title := etx.Title, Description := etx.Description,
                      StartTime := T, EndTime := T + 3600, AdminKey := etx.AdminPublicKey,
                      Status := createStatus tc
                        { ID := "E1", Title := etx.Title, Description := etx.Description,
                          StartTime := T, EndTime := T + 3600,
                          AdminKey := etx.AdminPublicKey, Status := .Pending,
                          Timestamp := etx.Timestamp, Candidates := [], VoteCounts := [] },
                      Timestamp := etx.Timestamp,
                      Candidates :=
                        [("C1", { ID := "C1", ElectionID := "E1",
                                  PublicKey := ctx.CandidatePublicKey,
                                  IPFSProfileHash := ctx.IPFSProfileHash,
                                  Status := .Approved, Timestamp := ctx.Timestamp,
                                  VoteCount := 1 })],
                      VoteCounts := [("C1", 1)] })]
          hasVoted := [("E1", [("V1", true)])] } := by
      unfold scenarioVoted
      rw [hready, hscan]
      simp [CastVote, findVoterID, GoMap.get, GoMap.set, h7, h8, h9, a1, a2, a3, incr64]
    refine ⟨?_, ?_, ?_, ?_, ?_⟩
    · rw [hready, hscan]
      simp [CastVote, findVoterID, GoMap.get, GoMap.set, h7, h8, h9, a1, a2, a3]
    · rw [hvoted]
      simp [GoMap.get]
    · intro scan2 hp2
      rw [hvoted] at hp2 ⊢
      rw [List.perm_singleton.1 hp2]
      simp [CastVote, findVoterID, GoMap.get, GoMap.set, h7, h8, h9, a1, a2, a3]
    · rw [hvoted]
      simp [GetElectionResults, GoMap.get, a3]
    · rw [hvoted]
      simp [GetElectionResults, GoMap.get, a4, copyCounts, GoMap.set]

/-- C21 with `T = 0` and string keys: the election is created at clock reading 5 and the voters
are visited in the order of the voters map. -/
theorem C21_scenario_witness :
    (CastVote id ((0 : Int) + 10)
      (scenarioReady id 5 exScenarioElectionTx exScenarioVoterTx "any"
        exScenarioCandidateTx).voters
      exScenarioVoteTx
      (scenarioReady id 5 exScenarioElectionTx exScenarioVoterTx "any"
        exScenarioCandidateTx)).2 = .nil ∧
    GetElectionResults ((0 : Int) + 3601) "E1"
        (scenarioVoted id 5 exScenarioElectionTx exScenarioVoterTx "any" exScenarioCandidateTx
          ((0 : Int) + 10)
          (scenarioReady id 5 exScenarioElectionTx exScenarioVoterTx "any"
            exScenarioCandidateTx).voters
          exScenarioVoteTx) =
      (scenarioVoted id 5 exScenarioElectionTx exScenarioVoterTx "any" exScenarioCandidateTx
          ((0 : Int) + 10)
          (scenarioReady id 5 exScenarioElectionTx exScenarioVoterTx "any"
            exScenarioCandidateTx).voters
          exScenarioVoteTx, some [("C1", 1)], .nil) :=
  have hw := (C21_scenario id 0 5 exScenarioElectionTx exScenarioVoterTx "any"
    exScenarioCandidateTx exScenarioVoteTx rfl rfl rfl rfl rfl rfl rfl rfl rfl).2.2.2.2.2
    (scenarioReady id 5 exScenarioElectionTx exScenarioVoterTx "any"
      exScenarioCandidateTx).voters (List.Perm.refl _)
  ⟨hw.1, hw.2.2.2.2⟩


end BockVote
